import Mathlib

/-!
# Readiness mask and stage state machine of the game framework

Shallow embedding of `src/game_framework/game_stage.h`:

* `Masker` (lines 29-100): the per-slot readiness mask shared by a stage tree.
* the atomic `GameStage` (lines 398-533) and the composite `GameStage`
  (lines 257-396), as state transformers over an explicit state;
* the stages of `src/bot_core/test_bot.cc` (`SubStage`, `MainStage`) as concrete
  instances on which the statements are evaluated.

Hooks and commands of a concrete game are parameters.  Each stage carries a trace
`calls` of the calls it makes, in source order, so that "is invoked", "exactly once"
and "before" can be stated.

Further parts, each introduced by its own section:

* the meta commands of `src/bot_core/message_handlers.cc` over parametric match
  operations;
* the card generation of `src/games/alchemist/mygame.cc`;
* cards, decks and hands of `src/game_util/poker.h`;
* the bets of `src/games/lucky_poker/mygame.cc`;
* the board and the settlement of `src/games/unity_chess/mygame.cc`.

`size_t` arithmetic is modelled on `Nat` with explicit reduction modulo
`2 ^ 64`.  Indexing `recorder_` out of range is undefined behaviour in the
source; the model only gives meaning to calls with an in-range index and every
statement below restricts itself to those.
-/

namespace LgtBot

/-- Number of values of the unsigned 64-bit type `size_t`. -/
def SIZE_MOD : Nat := 2 ^ 64

/-- The per-slot state, `enum class State { SET, UNSET, PINNED }`. -/
inductive Masker.State where
  | SET
  | UNSET
  | PINNED
deriving DecidableEq, Repr

/-- The data members of `class Masker`. -/
structure Masker where
  recorder_ : List Masker.State
  any_user_ready_ : Bool
  unset_count_ : Nat
deriving DecidableEq, Repr

/-- Constructor `Masker(const size_t size)`: every slot `UNSET`, the counter equal to
the size, the human-action flag down. -/
def Masker.new (size : Nat) : Masker :=
  { recorder_ := List.replicate size .UNSET
    any_user_ready_ := false
    unset_count_ := size }

/-- `bool IsReady() const { return unset_count_ == 0 && any_user_ready_; }` -/
def Masker.IsReady (m : Masker) : Bool :=
  m.unset_count_ == 0 && m.any_user_ready_

/-- `State Get(const size_t index)`; the default is only hit out of range. -/
def Masker.Get (m : Masker) (index : Nat) : Masker.State :=
  m.recorder_.getD index .UNSET

/-- `bool Record_(const size_t index, const State state)`: a slot that is not pinned takes
the new state and the counter is adjusted by `+= (state == UNSET)` and then
`-= (old == UNSET)`, both in `size_t`; the result is `IsReady()` afterwards. -/
def Masker.Record_ (m : Masker) (index : Nat) (state : Masker.State) : Bool × Masker :=
  let old := m.Get index
  let m1 : Masker :=
    if old ≠ .PINNED then
      { m with
        recorder_ := m.recorder_.set index state
        unset_count_ :=
          ((m.unset_count_ + (if state = .UNSET then 1 else 0)) % SIZE_MOD
            + SIZE_MOD - (if old = .UNSET then 1 else 0)) % SIZE_MOD }
    else m
  (m1.IsReady, m1)

/-- `bool Set(const size_t index, const bool is_user)` -/
def Masker.Set (m : Masker) (index : Nat) (is_user : Bool) : Bool × Masker :=
  let m1 : Masker := if is_user then { m with any_user_ready_ := true } else m
  m1.Record_ index .SET

/-- `void Unset(const size_t index)`: the human-action flag is left alone. -/
def Masker.Unset (m : Masker) (index : Nat) : Masker :=
  (m.Record_ index .UNSET).2

/-- `bool Pin(const size_t index)` -/
def Masker.Pin (m : Masker) (index : Nat) : Bool × Masker :=
  ({ m with any_user_ready_ := true } : Masker).Record_ index .PINNED

/-- `bool Unpin(const size_t index)`: a pinned slot goes back to `UNSET` and the
counter is incremented; the result tells whether the slot was pinned. -/
def Masker.Unpin (m : Masker) (index : Nat) : Bool × Masker :=
  if m.Get index = .PINNED then
    (true,
      { m with
        recorder_ := m.recorder_.set index .UNSET
        unset_count_ := (m.unset_count_ + 1) % SIZE_MOD })
  else (false, m)

/-- The range-for loop of `Clear()`: walks the slots in order, turns each `SET`
slot into `UNSET` and increments the counter for it. -/
def Masker.clearLoop : List Masker.State → Nat → List Masker.State × Nat
  | [], c => ([], c)
  | s :: rest, c =>
    if s = .SET then
      let r := Masker.clearLoop rest ((c + 1) % SIZE_MOD)
      (.UNSET :: r.1, r.2)
    else
      let r := Masker.clearLoop rest c
      (s :: r.1, r.2)

/-- `void Clear()`: the human-action flag is reset, then the loop runs. -/
def Masker.Clear (m : Masker) : Masker :=
  let r := Masker.clearLoop m.recorder_ m.unset_count_
  { recorder_ := r.1, any_user_ready_ := false, unset_count_ := r.2 }

/-- One call of the public mutating interface of `Masker`. -/
inductive MaskOp where
  | Set (index : Nat) (is_user : Bool)
  | Unset (index : Nat)
  | Pin (index : Nat)
  | Unpin (index : Nat)
  | Clear
deriving DecidableEq, Repr

/-- The slot index of a call lies inside a mask of `size` slots. -/
def MaskOp.inRange (size : Nat) : MaskOp → Bool
  | .Set i _ => decide (i < size)
  | .Unset i => decide (i < size)
  | .Pin i => decide (i < size)
  | .Unpin i => decide (i < size)
  | .Clear => true

/-- State of the mask after one call. -/
def Masker.apply (m : Masker) : MaskOp → Masker
  | .Set i u => (m.Set i u).2
  | .Unset i => m.Unset i
  | .Pin i => (m.Pin i).2
  | .Unpin i => (m.Unpin i).2
  | .Clear => m.Clear

/-- State of the mask after a sequence of calls, oldest first. -/
def Masker.run (m : Masker) (ops : List MaskOp) : Masker :=
  ops.foldl Masker.apply m

/-- The history view of the human-action flag: raised by every `Set` with
`is_user = true` and by every `Pin`, lowered only by `Clear`. -/
def humanAction : Bool → List MaskOp → Bool
  | b, [] => b
  | _, MaskOp.Set _ true :: ops => humanAction true ops
  | _, MaskOp.Pin _ :: ops => humanAction true ops
  | _, MaskOp.Clear :: ops => humanAction false ops
  | b, _ :: ops => humanAction b ops

/-- A mask state reachable from construction (with a size that fits `size_t`) by
in-range calls of `Set`, `Unset`, `Pin`, `Unpin` and `Clear`. -/
def Masker.Reachable (m : Masker) : Prop :=
  ∃ (size : Nat) (ops : List MaskOp),
    size < SIZE_MOD ∧ (∀ op ∈ ops, op.inRange size = true) ∧ m = (Masker.new size).run ops

/-- The representation invariant of the mask: the counter is the number of
`UNSET` slots and the number of slots fits `size_t`. -/
def Masker.Inv (m : Masker) : Prop :=
  m.unset_count_ = m.recorder_.count .UNSET ∧ m.recorder_.length < SIZE_MOD

/-- What the loop of `Clear()` leaves in a slot. -/
def clearedState (s : Masker.State) : Masker.State :=
  if s = .SET then .UNSET else s

/-! ## Result codes, commands and the call trace -/

/-- Modelled from the spec: the enumeration `StageErrCode` of `game_framework/util.h`,
which is not among the sources.  Its codes are the six that `game_stage.h` uses and
that the spec names for `HandleRequest` and `HandleTimeout`. -/
inductive StageErrCode where
  | OK
  | CHECKOUT
  | READY
  | FAILED
  | CONTINUE
  | NOT_FOUND
deriving DecidableEq, Repr

/-- Modelled from the spec: `StageErrCode::Condition(cond, a, b)` of
`game_framework/util.h` selects `a` when `cond` holds and `b` otherwise. -/
def StageErrCode.Condition (cond : Bool) (a b : StageErrCode) : StageErrCode :=
  if cond then a else b

/-- `AtomReqErrCode = StageErrCode::SubSet<OK, FAILED, READY, CHECKOUT>` -/
inductive AtomReqErrCode where
  | OK
  | FAILED
  | READY
  | CHECKOUT
deriving DecidableEq, Repr

/-- `CompReqErrCode = StageErrCode::SubSet<OK, FAILED>` -/
inductive CompReqErrCode where
  | OK
  | FAILED
deriving DecidableEq, Repr

/-- `CheckoutErrCode = StageErrCode::SubSet<CONTINUE, CHECKOUT>` -/
inductive CheckoutErrCode where
  | CONTINUE
  | CHECKOUT
deriving DecidableEq, Repr

/-- Conversion of a subset code to the full enumeration. -/
def AtomReqErrCode.toStageErrCode : AtomReqErrCode → StageErrCode
  | .OK => .OK
  | .FAILED => .FAILED
  | .READY => .READY
  | .CHECKOUT => .CHECKOUT

/-- Conversion of a subset code to the full enumeration. -/
def CompReqErrCode.toStageErrCode : CompReqErrCode → StageErrCode
  | .OK => .OK
  | .FAILED => .FAILED

/-- Conversion of a subset code to the full enumeration. -/
def CheckoutErrCode.toStageErrCode : CheckoutErrCode → StageErrCode
  | .CONTINUE => .CONTINUE
  | .CHECKOUT => .CHECKOUT

/-- `enum class CheckoutReason { BY_REQUEST, BY_TIMEOUT, BY_LEAVE, SKIP }` -/
inductive CheckoutReason where
  | BY_REQUEST
  | BY_TIMEOUT
  | BY_LEAVE
  | SKIP
deriving DecidableEq, Repr

/-- Everything the code of a concrete game can reach from a stage: the mask shared by
the whole stage tree (`masker_` of the main stage) and the game's own data members. -/
structure Env (γ : Type) where
  masker : Masker
  game : γ
deriving DecidableEq, Repr

/-- Modelled from the spec: `Command::CallIfValid` of `utility/msg_checker.h`, which is
not among the sources.  A command either rejects the message (`none`, its callback does
not run) or runs its callback, which returns a code and may change the mask and the
game data. -/
abbrev Cmd (ρ γ : Type) : Type :=
  String → Nat → Bool → Env γ → Option (ρ × Env γ)

/-- The loop `for (const auto& cmd : commands_) if (rc = cmd.CallIfValid(...)) ...`:
the first command, in registration order, that accepts the message, with its position
(counted from `idx`), its result and the state its callback leaves. -/
def firstValid {ρ γ : Type} :
    List (Cmd ρ γ) → Nat → String → Nat → Bool → Env γ → Option (Nat × ρ × Env γ)
  | [], _, _, _, _, _ => none
  | cmd :: rest, idx, msg, pid, is_public, e =>
    match cmd msg pid is_public e with
    | some r => some (idx, r.1, r.2)
    | none => firstValid rest (idx + 1) msg pid is_public e

/-- The calls a stage makes, recorded in the order the source makes them. -/
inductive Call where
  | Command (index : Nat)
  | OnStageBegin
  | OnAllPlayerReady
  | OnPlayerLeave (pid : Nat)
  | OnTimeout
  | OnComputerAct (pid : Nat)
  | Over
  | NextSubStage (reason : CheckoutReason)
  | ReleaseSubStage
  | MaskClear
  | SubStageBegin
  | SubHandleRequest
  | SubHandleTimeout
  | SubHandleLeave (pid : Nat)
  | SubHandleComputerAct (pid : Nat)
deriving DecidableEq, Repr

/-! ## Atomic stage (`GameStage<GameOption, MainStage>`) -/

/-- The commands and the virtual hooks of a concrete atomic stage. -/
structure AtomHooks (γ : Type) where
  commands_ : List (Cmd AtomReqErrCode γ)
  OnStageBegin : Env γ → Env γ
  OnPlayerLeave : Nat → Env γ → CheckoutErrCode × Env γ
  OnTimeout : Env γ → CheckoutErrCode × Env γ
  OnComputerAct : Nat → Env γ → AtomReqErrCode × Env γ
  OnAllPlayerReady : Env γ → Env γ

/-- The hooks as `GameStage` defines them when a game does not override them:
`OnStageBegin` and `OnAllPlayerReady` do nothing, `OnPlayerLeave` returns `CONTINUE`,
`OnTimeout` returns `CHECKOUT`, `OnComputerAct` returns `READY`. -/
def AtomHooks.default {γ : Type} (commands : List (Cmd AtomReqErrCode γ)) : AtomHooks γ :=
  { commands_ := commands
    OnStageBegin := fun e => e
    OnPlayerLeave := fun _ e => (.CONTINUE, e)
    OnTimeout := fun e => (.CHECKOUT, e)
    OnComputerAct := fun _ e => (.READY, e)
    OnAllPlayerReady := fun e => e }

/-- State of an atomic stage.  Modelled from the spec: `StageBase` of
`bot_core/match_base.h` is not among the sources; `is_over_` is the flag that
`StageBase::Over()` raises and `IsOver()` reads.  `calls` is the trace of calls made. -/
structure AtomStage (γ : Type) where
  env : Env γ
  is_over_ : Bool
  calls : List Call
deriving DecidableEq, Repr

/-- `void Over() override final { StageBase::Over(); }` -/
def AtomStage.Over {γ : Type} (s : AtomStage γ) : AtomStage γ :=
  { s with is_over_ := true, calls := s.calls ++ [Call.Over] }

/-- `bool IsOver() const` of `StageBase`. -/
def AtomStage.IsOver {γ : Type} (s : AtomStage γ) : Bool :=
  s.is_over_

/-- `StageErrCode Handle_(StageErrCode rc)` (lines 504-516). -/
def AtomStage.Handle_ {γ : Type} (h : AtomHooks γ) (s : AtomStage γ) (rc : StageErrCode) :
    StageErrCode × AtomStage γ :=
  let r : StageErrCode × AtomStage γ :=
    if rc ≠ .CHECKOUT ∧ s.env.masker.IsReady = true then
      let s1 : AtomStage γ :=
        { s with env := h.OnAllPlayerReady s.env, calls := s.calls ++ [Call.OnAllPlayerReady] }
      (StageErrCode.Condition s1.env.masker.IsReady .CHECKOUT .CONTINUE, s1)
    else (rc, s)
  if r.1 = .CHECKOUT then (r.1, r.2.Over) else r

/-- `StageErrCode Handle_(const PlayerID pid, const bool is_user, StageErrCode rc)`
(lines 518-525). -/
def AtomStage.Handle_pid {γ : Type} (h : AtomHooks γ) (s : AtomStage γ) (pid : Nat)
    (is_user : Bool) (rc : StageErrCode) : StageErrCode × AtomStage γ :=
  if rc = .READY then
    AtomStage.Handle_ h
      { s with env := { s.env with masker := (s.env.masker.Set pid is_user).2 } } .OK
  else AtomStage.Handle_ h s rc

/-- `void HandleStageBegin()` of the atomic stage (lines 411-418). -/
def AtomStage.HandleStageBegin {γ : Type} (h : AtomHooks γ) (s : AtomStage γ) : AtomStage γ :=
  (AtomStage.Handle_ h
    { s with env := h.OnStageBegin s.env, calls := s.calls ++ [Call.OnStageBegin] } .OK).2

/-- `StageErrCode HandleTimeout()` of the atomic stage (lines 420-428). -/
def AtomStage.HandleTimeout {γ : Type} (h : AtomHooks γ) (s : AtomStage γ) :
    StageErrCode × AtomStage γ :=
  let r := h.OnTimeout s.env
  let s1 : AtomStage γ := { s with env := r.2, calls := s.calls ++ [Call.OnTimeout] }
  if r.1 = .CHECKOUT then (r.1.toStageErrCode, s1.Over) else (r.1.toStageErrCode, s1)

/-- `StageErrCode HandleLeave(const PlayerID pid)` of the atomic stage (lines 430-434):
the slot is pinned, then the leave hook runs and its result goes through `Handle_`. -/
def AtomStage.HandleLeave {γ : Type} (h : AtomHooks γ) (s : AtomStage γ) (pid : Nat) :
    StageErrCode × AtomStage γ :=
  let e1 : Env γ := { s.env with masker := (s.env.masker.Pin pid).2 }
  let r := h.OnPlayerLeave pid e1
  AtomStage.Handle_pid h
    { s with env := r.2, calls := s.calls ++ [Call.OnPlayerLeave pid] } pid true
    r.1.toStageErrCode

/-- `StageErrCode HandleRequest(MsgReader& reader, pid, is_public, reply)` of the atomic
stage (lines 436-445). -/
def AtomStage.HandleRequest {γ : Type} (h : AtomHooks γ) (s : AtomStage γ) (msg : String)
    (pid : Nat) (is_public : Bool) : StageErrCode × AtomStage γ :=
  match firstValid h.commands_ 0 msg pid is_public s.env with
  | some r =>
    AtomStage.Handle_pid h
      { s with env := r.2.2, calls := s.calls ++ [Call.Command r.1] } pid true
      r.2.1.toStageErrCode
  | none => (.NOT_FOUND, s)

/-- `StageErrCode HandleRequest(const char* msg, pid, is_public, reply)` of
`StageBaseWrapper` (lines 129-137) on an atomic stage: the slot is unpinned, then the
stage's own `HandleRequest` runs. -/
def AtomStage.HandleRequestMsg {γ : Type} (h : AtomHooks γ) (s : AtomStage γ)
    (msg : String) (pid : Nat) (is_public : Bool) : StageErrCode × AtomStage γ :=
  AtomStage.HandleRequest h
    { s with env := { s.env with masker := (s.env.masker.Unpin pid).2 } } msg pid is_public

/-- `StageErrCode HandleComputerAct(pid, ready_as_user)` of the atomic stage
(lines 447-451). -/
def AtomStage.HandleComputerAct {γ : Type} (h : AtomHooks γ) (s : AtomStage γ) (pid : Nat)
    (ready_as_user : Bool) : StageErrCode × AtomStage γ :=
  let r := h.OnComputerAct pid s.env
  AtomStage.Handle_pid h
    { s with env := r.2, calls := s.calls ++ [Call.OnComputerAct pid] } pid ready_as_user
    r.1.toStageErrCode

/-- An atomic stage that has just been built over a newly constructed mask of `n` slots. -/
def AtomStage.fresh {γ : Type} (n : Nat) (g : γ) : AtomStage γ :=
  { env := { masker := Masker.new n, game := g }, is_over_ := false, calls := [] }

/-- A request as it reaches the stage: message, slot, public channel or not. -/
structure Request where
  msg : String
  pid : Nat
  is_public : Bool
deriving DecidableEq, Repr

/-- Requests handled one after another; the codes returned, oldest first, and the
state after the last one. -/
def AtomStage.requests {γ : Type} (h : AtomHooks γ) :
    AtomStage γ → List Request → List StageErrCode × AtomStage γ
  | s, [] => ([], s)
  | s, r :: rest =>
    let a := AtomStage.HandleRequestMsg h s r.msg r.pid r.is_public
    let b := AtomStage.requests h a.2 rest
    (a.1 :: b.1, b.2)

/-- `HandleLeave` for a list of slots, one after another; codes and final state. -/
def AtomStage.leaves {γ : Type} (h : AtomHooks γ) :
    AtomStage γ → List Nat → List StageErrCode × AtomStage γ
  | s, [] => ([], s)
  | s, pid :: rest =>
    let a := AtomStage.HandleLeave h s pid
    let b := AtomStage.leaves h a.2 rest
    (a.1 :: b.1, b.2)

/-- The request is accepted by a command whose callback returns `READY` and leaves the
mask as it is, in whatever state the stage is. -/
def ReadyRequest {γ : Type} (h : AtomHooks γ) (r : Request) : Prop :=
  ∀ e : Env γ, ∃ (k : Nat) (g : γ),
    firstValid h.commands_ 0 r.msg r.pid r.is_public e = some (k, .READY, ⟨e.masker, g⟩)

/-- The mask calls made by slots `ps` that each get ready through a human action. -/
def userSets (ps : List Nat) : List MaskOp :=
  ps.map (fun p => MaskOp.Set p true)

/-- The leave hook returns `CONTINUE` and leaves the mask as it is, in whatever state
the stage is (as the hook that `GameStage` provides does). -/
def LeaveContinues {γ : Type} (h : AtomHooks γ) : Prop :=
  ∀ (pid : Nat) (e : Env γ),
    (h.OnPlayerLeave pid e).1 = .CONTINUE ∧ (h.OnPlayerLeave pid e).2.masker = e.masker

/-! ## Composite stage (`GameStage<GameOption, MainStage, SubStages...>`) -/

/-- Why a composite operation yields no state. -/
inductive Fault where
  /-- The cascade of checkouts did not end within the number of checkouts allowed. -/
  | OutOfFuel
  /-- The source dereferences `sub_stage_` while it holds no child, which is undefined
  behaviour. -/
  | NullSubStage
deriving DecidableEq, Repr

/-- The interface of `StageBase` through which a composite stage drives its active child
(`std::visit` over `sub_stage_`); `τ` is the child's own state. -/
structure SubStageOps (γ τ : Type) where
  HandleStageBegin : τ → Env γ → τ × Env γ
  HandleRequest : String → Nat → Bool → τ → Env γ → StageErrCode × τ × Env γ
  HandleTimeout : τ → Env γ → StageErrCode × τ × Env γ
  HandleLeave : Nat → τ → Env γ → StageErrCode × τ × Env γ
  HandleComputerAct : Nat → Bool → τ → Env γ → StageErrCode × τ × Env γ
  IsOver : τ → Bool

/-- The commands and the virtual hooks of a concrete composite stage, and the interface
of its children.  `OnStageBegin` and `NextSubStage` return a `VariantSubStage`, a
pointer that may be null (`none`). -/
structure CompHooks (γ τ : Type) where
  commands_ : List (Cmd CompReqErrCode γ)
  OnStageBegin : Env γ → Option τ × Env γ
  NextSubStage : τ → CheckoutReason → Env γ → Option τ × Env γ
  OnPlayerLeave : Nat → Env γ → Env γ
  OnComputerAct : Nat → Env γ → CompReqErrCode × Env γ
  sub : SubStageOps γ τ

/-- State of a composite stage: the active child `sub_stage_`, the over flag of `StageBase`
and the trace of calls made. -/
structure CompStage (γ τ : Type) where
  env : Env γ
  sub_stage_ : Option τ
  is_over_ : Bool
  calls : List Call
deriving DecidableEq, Repr

/-- `StageBase::Over()` on a composite stage. -/
def CompStage.Over {γ τ : Type} (s : CompStage γ τ) : CompStage γ τ :=
  { s with is_over_ := true, calls := s.calls ++ [Call.Over] }

/-- `void CheckoutSubStage(const CheckoutReason reason)` (lines 338-370).  `NextSubStage`
is asked for the next child, the current child is released, the mask is cleared; without a
next child the stage is over, otherwise the next child begins and, when it is over at once,
the function calls itself with `SKIP`.  The first argument bounds the number of checkouts. -/
def CompStage.CheckoutSubStage {γ τ : Type} (G : CompHooks γ τ) :
    Nat → CheckoutReason → CompStage γ τ → Except Fault (CompStage γ τ)
  | 0, _, _ => .error .OutOfFuel
  | fuel + 1, reason, s =>
    match s.sub_stage_ with
    | none => .error .NullSubStage
    | some sub =>
      let r := G.NextSubStage sub reason s.env
      let s1 : CompStage γ τ :=
        { s with
          env := { r.2 with masker := r.2.masker.Clear }
          sub_stage_ := r.1
          calls := s.calls ++ [Call.NextSubStage reason, Call.ReleaseSubStage, Call.MaskClear] }
      match r.1 with
      | none => .ok s1.Over
      | some nsub =>
        let b := G.sub.HandleStageBegin nsub s1.env
        let s2 : CompStage γ τ :=
          { s1 with
            env := b.2
            sub_stage_ := some b.1
            calls := s1.calls ++ [Call.SubStageBegin] }
        if G.sub.IsOver b.1 then CompStage.CheckoutSubStage G fuel .SKIP s2 else .ok s2

/-- `StageErrCode PassToSubStage_(const Task& internal_task, const CheckoutReason)`
(lines 381-393): the task runs on the active child, the child is checked out when it is
over afterwards, and the task's code is returned. -/
def CompStage.PassToSubStage_ {γ τ : Type} (G : CompHooks γ τ) (fuel : Nat)
    (task : τ → Env γ → StageErrCode × τ × Env γ) (ev : Call) (reason : CheckoutReason)
    (s : CompStage γ τ) : Except Fault (StageErrCode × CompStage γ τ) :=
  match s.sub_stage_ with
  | none => .error .NullSubStage
  | some sub =>
    let r := task sub s.env
    let s1 : CompStage γ τ :=
      { s with env := r.2.2, sub_stage_ := some r.2.1, calls := s.calls ++ [ev] }
    if G.sub.IsOver r.2.1 then
      match CompStage.CheckoutSubStage G fuel reason s1 with
      | .ok s2 => .ok (r.1, s2)
      | .error f => .error f
    else .ok (r.1, s1)

/-- `void HandleStageBegin()` of the composite stage (lines 275-287). -/
def CompStage.HandleStageBegin {γ τ : Type} (G : CompHooks γ τ) (fuel : Nat)
    (s : CompStage γ τ) : Except Fault (CompStage γ τ) :=
  let r := G.OnStageBegin s.env
  match r.1 with
  | none => .error .NullSubStage
  | some sub =>
    let b := G.sub.HandleStageBegin sub r.2
    let s1 : CompStage γ τ :=
      { s with
        env := b.2
        sub_stage_ := some b.1
        calls := s.calls ++ [Call.OnStageBegin, Call.SubStageBegin] }
    if G.sub.IsOver b.1 then CompStage.CheckoutSubStage G fuel .SKIP s1 else .ok s1

/-- `StageErrCode HandleRequest(MsgReader& reader, player_id, is_public, reply)` of the
composite stage (lines 289-300). -/
def CompStage.HandleRequest {γ τ : Type} (G : CompHooks γ τ) (fuel : Nat)
    (s : CompStage γ τ) (msg : String) (pid : Nat) (is_public : Bool) :
    Except Fault (StageErrCode × CompStage γ τ) :=
  match firstValid G.commands_ 0 msg pid is_public s.env with
  | some r =>
    .ok (r.2.1.toStageErrCode,
      { s with env := r.2.2, calls := s.calls ++ [Call.Command r.1] })
  | none =>
    CompStage.PassToSubStage_ G fuel (G.sub.HandleRequest msg pid is_public)
      Call.SubHandleRequest .BY_REQUEST s

/-- `StageErrCode HandleRequest(const char* msg, pid, is_public, reply)` of
`StageBaseWrapper` (lines 129-137) on a composite stage. -/
def CompStage.HandleRequestMsg {γ τ : Type} (G : CompHooks γ τ) (fuel : Nat)
    (s : CompStage γ τ) (msg : String) (pid : Nat) (is_public : Bool) :
    Except Fault (StageErrCode × CompStage γ τ) :=
  CompStage.HandleRequest G fuel
    { s with env := { s.env with masker := (s.env.masker.Unpin pid).2 } } msg pid is_public

/-- `StageErrCode HandleTimeout()` of the composite stage (lines 302-305). -/
def CompStage.HandleTimeout {γ τ : Type} (G : CompHooks γ τ) (fuel : Nat)
    (s : CompStage γ τ) : Except Fault (StageErrCode × CompStage γ τ) :=
  CompStage.PassToSubStage_ G fuel G.sub.HandleTimeout Call.SubHandleTimeout .BY_TIMEOUT s

/-- `StageErrCode HandleLeave(const PlayerID pid)` of the composite stage (lines 307-314):
the stage's own `OnPlayerLeave` runs first. -/
def CompStage.HandleLeave {γ τ : Type} (G : CompHooks γ τ) (fuel : Nat)
    (s : CompStage γ τ) (pid : Nat) : Except Fault (StageErrCode × CompStage γ τ) :=
  CompStage.PassToSubStage_ G fuel (G.sub.HandleLeave pid) (Call.SubHandleLeave pid) .BY_LEAVE
    { s with env := G.OnPlayerLeave pid s.env, calls := s.calls ++ [Call.OnPlayerLeave pid] }

/-- `StageErrCode HandleComputerAct(pid, ready_as_user)` of the composite stage
(lines 316-326). -/
def CompStage.HandleComputerAct {γ τ : Type} (G : CompHooks γ τ) (fuel : Nat)
    (s : CompStage γ τ) (pid : Nat) (ready_as_user : Bool) :
    Except Fault (StageErrCode × CompStage γ τ) :=
  let r := G.OnComputerAct pid s.env
  let s1 : CompStage γ τ :=
    { s with env := r.2, calls := s.calls ++ [Call.OnComputerAct pid] }
  if r.1 ≠ .OK then .ok (r.1.toStageErrCode, s1)
  else
    CompStage.PassToSubStage_ G fuel (G.sub.HandleComputerAct pid ready_as_user)
      (Call.SubHandleComputerAct pid) .BY_REQUEST s1

/-- The part of an atomic stage's state that is its own when it is the child of a
composite stage; the rest (`Env`) is shared with the parent. -/
structure AtomLocal where
  is_over_ : Bool
  calls : List Call
deriving DecidableEq, Repr

/-- An atomic stage seen from its parent: state pieces put together. -/
def AtomLocal.toStage {γ : Type} (t : AtomLocal) (e : Env γ) : AtomStage γ :=
  { env := e, is_over_ := t.is_over_, calls := t.calls }

/-- An atomic stage seen from its parent: state pieces taken apart. -/
def AtomStage.split {γ : Type} (s : AtomStage γ) : AtomLocal × Env γ :=
  ({ is_over_ := s.is_over_, calls := s.calls }, s.env)

/-- An atomic stage as the child of a composite stage. -/
def AtomStage.asSubStage {γ : Type} (h : AtomHooks γ) : SubStageOps γ AtomLocal :=
  { HandleStageBegin := fun t e => (AtomStage.HandleStageBegin h (t.toStage e)).split
    HandleRequest := fun msg pid is_public t e =>
      let r := AtomStage.HandleRequest h (t.toStage e) msg pid is_public
      (r.1, r.2.split)
    HandleTimeout := fun t e =>
      let r := AtomStage.HandleTimeout h (t.toStage e)
      (r.1, r.2.split)
    HandleLeave := fun pid t e =>
      let r := AtomStage.HandleLeave h (t.toStage e) pid
      (r.1, r.2.split)
    HandleComputerAct := fun pid ready_as_user t e =>
      let r := AtomStage.HandleComputerAct h (t.toStage e) pid ready_as_user
      (r.1, r.2.split)
    IsOver := fun t => t.is_over_ }

/-! ## The test stage of `bot_core/test_bot.cc` -/

/-- The data members of the test stages that their hooks read: `to_reset_ready_` of
`SubStage` and `to_checkout_` of `MainStage`. -/
structure TestData where
  to_reset_ready_ : Nat
  to_checkout_ : Nat
deriving DecidableEq, Repr

/-- Command `准备` of the test `SubStage`: `Ready_` returns `READY`. -/
def TestSubStage.Ready_ : Cmd AtomReqErrCode TestData :=
  fun msg _ _ e => if msg = "准备" then some (.READY, e) else none

/-- Command `结束子阶段` of the test `SubStage`: `Over_` returns `CHECKOUT`. -/
def TestSubStage.Over_ : Cmd AtomReqErrCode TestData :=
  fun msg _ _ e => if msg = "结束子阶段" then some (.CHECKOUT, e) else none

/-- Command `淘汰` of the test `SubStage`: `Eliminate_` pins the caller's slot
(`Eliminate(pid)`) and returns `OK`. -/
def TestSubStage.Eliminate_ : Cmd AtomReqErrCode TestData :=
  fun msg pid _ e =>
    if msg = "淘汰" then some (.OK, { e with masker := (e.masker.Pin pid).2 }) else none

/-- `SubStage::OnAllPlayerReady` of the test: while `to_reset_ready_` is positive it is
decremented and `ClearReady()` clears the mask. -/
def TestSubStage.OnAllPlayerReady (e : Env TestData) : Env TestData :=
  if 0 < e.game.to_reset_ready_ then
    { masker := e.masker.Clear,
      game := { e.game with to_reset_ready_ := e.game.to_reset_ready_ - 1 } }
  else e

/-- The test `SubStage` with the three commands above; the other hooks are the defaults. -/
def TestSubStage.hooks : AtomHooks TestData :=
  { AtomHooks.default [TestSubStage.Over_, TestSubStage.Ready_, TestSubStage.Eliminate_] with
    OnAllPlayerReady := TestSubStage.OnAllPlayerReady }

/-- Command `准备切换` of the test `MainStage`: `ToCheckout_` stores the number of further
sub-stages and returns `OK`.  The argument parsing belongs to the checker layer; the
command is modelled for the message `准备切换 1`. -/
def TestMainStage.ToCheckout_ : Cmd CompReqErrCode TestData :=
  fun msg _ _ e =>
    if msg = "准备切换 1" then some (.OK, { e with game := { e.game with to_checkout_ := 1 } })
    else none

/-- A `SubStage` as its constructor leaves it (`to_reset_ready_(0)`, not over). -/
def TestMainStage.newSubStage (e : Env TestData) : Option AtomLocal × Env TestData :=
  (some { is_over_ := false, calls := [] },
    { e with game := { e.game with to_reset_ready_ := 0 } })

/-- `MainStage::NextSubStage` of the test: while `to_checkout_` is positive it is decremented
and a new `SubStage` is returned, otherwise no stage is returned. -/
def TestMainStage.NextSubStage (_ : AtomLocal) (_ : CheckoutReason) (e : Env TestData) :
    Option AtomLocal × Env TestData :=
  if 0 < e.game.to_checkout_ then
    TestMainStage.newSubStage
      { e with game := { e.game with to_checkout_ := e.game.to_checkout_ - 1 } }
  else (none, e)

/-- The test `MainStage` over the test `SubStage`. -/
def TestMainStage.hooks : CompHooks TestData AtomLocal :=
  { commands_ := [TestMainStage.ToCheckout_]
    OnStageBegin := TestMainStage.newSubStage
    NextSubStage := TestMainStage.NextSubStage
    OnPlayerLeave := fun _ e => e
    OnComputerAct := fun _ e => (.OK, e)
    sub := AtomStage.asSubStage TestSubStage.hooks }

/-- The test `MainStage` right after construction over `n` slots. -/
def TestMainStage.init (n : Nat) : CompStage TestData AtomLocal :=
  { env := { masker := Masker.new n, game := ⟨0, 0⟩ }
    sub_stage_ := none
    is_over_ := false
    calls := [] }

/-- The test `MainStage` over `n` slots after `HandleStageBegin`: its first `SubStage` has
begun and is active. -/
def TestMainStage.started (n : Nat) : CompStage TestData AtomLocal :=
  { env := { masker := Masker.new n, game := ⟨0, 0⟩ }
    sub_stage_ := some { is_over_ := false, calls := [Call.OnStageBegin] }
    is_over_ := false
    calls := [Call.OnStageBegin, Call.SubStageBegin] }

/-! ## Kinds of mask calls -/

/-- A call that a computer player alone can cause: `Set(i, false)`, `Unset(i)`, `Unpin(i)`. -/
def MaskOp.isComputerOnly : MaskOp → Bool
  | .Set _ false => true
  | .Unset _ => true
  | .Unpin _ => true
  | _ => false

/-- A call that raises the human-action flag: `Set(i, true)` or `Pin(i)`. -/
def MaskOp.raisesFlag : MaskOp → Bool
  | .Set _ true => true
  | .Pin _ => true
  | _ => false

/-! ## The round stage of `games/numcomb/mygame.cc` (mask part) -/

/-- `RoundStage::HandleUnreadyPlayers_` of numcomb, as far as the mask goes: the slots
`0 .. PlayerNum() - 1` are visited in order and each slot that is not `SET`
(`!IsReady(pid)`) is hooked, `Hook(pid)` pinning it.  The filling of the player's board and
the score are game content and not modelled. -/
def NumcombRoundStage.HandleUnreadyPlayers_ (player_num : Nat) (m : Masker) : Masker :=
  (List.range player_num).foldl
    (fun acc pid => if acc.Get pid ≠ .SET then (acc.Pin pid).2 else acc) m

/-- `RoundStage::OnTimeout` of numcomb: the unready players are handled, then `CHECKOUT`.
`PlayerNum()` is the number of slots of the mask. -/
def NumcombRoundStage.OnTimeout {γ : Type} (e : Env γ) : CheckoutErrCode × Env γ :=
  (.CHECKOUT,
    { e with
      masker := NumcombRoundStage.HandleUnreadyPlayers_ e.masker.recorder_.length e.masker })

/-- The hooks of numcomb's round stage that touch the mask; commands are left out. -/
def NumcombRoundStage.hooks {γ : Type} : AtomHooks γ :=
  { AtomHooks.default [] with
    OnTimeout := NumcombRoundStage.OnTimeout
    OnAllPlayerReady := fun e =>
      { e with
        masker :=
          NumcombRoundStage.HandleUnreadyPlayers_ e.masker.recorder_.length e.masker } }

/-! ## The cascade of checkouts -/

/-- One pass through the body of `CheckoutSubStage` (lines 338-370) up to the point where
the function either returns or calls itself with `SKIP`: the state reached, and whether
the child that has just begun is over, i.e. whether the function goes on with `SKIP`. -/
def CompStage.checkoutRound {γ τ : Type} (G : CompHooks γ τ) (reason : CheckoutReason)
    (s : CompStage γ τ) : Except Fault (CompStage γ τ × Bool) :=
  match s.sub_stage_ with
  | none => .error .NullSubStage
  | some sub =>
    let r := G.NextSubStage sub reason s.env
    let s1 : CompStage γ τ :=
      { s with
        env := { r.2 with masker := r.2.masker.Clear }
        sub_stage_ := r.1
        calls := s.calls ++ [Call.NextSubStage reason, Call.ReleaseSubStage, Call.MaskClear] }
    match r.1 with
    | none => .ok (s1.Over, false)
    | some nsub =>
      let b := G.sub.HandleStageBegin nsub s1.env
      .ok ({ s1 with
              env := b.2
              sub_stage_ := some b.1
              calls := s1.calls ++ [Call.SubStageBegin] }, G.sub.IsOver b.1)

/-- `Cascade G k reason s s2`: started in `s` with `reason`, the game returns a child that
is over at once `k` times in a row and then a child that is not over, or no child, which
leaves the stage in `s2`. -/
inductive CompStage.Cascade {γ τ : Type} (G : CompHooks γ τ) :
    Nat → CheckoutReason → CompStage γ τ → CompStage γ τ → Prop where
  | stop (reason : CheckoutReason) (s s1 : CompStage γ τ) :
      CompStage.checkoutRound G reason s = .ok (s1, false) →
      CompStage.Cascade G 0 reason s s1
  | skip (k : Nat) (reason : CheckoutReason) (s s1 s2 : CompStage γ τ) :
      CompStage.checkoutRound G reason s = .ok (s1, true) →
      CompStage.Cascade G k .SKIP s1 s2 →
      CompStage.Cascade G (k + 1) reason s s2

/-- A call of `NextSubStage` with a reason other than `SKIP`. -/
def Call.isNonSkipAsk : Call → Bool
  | .NextSubStage .SKIP => false
  | .NextSubStage _ => true
  | _ => false

/-- Number of calls of `NextSubStage` with a reason other than `SKIP` in a trace. -/
def nonSkipAsks (calls : List Call) : Nat :=
  calls.countP Call.isNonSkipAsk

/-- An example game, not part of the repository: the test stages with a `SubStage` whose
`OnStageBegin` eliminates slot 0, so that over a one-slot mask every such sub-stage is
over as soon as it has begun. -/
def SkipExample.hooks : CompHooks TestData AtomLocal :=
  { TestMainStage.hooks with
    sub := AtomStage.asSubStage
      { TestSubStage.hooks with
        OnStageBegin := fun e => { e with masker := (e.masker.Pin 0).2 } } }

/-- The example game over one slot with an active sub-stage and two more sub-stages
requested. -/
def SkipExample.start : CompStage TestData AtomLocal :=
  { env := { masker := Masker.new 1, game := ⟨0, 2⟩ }
    sub_stage_ := some { is_over_ := false, calls := [] }
    is_over_ := false
    calls := [] }

/-- Where the cascade of the example game ends: both requested sub-stages were skipped and
the stage is over. -/
def SkipExample.finish : CompStage TestData AtomLocal :=
  { env := { masker := { recorder_ := [.PINNED], any_user_ready_ := false, unset_count_ := 0 },
             game := ⟨0, 0⟩ }
    sub_stage_ := none
    is_over_ := true
    calls := [Call.NextSubStage .BY_REQUEST, Call.ReleaseSubStage, Call.MaskClear,
      Call.SubStageBegin, Call.NextSubStage .SKIP, Call.ReleaseSubStage, Call.MaskClear,
      Call.SubStageBegin, Call.NextSubStage .SKIP, Call.ReleaseSubStage, Call.MaskClear,
      Call.Over] }

/-- The test `MainStage` over two slots after its only sub-stage was ended by request: no
active child is left and the stage is over. -/
def TestMainStage.finished : CompStage TestData AtomLocal :=
  { env := { masker := Masker.new 2, game := ⟨0, 0⟩ }
    sub_stage_ := none
    is_over_ := true
    calls := [Call.OnStageBegin, Call.SubStageBegin, Call.SubHandleRequest,
      Call.NextSubStage .BY_REQUEST, Call.ReleaseSubStage, Call.MaskClear, Call.Over] }

/-! ## Meta commands of `bot_core/message_handlers.cc` -/

/-- Modelled from the spec: the enumeration `ErrCode` of `bot_core/bot_core.h`, which is
not among the sources.  The named codes are those that the handlers below and their tests
use; `OTHER` stands for every further code a match operation may return. -/
inductive ErrCode where
  | EC_OK
  | EC_REQUEST_UNKNOWN_GAME
  | EC_MATCH_USER_NOT_IN_MATCH
  | EC_MATCH_NOT_THIS_GROUP
  | EC_MATCH_NEED_REQUEST_PRIVATE
  | EC_MATCH_NEED_REQUEST_PUBLIC
  | EC_MATCH_NEED_ID
  | EC_MATCH_NOT_EXIST
  | EC_MATCH_GROUP_NOT_IN_MATCH
  | EC_MATCH_ALREADY_BEGIN
  | EC_MATCH_USER_ALREADY_IN_MATCH
  | OTHER (code : Nat)
deriving DecidableEq, Repr

/-- `UserID` of `bot_core/id.h` (a string in the tests). -/
abbrev UserID : Type := String

/-- `GroupID` of `bot_core/id.h` (a string in the tests). -/
abbrev GroupID : Type := String

/-- `MatchID`, an unsigned integer. -/
abbrev MatchID : Type := Nat

/-- A call of a member function of `Match` or of `MatchManager::NewMatch`, as a handler
makes it; `μ` identifies a match. -/
inductive BotCall (μ : Type) where
  | NewMatch (gamename : String) (uid : UserID) (gid : Option GroupID)
  | SetBenchTo (m : μ) (uid : UserID) (com_num : Option Nat)
  | SetMultiple (m : μ) (uid : UserID) (multiple : Nat)
  | GameStart (m : μ) (uid : UserID) (is_public : Bool)
  | Join (m : μ) (uid : UserID)
  | Leave (m : μ) (uid : UserID) (force : Bool)
  | UserInterrupt (m : μ) (uid : UserID) (cancel : Bool)
  | Terminate (m : μ) (is_force : Bool)
deriving DecidableEq, Repr

/-- The operations that the handlers call, as parameters: the member functions of `Match`
as `match.h` declares them (their bodies, `bot_core/match.cc`, are not among the sources),
the lookups and `NewMatch` of `MatchManager` (`bot_core/match_manager.h`, not among the
sources) and the game table of `BotCtx`.  `σ` is the state of the bot, `μ` identifies a
match, and an operation returns its code and the state it leaves; `gid` is the constant
member `gid_`. -/
structure BotOps (σ μ : Type) where
  hasGame : σ → String → Bool
  GetMatchByUser : σ → UserID → Option μ
  GetMatchByGroup : σ → GroupID → Option μ
  GetMatchById : σ → MatchID → Option μ
  gid : μ → Option GroupID
  NewMatch : String → UserID → Option GroupID → σ → (ErrCode × Option μ) × σ
  SetBenchTo : μ → UserID → Option Nat → σ → ErrCode × σ
  SetMultiple : μ → UserID → Nat → σ → ErrCode × σ
  GameStart : μ → UserID → Bool → σ → ErrCode × σ
  Join : μ → UserID → σ → ErrCode × σ
  Leave : μ → UserID → Bool → σ → ErrCode × σ
  UserInterrupt : μ → UserID → Bool → σ → ErrCode × σ
  Terminate : μ → Bool → σ → ErrCode × σ

/-- `bool IsPrivate() const { return !gid_.has_value(); }` (`match.h`). -/
def BotOps.IsPrivate {σ μ : Type} (B : BotOps σ μ) (m : μ) : Bool :=
  (B.gid m).isNone

/-- The state of the bot together with the trace of the calls the handlers made. -/
structure Bot (σ μ : Type) where
  st : σ
  calls : List (BotCall μ)

/-- A call of a match operation by a handler: the operation runs and the call is recorded. -/
def Bot.call {σ μ : Type} (b : Bot σ μ) (c : BotCall μ) (op : σ → ErrCode × σ) :
    ErrCode × Bot σ μ :=
  ((op b.st).1, { st := (op b.st).2, calls := b.calls ++ [c] })

/-- Why a handler yields no result. -/
inductive HandlerFault where
  /-- A null `std::shared_ptr<Match>` is dereferenced. -/
  | NullMatch
  /-- An `assert` fails. -/
  | AssertFailed
deriving DecidableEq, Repr

/-- `handle_match_by_user` (lines 200-214): the match of the user is looked up; without one
the code is `EC_MATCH_USER_NOT_IN_MATCH`; when the command comes from a group and
`match->gid() != *gid` the code is `EC_MATCH_NOT_THIS_GROUP`; otherwise `fn(match)`. -/
def handle_match_by_user {σ μ : Type} (B : BotOps σ μ) (uid : UserID) (gid : Option GroupID)
    (fn : μ → Bot σ μ → ErrCode × Bot σ μ) (b : Bot σ μ) : ErrCode × Bot σ μ :=
  match B.GetMatchByUser b.st uid with
  | none => (.EC_MATCH_USER_NOT_IN_MATCH, b)
  | some m =>
    if gid.isSome ∧ B.gid m ≠ gid then (.EC_MATCH_NOT_THIS_GROUP, b)
    else fn m b

/-- `set_bench_to` (lines 216-221). -/
def set_bench_to {σ μ : Type} (B : BotOps σ μ) (uid : UserID) (gid : Option GroupID)
    (bench_to_player_num : Nat) (b : Bot σ μ) : ErrCode × Bot σ μ :=
  handle_match_by_user B uid gid
    (fun m b1 => b1.call (.SetBenchTo m uid (some bench_to_player_num))
      (B.SetBenchTo m uid (some bench_to_player_num))) b

/-- `set_multiple` (lines 223-228). -/
def set_multiple {σ μ : Type} (B : BotOps σ μ) (uid : UserID) (gid : Option GroupID)
    (multiple : Nat) (b : Bot σ μ) : ErrCode × Bot σ μ :=
  handle_match_by_user B uid gid
    (fun m b1 => b1.call (.SetMultiple m uid multiple) (B.SetMultiple m uid multiple)) b

/-- `start_game` (lines 230-234): `GameStart(uid, gid.has_value(), reply)`. -/
def start_game {σ μ : Type} (B : BotOps σ μ) (uid : UserID) (gid : Option GroupID)
    (b : Bot σ μ) : ErrCode × Bot σ μ :=
  handle_match_by_user B uid gid
    (fun m b1 => b1.call (.GameStart m uid gid.isSome) (B.GameStart m uid gid.isSome)) b

/-- `leave` (lines 236-241). -/
def leave {σ μ : Type} (B : BotOps σ μ) (uid : UserID) (gid : Option GroupID)
    (force : Bool) (b : Bot σ μ) : ErrCode × Bot σ μ :=
  handle_match_by_user B uid gid
    (fun m b1 => b1.call (.Leave m uid force) (B.Leave m uid force)) b

/-- `user_interrupt_game` (lines 243-248). -/
def user_interrupt_game {σ μ : Type} (B : BotOps σ μ) (uid : UserID) (gid : Option GroupID)
    (cancel : Bool) (b : Bot σ μ) : ErrCode × Bot σ μ :=
  handle_match_by_user B uid gid
    (fun m b1 => b1.call (.UserInterrupt m uid cancel) (B.UserInterrupt m uid cancel)) b

/-- `join_private` (lines 250-268); `RETURN_IF_FAILED(match->Join(...)); return EC_OK;`
returns the code of `Join` when it is not `EC_OK` and `EC_OK` otherwise. -/
def join_private {σ μ : Type} (B : BotOps σ μ) (uid : UserID) (gid : Option GroupID)
    (mid : MatchID) (b : Bot σ μ) : ErrCode × Bot σ μ :=
  if gid.isSome then (.EC_MATCH_NEED_REQUEST_PRIVATE, b)
  else
    match B.GetMatchById b.st mid with
    | none => (.EC_MATCH_NOT_EXIST, b)
    | some m =>
      if ¬ B.IsPrivate m then (.EC_MATCH_NEED_REQUEST_PUBLIC, b)
      else
        let r := b.call (.Join m uid) (B.Join m uid)
        if r.1 ≠ .EC_OK then r else (.EC_OK, r.2)

/-- `join_public` (lines 270-284); the `assert(!match->IsPrivate())` aborts when it
fails. -/
def join_public {σ μ : Type} (B : BotOps σ μ) (uid : UserID) (gid : Option GroupID)
    (b : Bot σ μ) : Except HandlerFault (ErrCode × Bot σ μ) :=
  match gid with
  | none => .ok (.EC_MATCH_NEED_ID, b)
  | some g =>
    match B.GetMatchByGroup b.st g with
    | none => .ok (.EC_MATCH_GROUP_NOT_IN_MATCH, b)
    | some m =>
      if B.IsPrivate m then .error .AssertFailed
      else
        let r := b.call (.Join m uid) (B.Join m uid)
        if r.1 ≠ .EC_OK then .ok r else .ok (.EC_OK, r.2)

/-- `new_game` (lines 165-198).  The messages sent are not modelled; `match->` on the
pointer returned by `NewMatch` faults when it is null. -/
def new_game {σ μ : Type} (B : BotOps σ μ) (uid : UserID) (gid : Option GroupID)
    (gamename : String) (is_single : Bool) (b : Bot σ μ) :
    Except HandlerFault (ErrCode × Bot σ μ) :=
  if ¬ B.hasGame b.st gamename then .ok (.EC_REQUEST_UNKNOWN_GAME, b)
  else
    let t : ErrCode × Bot σ μ :=
      match gid with
      | none => (.EC_OK, b)
      | some g =>
        match B.GetMatchByGroup b.st g with
        | none => (.EC_OK, b)
        | some running_match =>
          b.call (.Terminate running_match false) (B.Terminate running_match false)
    if t.1 ≠ .EC_OK then .ok t
    else
      let n := B.NewMatch gamename uid gid t.2.st
      let b2 : Bot σ μ :=
        { st := n.2, calls := t.2.calls ++ [BotCall.NewMatch gamename uid gid] }
      if n.1.1 ≠ .EC_OK then .ok (n.1.1, b2)
      else
        match n.1.2 with
        | none => .error .NullMatch
        | some m =>
          if is_single then
            let r1 := b2.call (.SetBenchTo m uid none) (B.SetBenchTo m uid none)
            if r1.1 ≠ .EC_OK then .ok r1
            else
              let r2 := r1.2.call (.GameStart m uid gid.isSome) (B.GameStart m uid gid.isSome)
              if r2.1 ≠ .EC_OK then .ok r2 else .ok (.EC_OK, r2.2)
          else .ok (.EC_OK, b2)

/-- `interrupt_game` (lines 818-835).  The local `match` starts null and is assigned inside
the conditions, which are evaluated left to right with short-circuit; `match->Terminate`
faults when it is still null, and the code of `Terminate` is dropped. -/
def interrupt_game {σ μ : Type} (B : BotOps σ μ) (gid : Option GroupID) (mid : Option MatchID)
    (b : Bot σ μ) : Except HandlerFault (ErrCode × Bot σ μ) :=
  let m1 : Option μ := if mid.isSome then mid.bind (B.GetMatchById b.st) else none
  if mid.isSome ∧ m1.isNone then .ok (.EC_MATCH_NOT_EXIST, b)
  else
    let m2 : Option μ :=
      if ¬ mid.isSome ∧ gid.isSome then gid.bind (B.GetMatchByGroup b.st) else m1
    if ¬ mid.isSome ∧ gid.isSome ∧ m2.isNone then .ok (.EC_MATCH_GROUP_NOT_IN_MATCH, b)
    else if ¬ mid.isSome ∧ ¬ gid.isSome then .ok (.EC_MATCH_NEED_REQUEST_PUBLIC, b)
    else
      match m2 with
      | none => .error .NullMatch
      | some m => .ok (.EC_OK, (b.call (.Terminate m true) (B.Terminate m true)).2)

/-- A match of the example bot: its id, the group it is bound to, the users in it and
whether the game has begun. -/
structure ExampleMatch where
  mid : MatchID
  gid : Option GroupID
  users : List UserID
  started : Bool
deriving DecidableEq, Repr

/-- Modelled from the spec: a table of matches with the operations of section 4.3 of the
specification, reduced to what the examples use: a non-forced `Terminate` fails with
`EC_MATCH_ALREADY_BEGIN` on a match that has begun and otherwise removes the match,
`GameStart` marks the match as begun, `Join` and `Leave` add and remove the user, the
configuration operations succeed.  The only game is the test game `测试游戏`. -/
def ExampleBot.ops : BotOps (List ExampleMatch) ExampleMatch where
  hasGame := fun _ name => name == "测试游戏"
  GetMatchByUser := fun st uid => st.find? (fun m => m.users.contains uid)
  GetMatchByGroup := fun st g => st.find? (fun m => m.gid == some g)
  GetMatchById := fun st i => st.find? (fun m => m.mid == i)
  gid := fun m => m.gid
  NewMatch := fun _ uid gid st =>
    if st.any (fun m => m.users.contains uid) then ((.EC_MATCH_USER_ALREADY_IN_MATCH, none), st)
    else
      let m : ExampleMatch :=
        { mid := st.length + 1, gid := gid, users := [uid], started := false }
      ((.EC_OK, some m), st ++ [m])
  SetBenchTo := fun _ _ _ st => (.EC_OK, st)
  SetMultiple := fun _ _ _ st => (.EC_OK, st)
  GameStart := fun m _ _ st =>
    if m.started then (.EC_MATCH_ALREADY_BEGIN, st)
    else (.EC_OK, st.map (fun x => if x.mid = m.mid then { x with started := true } else x))
  Join := fun m uid st =>
    if st.any (fun x => x.users.contains uid) then (.EC_MATCH_USER_ALREADY_IN_MATCH, st)
    else if m.started then (.EC_MATCH_ALREADY_BEGIN, st)
    else
      (.EC_OK, st.map (fun x => if x.mid = m.mid then { x with users := x.users ++ [uid] } else x))
  Leave := fun m uid _ st =>
    (.EC_OK, st.map (fun x => if x.mid = m.mid then { x with users := x.users.erase uid } else x))
  UserInterrupt := fun _ _ _ st => (.EC_OK, st)
  Terminate := fun m is_force st =>
    if m.started ∧ ¬ is_force then (.EC_MATCH_ALREADY_BEGIN, st)
    else (.EC_OK, st.filter (fun x => x.mid ≠ m.mid))

/-- The bot of test `pub_start_other_pub_game` before the first `#开始`: users 1 and 2 are
in the match of group 1, users 3 and 4 in the match of group 2. -/
def ExampleBot.twoGroups : Bot (List ExampleMatch) ExampleMatch :=
  { st := [{ mid := 1, gid := some "1", users := ["1", "2"], started := false },
           { mid := 2, gid := some "2", users := ["3", "4"], started := false }],
    calls := [] }

/-- A bot with the private match 1 of user 1 and the match of group 3 of user 2, as in
test `pri_start_other_pub_game`. -/
def ExampleBot.privateAndGroup : Bot (List ExampleMatch) ExampleMatch :=
  { st := [{ mid := 1, gid := none, users := ["1"], started := false },
           { mid := 2, gid := some "3", users := ["2"], started := false }],
    calls := [] }

/-- The bot of test `cannot_terminate_gaming_match_when_new_game` before the second
`#新游戏`: the match of group 1 has begun. -/
def ExampleBot.gaming : Bot (List ExampleMatch) ExampleMatch :=
  { st := [{ mid := 1, gid := some "1", users := ["1"], started := true }],
    calls := [] }

/-- A bot without any match. -/
def ExampleBot.empty : Bot (List ExampleMatch) ExampleMatch :=
  { st := [], calls := [] }

/-! ## Card generation of the alchemist game (`games/alchemist/mygame.cc`) -/

/-- `alchemist::Color`, in the order of `k_colors`. -/
inductive alchemist.Color where
  | RED | BLUE | YELLOW | GREY | ORANGE | PURPLE
deriving DecidableEq, Repr

/-- `alchemist::Point`, in the order of `k_points`. -/
inductive alchemist.Point where
  | ONE | TWO | THREE | FOUR | FIVE | SIX
deriving DecidableEq, Repr

/-- `k_colors` (lines 60-67). -/
def k_colors : List alchemist.Color :=
  [.RED, .BLUE, .YELLOW, .GREY, .ORANGE, .PURPLE]

/-- `k_points` (lines 69-76). -/
def k_points : List alchemist.Point :=
  [.ONE, .TWO, .THREE, .FOUR, .FIVE, .SIX]

/-- The card that the constructor of `MainStage` adds for one draw `k` of
`distrib(0, 颜色 * 点数)` when the option `副数` is 0 (lines 126-133); `colors` is the value
of the option `颜色` and `points` that of `点数`.  The outer `none` is an index outside
`k_colors` or `k_points`, `some none` is the stone (`std::nullopt`),
`some (some (c, p))` the card of colour `c` and point `p`.  The subtraction is only reached
with `k ≠ 0`. -/
def unlimitedCard (colors points k : Nat) :
    Option (Option (alchemist.Color × alchemist.Point)) :=
  if k = 0 then some none
  else
    match k_colors.get? ((k - 1) % colors), k_points.get? ((k - 1) / points) with
    | some c, some p => some (some (c, p))
    | _, _ => none

/-- The cards that the constructor adds when `副数` (here `copies`) is positive, before the
shuffle (lines 112-122): every colour among the first `颜色` with every point among the
first `点数`, `副数` times each, and `副数` stones. -/
def limitedCards (colors points copies : Nat) :
    List (Option (alchemist.Color × alchemist.Point)) :=
  ((List.range colors).flatMap (fun color_idx =>
    (List.range points).flatMap (fun point_idx =>
      (List.range copies).filterMap (fun _ =>
        match k_colors.get? color_idx, k_points.get? point_idx with
        | some c, some p => some (some (c, p))
        | _, _ => none)))) ++ List.replicate copies none

/-! ## Cards (`game_util/poker.h`) -/

/-- `PokerSuit`.  Modelled from the spec: the macros `ENUM_BEGIN`, `ENUM_MEMBER`, `ENUM_END`
of `utility/extend_enum.h` are not among the sources; an enumeration built with them has
its members numbered from 0 in the order of declaration (`static_cast<uint32_t>`),
`Members()` lists them in that order, `Count()` is their number and they compare by that
number. -/
inductive PokerSuit where
  | PURPLE | BLUE | RED | GREEN
deriving DecidableEq, Repr

/-- `PokerNumber`, in the order of declaration: `_0` (the card `X`) is the last member. -/
inductive PokerNumber where
  | _1 | _2 | _3 | _4 | _5 | _6 | _7 | _8 | _9 | _0
deriving DecidableEq, Repr

/-- `PatternType`, in the order of declaration. -/
inductive PatternType where
  | HIGH_CARD | ONE_PAIR | TWO_PAIRS | THREE_OF_A_KIND | STRAIGHT | FLUSH | FULL_HOUSE
  | FOUR_OF_A_KIND | STRAIGHT_FLUSH
deriving DecidableEq, Repr

/-- `static_cast<uint32_t>(suit)`. -/
def PokerSuit.toNat : PokerSuit → Nat
  | .PURPLE => 0 | .BLUE => 1 | .RED => 2 | .GREEN => 3

/-- `static_cast<uint32_t>(number)`. -/
def PokerNumber.toNat : PokerNumber → Nat
  | ._1 => 0 | ._2 => 1 | ._3 => 2 | ._4 => 3 | ._5 => 4
  | ._6 => 5 | ._7 => 6 | ._8 => 7 | ._9 => 8 | ._0 => 9

/-- The number of a pattern type. -/
def PatternType.toNat : PatternType → Nat
  | .HIGH_CARD => 0 | .ONE_PAIR => 1 | .TWO_PAIRS => 2 | .THREE_OF_A_KIND => 3
  | .STRAIGHT => 4 | .FLUSH => 5 | .FULL_HOUSE => 6 | .FOUR_OF_A_KIND => 7
  | .STRAIGHT_FLUSH => 8

/-- `PokerSuit::Members()`. -/
def PokerSuit.Members : List PokerSuit :=
  [.PURPLE, .BLUE, .RED, .GREEN]

/-- `PokerNumber::Members()`. -/
def PokerNumber.Members : List PokerNumber :=
  [._1, ._2, ._3, ._4, ._5, ._6, ._7, ._8, ._9, ._0]

/-- `struct Poker`; the defaulted `operator<=>` compares `number_`, then `suit_`. -/
structure Poker where
  number_ : PokerNumber
  suit_ : PokerSuit
deriving DecidableEq, Repr

/-- The defaulted `operator<` of `Poker`. -/
def Poker.lt (a b : Poker) : Bool :=
  decide (a.number_.toNat < b.number_.toNat) ||
    (a.number_ == b.number_ && decide (a.suit_.toNat < b.suit_.toNat))

/-- The pokers that `ShuffledPokers` builds before the shuffle (lines 84-89): every number
with every suit, 40 cards. -/
def allPokers : List Poker :=
  PokerNumber.Members.flatMap (fun number => PokerSuit.Members.map (fun suit => ⟨number, suit⟩))

/-- `Poker::ToString()` through `operator<<` (lines 130-159): the mark of the suit, then
the character of the number. -/
def Poker.ToString (poker : Poker) : String :=
  (match poker.suit_ with
    | .GREEN => "☆"
    | .RED => "□"
    | .BLUE => "△"
    | .PURPLE => "○") ++
  (match poker.number_ with
    | ._0 => "X"
    | ._1 => "1"
    | ._2 => "2"
    | ._3 => "3"
    | ._4 => "4"
    | ._5 => "5"
    | ._6 => "6"
    | ._7 => "7"
    | ._8 => "8"
    | ._9 => "9")

/-- `ParseSuit` (lines 161-192): the lookup in `str2suit`; the message is not modelled. -/
def ParseSuit (s : String) : Option PokerSuit :=
  match s with
  | "绿" => some .GREEN
  | "星" => some .GREEN
  | "★" => some .GREEN
  | "☆" => some .GREEN
  | "红" => some .RED
  | "方" => some .RED
  | "■" => some .RED
  | "□" => some .RED
  | "蓝" => some .BLUE
  | "角" => some .BLUE
  | "▲" => some .BLUE
  | "△" => some .BLUE
  | "紫" => some .PURPLE
  | "圆" => some .PURPLE
  | "●" => some .PURPLE
  | "○" => some .PURPLE
  | _ => none

/-- `ParseNumber` (lines 194-220): the lookup in `str2num`. -/
def ParseNumber (s : String) : Option PokerNumber :=
  match s with
  | "X" => some ._0
  | "x" => some ._0
  | "0" => some ._0
  | "1" => some ._1
  | "2" => some ._2
  | "3" => some ._3
  | "4" => some ._4
  | "5" => some ._5
  | "6" => some ._6
  | "7" => some ._7
  | "8" => some ._8
  | "9" => some ._9
  | _ => none

/-- The characters of the class `[Xx1-9]`. -/
def cardNumberChars : List Char :=
  ['X', 'x', '1', '2', '3', '4', '5', '6', '7', '8', '9']

/-- `std::regex_match(s, match_ret, std::regex("(.*)([Xx1-9])"))`: the whole input has to
match, so the second group is the last character, which has to be in `[Xx1-9]`, and the
first group is everything before it, which `.` (any character but the line terminators
line feed and carriage return) has to accept.  The result is `match_ret[1]` and
`match_ret[2]`.  The source matches bytes of UTF-8 text; on well-formed text this is the
same as matching characters, because the bytes of a character outside ASCII are all above
127. -/
def matchCardPattern (s : String) : Option (String × String) :=
  match s.data.reverse with
  | [] => none
  | c :: rest =>
    if c ∈ cardNumberChars ∧ ∀ d ∈ rest, d ≠ Char.ofNat 10 ∧ d ≠ Char.ofNat 13 then
      some (String.mk rest.reverse, String.mk [c])
    else none

/-- Why `Parse` yields no result. -/
inductive ParseFault where
  /-- An empty `std::optional` is dereferenced. -/
  | EmptyOptional
deriving DecidableEq, Repr

/-- `Parse` (lines 222-242).  After the suit the code looks the number up and tests
`!suit.has_value()` a second time (not `number`), then dereferences `number`. -/
def Parse (s : String) : Except ParseFault (Option Poker) :=
  match matchCardPattern s with
  | none => .ok none
  | some match_ret =>
    let suit := ParseSuit match_ret.1
    if suit.isNone then .ok none
    else
      let number := ParseNumber match_ret.2
      if suit.isNone then .ok none
      else
        match number, suit with
        | some n, some su => .ok (some ⟨n, su⟩)
        | _, _ => .error .EmptyOptional

/-- `struct Deck`: the pattern type and the five pokers (`std::array<Poker, 5>`). -/
structure Deck where
  type_ : PatternType
  pokers_ : List Poker
deriving DecidableEq, Repr

/-- `std::lexicographical_compare(first1, last1, first2, last2, comp)`. -/
def lexicographical_compare {α : Type} (comp : α → α → Bool) : List α → List α → Bool
  | _, [] => false
  | [], _ :: _ => true
  | a :: as, b :: bs =>
    if comp a b then true
    else if comp b a then false
    else lexicographical_compare comp as bs

/-- `std::equal(first1, last1, first2, last2, p)`: the ranges have the same length and `p`
holds for every pair of corresponding elements. -/
def equal {α : Type} (p : α → α → Bool) : List α → List α → Bool
  | [], [] => true
  | a :: as, b :: bs => p a b && equal p as bs
  | _, _ => false

/-- The lambda `cmp` of `CompareIgnoreSuit`: `_1.number_ < _2.number_`. -/
def Deck.cmp (a b : Poker) : Bool :=
  decide (a.number_.toNat < b.number_.toNat)

/-- `int Deck::CompareIgnoreSuit(const Deck& d) const` (lines 253-268): the same `cmp` is
passed to `std::lexicographical_compare` and to `std::equal`. -/
def Deck.CompareIgnoreSuit (self d : Deck) : Int :=
  if self.type_.toNat < d.type_.toNat then -1
  else if self.type_.toNat > d.type_.toNat then 1
  else if lexicographical_compare Deck.cmp self.pokers_ d.pokers_ then -1
  else if equal Deck.cmp self.pokers_ d.pokers_ then 0
  else 1

/-- The defaulted `operator<` of `Deck`: by `type_`, then by `pokers_` in lexicographic
order of the pokers. -/
def Deck.lt (a b : Deck) : Bool :=
  decide (a.type_.toNat < b.type_.toNat) ||
    (a.type_ == b.type_ && lexicographical_compare Poker.lt a.pokers_ b.pokers_)

/-- `DeckHelper::operator<=>` of the lucky-poker round stage (`mygame.cc`, lines 566-575),
with `1`, `0`, `-1` for the result. -/
def DeckHelper.compare (a o : Option Deck) : Int :=
  match a, o with
  | some x, some y => x.CompareIgnoreSuit y
  | some _, none => 1
  | none, some _ => -1
  | none, none => 0

/-! ## Bets of the lucky-poker game (`games/lucky_poker/mygame.cc`)

The `int64_t` and `int32_t` values are integers; signed overflow is undefined behaviour in
the source and is given no meaning here, but the narrowing of an `int64_t` into an
`int32_t` member is modelled (`toInt32`). -/

/-- `k_hand_poker_num`. -/
def k_hand_poker_num : Nat := 3

/-- `PlayerHandNum` (lines 74-79); `none` is the `abort()`. -/
def PlayerHandNum (player_num : Nat) : Option Nat :=
  if player_num = 2 then some 4
  else if player_num = 3 then some 3
  else if player_num = 4 then some 2
  else none

/-- `PlayerHand::DISCARD_ALL`. -/
def PlayerHand.DISCARD_ALL : Nat := 3

/-- `PlayerHand::DISCARD_ALL_IMMUTBLE`. -/
def PlayerHand.DISCARD_ALL_IMMUTBLE : Nat := 4

/-- `PlayerHand::DISCARD_NOT_CHOOSE`. -/
def PlayerHand.DISCARD_NOT_CHOOSE : Nat := 5

/-- `struct PlayerHand` (lines 85-110). -/
structure PlayerHand where
  id_ : Nat
  pid_ : Nat
  hand_ : List Poker
  immutable_coins_ : Int
  mutable_coins_ : Int
  immutable_score_ : Int
  mutable_score_ : Int
  discard_idx_ : Nat
deriving DecidableEq, Repr

/-- The constructor of `PlayerHand`: the three pokers are sorted, the amounts are 0 and no
poker is chosen. -/
def PlayerHand.new (id pid : Nat) (hand : List Poker) : PlayerHand :=
  { id_ := id
    pid_ := pid
    hand_ := hand.insertionSort (fun a b => Poker.lt b a = false)
    immutable_coins_ := 0
    mutable_coins_ := 0
    immutable_score_ := 0
    mutable_score_ := 0
    discard_idx_ := PlayerHand.DISCARD_NOT_CHOOSE }

/-- The members of `struct PlayerRoundInfo` that the bets use; `hands_` is a reference to
the vector of the round stage and is passed along explicitly. -/
structure PlayerRoundInfo where
  pid_ : Nat
  score_ : Int
  score_change_ : Int
  remain_coins_ : Int
deriving DecidableEq, Repr

/-- Conversion of an `int64_t` to `int32_t` (two's complement, modulo `2 ^ 32`). -/
def toInt32 (x : Int) : Int :=
  (x + 2 ^ 31) % 2 ^ 32 - 2 ^ 31

/-- `PlayerRoundInfo::Reset_` (lines 203-224): the returned string is the error message,
empty on success.  `hands_[hand_id]` is not checked in the source: `none` stands for an
index outside `hands_`. -/
def PlayerRoundInfo.Reset_ (self : PlayerRoundInfo) (hands_ : List PlayerHand)
    (hand_id : Nat) (coins scores : Int) (discard_idx : Nat) :
    Option (String × PlayerRoundInfo × List PlayerHand) :=
  match hands_.get? hand_id with
  | none => none
  | some hand =>
    if hand.pid_ ≠ self.pid_ then some ("您所选择牌组本非本人牌组", self, hands_)
    else if hand.discard_idx_ = PlayerHand.DISCARD_ALL_IMMUTBLE then
      some ("该牌组已被弃置，无法变动", self, hands_)
    else
      let offset : Int := hand.mutable_coins_ + hand.mutable_score_ - coins - scores
      if self.score_ + self.score_change_ + self.remain_coins_ + offset < 0 then
        some ("您积分不足，无法加注", self, hands_)
      else if hand.immutable_coins_ < coins ∧ discard_idx < k_hand_poker_num then
        some ("下注筹码数不得超过上一轮下注数量 " ++ toString hand.immutable_coins_, self, hands_)
      else
        some ("",
          { self with remain_coins_ := self.remain_coins_ + offset },
          hands_.set hand_id
            { hand with
              mutable_coins_ := toInt32 coins
              mutable_score_ := toInt32 scores
              discard_idx_ := discard_idx })

/-- `PlayerRoundInfo::Bet` (lines 157-160). -/
def PlayerRoundInfo.Bet (self : PlayerRoundInfo) (hands_ : List PlayerHand)
    (hand_id : Nat) (coins : Int) (discard_idx : Nat) :
    Option (String × PlayerRoundInfo × List PlayerHand) :=
  self.Reset_ hands_ hand_id coins 0 discard_idx

/-- `PlayerRoundInfo::Fold` (lines 162-165). -/
def PlayerRoundInfo.Fold (self : PlayerRoundInfo) (hands_ : List PlayerHand)
    (hand_id : Nat) (coins scores : Int) (is_mutable : Bool) :
    Option (String × PlayerRoundInfo × List PlayerHand) :=
  self.Reset_ hands_ hand_id coins scores
    (if is_mutable then PlayerHand.DISCARD_ALL else PlayerHand.DISCARD_ALL_IMMUTBLE)

/-- The coins and scores of all hands that can still be changed. -/
def mutableTotal (hands_ : List PlayerHand) : Int :=
  (hands_.map (fun h => h.mutable_coins_ + h.mutable_score_)).sum

/-- `ToHandID` (lines 358-369).  `str.size() != 1` counts bytes; a text of one byte is one
ASCII character, and a single character outside ASCII fails both range tests below just as
it fails the size test in the source. -/
def ToHandID (str : String) : Option Nat :=
  match str.data with
  | [c] =>
    if 'A' ≤ c ∧ c ≤ 'Z' then some (c.toNat - 'A'.toNat)
    else if 'a' ≤ c ∧ c ≤ 'z' then some (c.toNat - 'a'.toNat)
    else none
  | _ => none

/-- `BetStage::ParseHandIdIfValid_` (lines 491-508); `IsReady(pid)` is
`masker().Get(pid) == SET`. -/
def BetStage.ParseHandIdIfValid_ (masker : Masker) (pid : Nat) (is_public : Bool)
    (hand_id_str : String) : Option Nat :=
  if is_public then none
  else if masker.Get pid = .SET then none
  else ToHandID hand_id_str

/-- The hands that the constructor of `RoundStage` deals (lines 532-550): for every player
`PlayerHandNum(player_num)` hands of three pokers each, taken from the shuffled pokers in
order; the hand `i` of player `pid` has the id `pid * player_hand_num + i`. -/
def RoundStage.dealHands (player_num player_hand_num : Nat) (shuffled_pokers : List Poker) :
    List PlayerHand :=
  (List.range player_num).flatMap (fun pid =>
    (List.range player_hand_num).map (fun i =>
      PlayerHand.new (pid * player_hand_num + i) pid
        ((shuffled_pokers.drop ((pid * player_hand_num + i) * k_hand_poker_num)).take
          k_hand_poker_num)))

/-- The infos that the constructor of `RoundStage` builds, with the scores of the main
stage, and the remaining coins that `OnStageBegin` sets (`首轮筹码` times the number of hands
of a player). -/
def RoundStage.newInfos (player_num : Nat) (scores : Nat → Int) (remain_coins : Int) :
    List PlayerRoundInfo :=
  (List.range player_num).map (fun pid =>
    { pid_ := pid, score_ := scores pid, score_change_ := 0, remain_coins_ := remain_coins })

/-- `BetStage::Bet_` (lines 415-430): the command `<hand> <coins>` of the first round.
`none` stands for an index outside `hands_` or `player_round_infos_`. -/
def BetStage.Bet_ (masker : Masker) (infos : List PlayerRoundInfo) (hands_ : List PlayerHand)
    (pid : Nat) (is_public : Bool) (hand_id_str : String) (coins : Nat) :
    Option (AtomReqErrCode × List PlayerRoundInfo × List PlayerHand) :=
  match BetStage.ParseHandIdIfValid_ masker pid is_public hand_id_str with
  | none => some (.FAILED, infos, hands_)
  | some hand_id =>
    match infos.get? pid with
    | none => none
    | some info =>
      match info.Bet hands_ hand_id coins PlayerHand.DISCARD_NOT_CHOOSE with
      | none => none
      | some r =>
        some (if r.1 ≠ "" then .FAILED else .OK, infos.set pid r.2.1, r.2.2)

/-! ## Unity chess (`games/unity_chess/mygame.cc`) -/

/-- `class Board`: the size and the arrays `chess` and `color` (`int[30][30]`, indexed by row
and column, 0 for empty or uncoloured, 1 and 2 for the players). -/
structure Board where
  sizeX : Nat
  sizeY : Nat
  chess : Nat → Nat → Nat
  color : Nat → Nat → Nat

/-- A board as the class initialises it, with the size that `OnStageBegin` sets. -/
def Board.new (size : Nat) : Board :=
  { sizeX := size, sizeY := size, chess := fun _ _ => 0, color := fun _ _ => 0 }

/-- `void Draw(int x, int y, int player)`: the 3 x 3 block around `(x, y)` takes the colour
of the player.  Every call has `x ≥ 1` and `y ≥ 1`. -/
def Board.Draw (b : Board) (x y player : Nat) : Board :=
  { b with
    color := fun i j =>
      if x - 1 ≤ i ∧ i ≤ x + 1 ∧ y - 1 ≤ j ∧ j ≤ y + 1 then player else b.color i j }

/-- `void Move(int x, int y, int player)`: the stone is placed, then the block around the
middle stone of every line of three equal stones through `(x, y)` is coloured. -/
def Board.Move (b : Board) (x y player : Nat) : Board :=
  let b0 : Board :=
    { b with chess := fun i j => if i = x ∧ j = y then player else b.chess i j }
  let c := b0.chess
  let b1 :=
    if (c (x - 1) (y - 1) = c x y ∧ c (x + 1) (y + 1) = c x y) ∨
        (c (x + 1) (y - 1) = c x y ∧ c (x - 1) (y + 1) = c x y) ∨
        (c x (y - 1) = c x y ∧ c x (y + 1) = c x y) ∨
        (c (x - 1) y = c x y ∧ c (x + 1) y = c x y) then b0.Draw x y player
    else b0
  let b2 :=
    if x > 1 ∧ y > 1 ∧ c (x - 2) (y - 2) = c x y ∧ c (x - 1) (y - 1) = c x y then
      b1.Draw (x - 1) (y - 1) player
    else b1
  let b3 :=
    if x > 1 ∧ c (x - 2) y = c x y ∧ c (x - 1) y = c x y then b2.Draw (x - 1) y player
    else b2
  let b4 :=
    if x > 1 ∧ y < b.sizeY ∧ c (x - 2) (y + 2) = c x y ∧ c (x - 1) (y + 1) = c x y then
      b3.Draw (x - 1) (y + 1) player
    else b3
  let b5 :=
    if y < b.sizeY ∧ c x (y + 2) = c x y ∧ c x (y + 1) = c x y then b4.Draw x (y + 1) player
    else b4
  let b6 :=
    if x < b.sizeX ∧ y < b.sizeY ∧ c (x + 2) (y + 2) = c x y ∧ c (x + 1) (y + 1) = c x y then
      b5.Draw (x + 1) (y + 1) player
    else b5
  let b7 :=
    if x < b.sizeX ∧ c (x + 2) y = c x y ∧ c (x + 1) y = c x y then b6.Draw (x + 1) y player
    else b6
  let b8 :=
    if x < b.sizeX ∧ y > 1 ∧ c (x + 2) (y - 2) = c x y ∧ c (x + 1) (y - 1) = c x y then
      b7.Draw (x + 1) (y - 1) player
    else b7
  if y > 1 ∧ c x (y - 2) = c x y ∧ c x (y - 1) = c x y then b8.Draw x (y - 1) player
  else b8

/-- `string CheckMove(string s, int player)` on a text of ASCII characters (for which the
bytes that the source reads are the characters): the message returned and the board
afterwards; the move is made exactly when the message is `OK`. -/
def Board.CheckMove (b : Board) (s : String) (player : Nat) : String × Board :=
  match s.data with
  | [c0, c1] =>
    let c0 := if 'a' ≤ c0 ∧ c0 ≤ 'z' then Char.ofNat (c0.toNat - 'a'.toNat + 'A'.toNat) else c0
    if c0 > 'Z' ∨ c0 < 'A' ∨ c1 > '9' ∨ c1 < '0' then
      ("[错误] 请输入合法的字符串（字母+数字），如：A1", b)
    else
      let nowY := c0.toNat - 'A'.toNat + 1
      let nowX := c1.toNat - '0'.toNat
      if nowX < 1 ∨ nowX > b.sizeX ∨ nowY < 1 ∨ nowY > b.sizeY then
        ("[错误] 你选择的位置超出了棋盘的大小", b)
      else if b.chess nowX nowY ≠ 0 then ("[错误] 你选择的位置已经有棋子了", b)
      else ("OK", b.Move nowX nowY player)
  | [c0, c1, c2] =>
    let c0 := if 'a' ≤ c0 ∧ c0 ≤ 'z' then Char.ofNat (c0.toNat - 'a'.toNat + 'A'.toNat) else c0
    if c0 > 'Z' ∨ c0 < 'A' ∨ c1 > '9' ∨ c1 < '0' then
      ("[错误] 请输入合法的字符串（字母+数字），如：A1", b)
    else if c2 > '9' ∨ c2 < '0' then ("[错误] 请输入合法的字符串（字母+数字），如：A1", b)
    else
      let nowY := c0.toNat - 'A'.toNat + 1
      let nowX := (c1.toNat - '0'.toNat) * 10 + c2.toNat - '0'.toNat
      if nowX < 1 ∨ nowX > b.sizeX ∨ nowY < 1 ∨ nowY > b.sizeY then
        ("[错误] 你选择的位置超出了棋盘的大小", b)
      else if b.chess nowX nowY ≠ 0 then ("[错误] 你选择的位置已经有棋子了", b)
      else ("OK", b.Move nowX nowY player)
  | _ => ("[错误] 请输入长度不超过 3 的字符串，如：A1", b)

/-- The cells `(i, j)` with `1 ≤ i ≤ sizeX`, `1 ≤ j ≤ sizeY`, in the order of the loops. -/
def Board.cells (b : Board) : List (Nat × Nat) :=
  (List.range b.sizeX).flatMap (fun i => (List.range b.sizeY).map (fun j => (i + 1, j + 1)))

/-- The two counts `n1` and `n2` that `GetUI` displays (lines 122-160): the cells coloured
1 and the cells coloured 2. -/
def Board.GetUI_counts (b : Board) : Nat × Nat :=
  (b.cells.countP (fun p => b.color p.1 p.2 == 1), b.cells.countP (fun p => b.color p.1 p.2 == 2))

/-- The members of the main stage of unity chess. -/
structure UnityMainStage where
  player_scores_ : List Int
  currentPlayer : Nat
  board : Board
  stop : Bool
  round_ : Nat

/-- The main stage after its constructor and `OnStageBegin`: round 1, the player drawn to
move first, the board of the configured size. -/
def UnityMainStage.begin (size first : Nat) : UnityMainStage :=
  { player_scores_ := [0, 0], currentPlayer := first, board := Board.new size, stop := false,
    round_ := 1 }

/-- `RoundStage::MakeMove_` (lines 398-416); `is_ready` is `IsReady(pid)`, and the stone is
black (1) in the odd rounds and white (2) in the even ones. -/
def UnityRoundStage.MakeMove_ (st : UnityMainStage) (is_ready : Bool) (str : String) :
    AtomReqErrCode × UnityMainStage :=
  if is_ready then (.FAILED, st)
  else
    let r := st.board.CheckMove str ((if st.round_ % 2 ≠ 0 then 0 else 1) + 1)
    if r.1 ≠ "OK" then (.FAILED, { st with board := r.2 })
    else (.READY, { st with board := r.2 })

/-- `MainStage::NextSubStage` (lines 432-463): `true` when a next round stage is returned,
`false` when the game ends. -/
def UnityMainStage.NextSubStage (st : UnityMainStage) : Bool × UnityMainStage :=
  if st.stop then (false, st)
  else
    let st1 := { st with round_ := st.round_ + 1 }
    if st1.round_ > st1.board.sizeX * st1.board.sizeY then
      let score1 := st1.board.cells.countP (fun p => st1.board.color p.1 p.2 == 1)
      let score2 := st1.board.cells.countP (fun p => !(st1.board.color p.1 p.2 == 1))
      (false, { st1 with player_scores_ := [(score1 : Int), (score2 : Int)] })
    else (true, { st1 with currentPlayer := if st1.currentPlayer = 0 then 1 else 0 })

/-- The rounds of a game in which the player to move sends the given texts, one per round:
`OnStageBegin` of the round stage has set the other slot ready, so the mover is not ready,
and a move that returns `READY` makes the mask all-ready, the round stage checks out and
`NextSubStage` runs.  The result tells whether the game goes on. -/
def UnityMainStage.play : UnityMainStage → List String → Bool × UnityMainStage
  | st, [] => (true, st)
  | st, str :: rest =>
    let r := UnityRoundStage.MakeMove_ st false str
    if r.1 = .READY then
      let n := r.2.NextSubStage
      if n.1 then UnityMainStage.play n.2 rest else n
    else UnityMainStage.play r.2 rest

/-- A game on the board of side 6 that fills the board without three equal stones in any
line: the rows alternate between black-black-white-white-black-black and its opposite.
Black (player 1) moves in the odd rounds. -/
def UnityMainStage.quietGame : List String :=
  ["A1", "C1", "B1", "D1", "E1", "A2", "F1", "B2", "C2", "E2", "D2", "F2",
   "A3", "C3", "B3", "D3", "E3", "A4", "F3", "B4", "C4", "E4", "D4", "F4",
   "A5", "C5", "B5", "D5", "E5", "A6", "F5", "B6", "C6", "E6", "D6", "F6"]

/-! ## Hands of pokers (`game_util/poker.h`, `class Hand`) -/

/-- Modelled from the spec: `PatternType::Condition(cond, a, b)` of
`utility/extend_enum.h`, which is not among the sources, selects `a` when `cond` holds and
`b` otherwise (as `StageErrCode::Condition` does). -/
def PatternType.Condition (cond : Bool) (a b : PatternType) : PatternType :=
  if cond then a else b

/-- The data members of `class Hand`: `pokers_[number][suit]`, the cache `best_deck_` and
the flag `need_refresh_`. -/
structure Hand where
  pokers_ : PokerNumber → PokerSuit → Bool
  best_deck_ : Option Deck
  need_refresh_ : Bool

/-- `Hand() : pokers_{{false}}, need_refresh_(false) {}`. -/
def Hand.new : Hand :=
  { pokers_ := fun _ _ => false, best_deck_ := none, need_refresh_ := false }

/-- `bool Add(const PokerNumber& number, const PokerSuit& suit)`. -/
def Hand.Add (h : Hand) (number : PokerNumber) (suit : PokerSuit) : Bool × Hand :=
  let old_value := h.pokers_ number suit
  let h1 : Hand :=
    { h with pokers_ := fun n s => if n = number ∧ s = suit then true else h.pokers_ n s }
  if old_value = false then (true, { h1 with need_refresh_ := true }) else (false, h1)

/-- `bool Remove(const PokerNumber& number, const PokerSuit& suit)`. -/
def Hand.Remove (h : Hand) (number : PokerNumber) (suit : PokerSuit) : Bool × Hand :=
  let old_value := h.pokers_ number suit
  let h1 : Hand :=
    { h with pokers_ := fun n s => if n = number ∧ s = suit then false else h.pokers_ n s }
  if old_value = true then (true, { h1 with need_refresh_ := true }) else (false, h1)

/-- `bool Has(const Poker& poker) const`. -/
def Hand.Has (h : Hand) (poker : Poker) : Bool :=
  h.pokers_ poker.number_ poker.suit_

/-- The number of pokers that the hand holds. -/
def cardCount (pokers_ : PokerNumber → PokerSuit → Bool) : Nat :=
  (allPokers.filter (fun p => pokers_ p.number_ p.suit_)).length

/-- The loop of `CollectNonPairDeck_` over the numbers still to visit: `Sum.inl` is the
array returned from inside the loop, `Sum.inr` the vector `pokers` when the loop ends. -/
def Hand.collectLoop (FIND_STRAIGHT : Bool) (get_poker : PokerNumber → Option Poker) :
    List PokerNumber → List Poker → List Poker ⊕ List Poker
  | [], pokers => .inr pokers
  | number :: rest, pokers =>
    match get_poker number with
    | some poker =>
      if (pokers ++ [poker]).length = 5 then .inl (pokers ++ [poker])
      else Hand.collectLoop FIND_STRAIGHT get_poker rest (pokers ++ [poker])
    | none =>
      Hand.collectLoop FIND_STRAIGHT get_poker rest (if FIND_STRAIGHT then [] else pokers)

/-- `CollectNonPairDeck_<FIND_STRAIGHT>(get_poker)` (lines 453-472): the numbers are
visited from the last member (`_0`) down to the first; after the loop a run of four that
ends at `_1` may be closed with the poker of `_0`. -/
def Hand.CollectNonPairDeck_ (FIND_STRAIGHT : Bool) (get_poker : PokerNumber → Option Poker) :
    Option (List Poker) :=
  match Hand.collectLoop FIND_STRAIGHT get_poker PokerNumber.Members.reverse [] with
  | .inl deck => some deck
  | .inr pokers =>
    match get_poker ._0 with
    | some poker =>
      if FIND_STRAIGHT = true ∧ pokers.length = 4 then some (pokers ++ [poker]) else none
    | none => none

/-- `BestFlushPattern_<FIND_STRAIGHT>(suit)` (lines 436-451). -/
def Hand.BestFlushPattern_ (pokers_ : PokerNumber → PokerSuit → Bool) (FIND_STRAIGHT : Bool)
    (suit : PokerSuit) : Option Deck :=
  (Hand.CollectNonPairDeck_ FIND_STRAIGHT
    (fun number => if pokers_ number suit then some ⟨number, suit⟩ else none)).map
    (fun deck =>
      ⟨PatternType.Condition FIND_STRAIGHT .STRAIGHT_FLUSH .FLUSH, deck⟩)

/-- `BestNonFlushNonPairPattern_()` (lines 419-434): of every number the poker of the last
suit that the hand holds. -/
def Hand.BestNonFlushNonPairPattern_ (pokers_ : PokerNumber → PokerSuit → Bool) : Option Deck :=
  (Hand.CollectNonPairDeck_ true
    (fun number =>
      (PokerSuit.Members.reverse.find? (fun suit => pokers_ number suit)).map
        (fun suit => ⟨number, suit⟩))).map
    (fun deck => ⟨.STRAIGHT, deck⟩)

/-- `count` of `BestPairPattern_`: how many pokers of the number the hand holds. -/
def Hand.numberCount (pokers_ : PokerNumber → PokerSuit → Bool) (number : PokerNumber) : Nat :=
  (PokerSuit.Members.filter (fun suit => pokers_ number suit)).length

/-- `same_number_poker_counts[i]`: the numbers held at least `i + 1` times, in the order of
the members. -/
def Hand.same_number_poker_counts (pokers_ : PokerNumber → PokerSuit → Bool) (i : Nat) :
    List PokerNumber :=
  PokerNumber.Members.filter (fun number => i < Hand.numberCount pokers_ number)

/-- `same_number_poker_counts_accurate[i]`: the numbers held exactly `i + 1` times. -/
def Hand.same_number_poker_counts_accurate (pokers_ : PokerNumber → PokerSuit → Bool)
    (i : Nat) : List PokerNumber :=
  PokerNumber.Members.filter (fun number => Hand.numberCount pokers_ number = i + 1)

/-- The lambda `fill_pair_to_deck` over the suits still to visit: the pokers of the number
are appended, last suit first, and the lambda returns once five pokers are there. -/
def Hand.fill_pair_to_deck (pokers_ : PokerNumber → PokerSuit → Bool) (number : PokerNumber) :
    List PokerSuit → List Poker → List Poker
  | [], pokers => pokers
  | suit :: rest, pokers =>
    if pokers_ number suit then
      if (pokers ++ [Poker.mk number suit]).length = 5 then pokers ++ [Poker.mk number suit]
      else Hand.fill_pair_to_deck pokers_ number rest (pokers ++ [Poker.mk number suit])
    else Hand.fill_pair_to_deck pokers_ number rest pokers

/-- The local state of `BestPairPattern_`: `already_used_numbers` and `pokers`. -/
structure PairFill where
  already_used_numbers : List PokerNumber
  pokers : List Poker
deriving DecidableEq, Repr

/-- The lambda `fill_best_pair_to_deck`: `i` runs from
`min(PokerSuit::Count(), 5 - pokers.size()) - 1` down to 0 (the subtraction is in `size_t`)
and, for each `i`, the numbers held at least `i + 1` times from the last to the first; the
first number that is not yet used is marked as used and its pokers are filled in. -/
def Hand.fill_best_pair_to_deck (pokers_ : PokerNumber → PokerSuit → Bool) (st : PairFill) :
    Bool × PairFill :=
  let m := if st.pokers.length ≤ 5 then min 4 (5 - st.pokers.length) else 4
  match ((List.range m).reverse.flatMap
      (fun i => (Hand.same_number_poker_counts pokers_ i).reverse)).find?
      (fun number => decide (number ∉ st.already_used_numbers)) with
  | some number =>
    (true,
      { already_used_numbers := number :: st.already_used_numbers
        pokers := Hand.fill_pair_to_deck pokers_ number PokerSuit.Members.reverse st.pokers })
  | none => (false, st)

/-- The loop `while (fill_best_pair_to_deck() && pokers.size() < 5);`, with a bound on the
number of iterations: `none` means that the bound was reached. -/
def Hand.pairLoop (pokers_ : PokerNumber → PokerSuit → Bool) : Nat → PairFill → Option PairFill
  | 0, _ => none
  | fuel + 1, st =>
    let r := Hand.fill_best_pair_to_deck pokers_ st
    if r.1 = true ∧ r.2.pokers.length < 5 then Hand.pairLoop pokers_ fuel r.2 else some r.2

/-- `PairPatternType_` (lines 514-531) on `same_number_poker_counts_accurate`. -/
def Hand.PairPatternType_ (accurate : Nat → List PokerNumber) : PatternType :=
  if ¬ (accurate (4 - 1)).isEmpty then .FOUR_OF_A_KIND
  else if (accurate (3 - 1)).length ≥ 2 ∨
      (¬ (accurate (3 - 1)).isEmpty ∧ ¬ (accurate (2 - 1)).isEmpty) then .FULL_HOUSE
  else if ¬ (accurate (3 - 1)).isEmpty then .THREE_OF_A_KIND
  else if (accurate (2 - 1)).length ≥ 2 then .TWO_PAIRS
  else if ¬ (accurate (2 - 1)).isEmpty then .ONE_PAIR
  else .HIGH_CARD

/-- `BestPairPattern_()` (lines 474-512); the outer `none` means that the bound on the
iterations of the loop was reached. -/
def Hand.BestPairPattern_ (fuel : Nat) (pokers_ : PokerNumber → PokerSuit → Bool) :
    Option (Option Deck) :=
  match Hand.pairLoop pokers_ fuel { already_used_numbers := [], pokers := [] } with
  | none => none
  | some st =>
    if st.pokers.length < 5 then some none
    else
      some (some ⟨Hand.PairPatternType_ (Hand.same_number_poker_counts_accurate pokers_),
        st.pokers.take 5⟩)

/-- The lambda `update_deck` of `BestDeck`. -/
def Hand.update_deck (best_deck_ : Option Deck) (deck : Option Deck) : Option Deck :=
  match deck with
  | none => best_deck_
  | some d =>
    match best_deck_ with
    | none => some d
    | some b => if b.lt d then some d else some b

/-- The recomputation in `BestDeck()` (lines 383-414) from the pokers of the hand. -/
def Hand.computeBestDeck (fuel : Nat) (pokers_ : PokerNumber → PokerSuit → Bool) :
    Option (Option Deck) :=
  let best1 := PokerSuit.Members.reverse.foldl
    (fun best suit => Hand.update_deck best (Hand.BestFlushPattern_ pokers_ true suit)) none
  if best1.isSome then some best1
  else
    match Hand.BestPairPattern_ fuel pokers_ with
    | none => none
    | some pair =>
      let best2 := Hand.update_deck best1 pair
      if best2.isSome ∧ (∀ d ∈ best2, d.type_.toNat ≥ PatternType.FULL_HOUSE.toNat) then
        some best2
      else
        let best3 := PokerSuit.Members.reverse.foldl
          (fun best suit => Hand.update_deck best (Hand.BestFlushPattern_ pokers_ false suit))
          best2
        if best3.isSome ∧ (∀ d ∈ best3, d.type_.toNat ≥ PatternType.FLUSH.toNat) then
          some best3
        else some (Hand.update_deck best3 (Hand.BestNonFlushNonPairPattern_ pokers_))

/-- `const std::optional<Deck>& BestDeck() const` (lines 378-415): the result and the hand
with its cache afterwards; `none` means that the bound on the loop of `BestPairPattern_`
was reached. -/
def Hand.BestDeck (fuel : Nat) (h : Hand) : Option (Option Deck × Hand) :=
  if h.need_refresh_ = false then some (h.best_deck_, h)
  else
    match Hand.computeBestDeck fuel h.pokers_ with
    | none => none
    | some best => some (best, { h with best_deck_ := best, need_refresh_ := false })

/-- A call on a hand. -/
inductive HandOp where
  | Add (poker : Poker)
  | Remove (poker : Poker)
  | BestDeck
deriving DecidableEq, Repr

/-- The hand after one call. -/
def Hand.apply (fuel : Nat) (h : Hand) : HandOp → Option Hand
  | .Add poker => some (h.Add poker.number_ poker.suit_).2
  | .Remove poker => some (h.Remove poker.number_ poker.suit_).2
  | .BestDeck => (Hand.BestDeck fuel h).map (fun r => r.2)

/-- The hand after a sequence of calls, oldest first. -/
def Hand.run (fuel : Nat) : Hand → List HandOp → Option Hand
  | h, [] => some h
  | h, op :: ops =>
    match Hand.apply fuel h op with
    | none => none
    | some h1 => Hand.run fuel h1 ops

/-! ## Mask lemmas -/

theorem SIZE_MOD_eq : SIZE_MOD = 18446744073709551616 := by
  norm_num [SIZE_MOD]

theorem Masker.Get_eq (m : Masker) (i : Nat) (h : i < m.recorder_.length) :
    m.Get i = m.recorder_[i] := by
  simp [Masker.Get, h]

theorem Masker.Inv_new (size : Nat) (h : size < SIZE_MOD) : (Masker.new size).Inv := by
  simp [Masker.Inv, Masker.new, h]

theorem count_unset_pos (l : List Masker.State) (i : Nat) (h : i < l.length)
    (hu : l[i] = Masker.State.UNSET) : 0 < l.count Masker.State.UNSET := by
  rw [List.count_pos_iff]
  exact hu ▸ List.getElem_mem h

theorem count_unset_le (l : List Masker.State) : l.count Masker.State.UNSET ≤ l.length :=
  List.count_le_length _ _

theorem count_unset_set_lt (l : List Masker.State) (i : Nat) (h : i < l.length)
    (hu : l[i] ≠ Masker.State.UNSET) : l.count Masker.State.UNSET < l.length := by
  by_contra hge
  have hle := count_unset_le l
  have heq : l.count Masker.State.UNSET = l.length := by omega
  have hall := (List.count_eq_length.mp heq) l[i] (List.getElem_mem h)
  exact hu hall.symm

/-- The slot states after `Record_`: nothing moves when the slot is pinned, otherwise
exactly the slot takes the new state. -/
theorem Masker.Record_recorder (m : Masker) (i : Nat) (s : Masker.State) :
    (m.Record_ i s).2.recorder_ =
      if m.Get i = .PINNED then m.recorder_ else m.recorder_.set i s := by
  unfold Masker.Record_
  by_cases hp : m.Get i = .PINNED <;> simp [hp]

theorem Masker.Record_flag (m : Masker) (i : Nat) (s : Masker.State) :
    (m.Record_ i s).2.any_user_ready_ = m.any_user_ready_ := by
  unfold Masker.Record_
  by_cases hp : m.Get i = .PINNED <;> simp [hp]

theorem Masker.Record_fst (m : Masker) (i : Nat) (s : Masker.State) :
    (m.Record_ i s).1 = (m.Record_ i s).2.IsReady := rfl

theorem Masker.Record_inv (m : Masker) (i : Nat) (s : Masker.State)
    (hi : i < m.recorder_.length) (hm : m.Inv) : (m.Record_ i s).2.Inv := by
  obtain ⟨hc, hl⟩ := hm
  have hget := m.Get_eq i hi
  unfold Masker.Record_
  by_cases hp : m.Get i = .PINNED
  · simp [hp]
    exact ⟨hc, hl⟩
  · simp only [ne_eq, hp, not_false_eq_true, if_true]
    refine ⟨?_, by simpa using hl⟩
    simp only
    rw [List.count_set _ _ _ _ hi, hc, hget]
    rw [SIZE_MOD_eq] at hl ⊢
    have hle := count_unset_le m.recorder_
    by_cases ho : m.recorder_[i] = .UNSET
    · have hpos := count_unset_pos m.recorder_ i hi ho
      by_cases hs : s = .UNSET
      · simp [ho, hs]; omega
      · simp [ho, hs]; omega
    · have hlt := count_unset_set_lt m.recorder_ i hi ho
      by_cases hs : s = .UNSET
      · simp [ho, hs]; omega
      · simp [ho, hs]; omega

theorem Masker.Record_length (m : Masker) (i : Nat) (s : Masker.State) :
    (m.Record_ i s).2.recorder_.length = m.recorder_.length := by
  rw [Masker.Record_recorder]
  split <;> simp

theorem Masker.clearLoop_fst (l : List Masker.State) (c : Nat) :
    (Masker.clearLoop l c).1 = l.map clearedState := by
  induction l generalizing c with
  | nil => rfl
  | cons s rest ih =>
    unfold Masker.clearLoop
    by_cases hs : s = .SET
    · simp [hs, ih, clearedState]
    · simp [hs, ih, clearedState]

theorem Masker.clearLoop_snd (l : List Masker.State) (c : Nat)
    (h : c + l.count .SET < SIZE_MOD) :
    (Masker.clearLoop l c).2 = c + l.count .SET := by
  induction l generalizing c with
  | nil => rfl
  | cons s rest ih =>
    unfold Masker.clearLoop
    by_cases hs : s = .SET
    · subst hs
      simp only [List.count_cons_self] at h
      have hc : (c + 1) % SIZE_MOD = c + 1 := Nat.mod_eq_of_lt (by omega)
      simp only [if_true, hc, List.count_cons_self]
      rw [ih (c + 1) (by omega)]
      omega
    · have hne : (s == Masker.State.SET) = false := by simpa using hs
      simp only [List.count_cons, hne] at h
      simp only [hs, if_false, List.count_cons, hne]
      rw [ih c (by simpa using h)]
      simp

theorem count_unset_cleared (l : List Masker.State) :
    (l.map clearedState).count .UNSET = l.count .UNSET + l.count .SET := by
  induction l with
  | nil => rfl
  | cons s rest ih =>
    cases s <;> simp [clearedState, List.count_cons, ih] <;> omega

theorem count_unset_add_set_le (l : List Masker.State) :
    l.count .UNSET + l.count .SET ≤ l.length := by
  induction l with
  | nil => simp
  | cons s rest ih =>
    cases s <;> simp [List.count_cons] <;> omega

theorem Masker.Clear_recorder (m : Masker) :
    m.Clear.recorder_ = m.recorder_.map clearedState := by
  simp [Masker.Clear, Masker.clearLoop_fst]

theorem Masker.Clear_inv (m : Masker) (hm : m.Inv) : m.Clear.Inv := by
  obtain ⟨hc, hl⟩ := hm
  have hle := count_unset_add_set_le m.recorder_
  refine ⟨?_, by simpa [Masker.Clear_recorder] using hl⟩
  rw [Masker.Clear_recorder, count_unset_cleared]
  simp only [Masker.Clear]
  rw [Masker.clearLoop_snd _ _ (by omega), hc]

theorem Masker.Unpin_recorder (m : Masker) (i : Nat) :
    (m.Unpin i).2.recorder_ =
      if m.Get i = .PINNED then m.recorder_.set i .UNSET else m.recorder_ := by
  unfold Masker.Unpin
  by_cases hp : m.Get i = .PINNED <;> simp [hp]

theorem Masker.Unpin_flag (m : Masker) (i : Nat) :
    (m.Unpin i).2.any_user_ready_ = m.any_user_ready_ := by
  unfold Masker.Unpin
  by_cases hp : m.Get i = .PINNED <;> simp [hp]

theorem Masker.Unpin_inv (m : Masker) (i : Nat) (hi : i < m.recorder_.length)
    (hm : m.Inv) : (m.Unpin i).2.Inv := by
  obtain ⟨hc, hl⟩ := hm
  have hget := m.Get_eq i hi
  unfold Masker.Unpin
  by_cases hp : m.Get i = .PINNED
  · simp only [hp, if_true]
    refine ⟨?_, by simpa using hl⟩
    simp only
    rw [List.count_set _ _ _ _ hi, hc]
    have ho : m.recorder_[i] ≠ .UNSET := by rw [← hget, hp]; decide
    have hlt := count_unset_set_lt m.recorder_ i hi ho
    rw [SIZE_MOD_eq] at hl ⊢
    simp [ho]
    omega
  · simp only [hp, if_false]
    exact ⟨hc, hl⟩

theorem Masker.Set_inv (m : Masker) (i : Nat) (u : Bool) (hi : i < m.recorder_.length)
    (hm : m.Inv) : (m.Set i u).2.Inv := by
  unfold Masker.Set
  cases u
  · exact Masker.Record_inv _ _ _ hi hm
  · exact Masker.Record_inv _ _ _ hi hm

theorem Masker.Pin_inv (m : Masker) (i : Nat) (hi : i < m.recorder_.length)
    (hm : m.Inv) : (m.Pin i).2.Inv :=
  Masker.Record_inv _ _ _ hi hm

theorem Masker.Unset_inv (m : Masker) (i : Nat) (hi : i < m.recorder_.length)
    (hm : m.Inv) : (m.Unset i).Inv :=
  Masker.Record_inv _ _ _ hi hm

theorem Masker.apply_length (m : Masker) (op : MaskOp) :
    (m.apply op).recorder_.length = m.recorder_.length := by
  cases op with
  | Set i u =>
    cases u <;> simp [Masker.apply, Masker.Set, Masker.Record_length]
  | Unset i => simp [Masker.apply, Masker.Unset, Masker.Record_length]
  | Pin i => simp [Masker.apply, Masker.Pin, Masker.Record_length]
  | Unpin i =>
    simp only [Masker.apply, Masker.Unpin_recorder]
    split <;> simp
  | Clear => simp [Masker.apply, Masker.Clear_recorder]

theorem Masker.apply_inv (m : Masker) (op : MaskOp)
    (hop : op.inRange m.recorder_.length = true) (hm : m.Inv) : (m.apply op).Inv := by
  cases op with
  | Set i u => exact Masker.Set_inv m i u (by simpa [MaskOp.inRange] using hop) hm
  | Unset i => exact Masker.Unset_inv m i (by simpa [MaskOp.inRange] using hop) hm
  | Pin i => exact Masker.Pin_inv m i (by simpa [MaskOp.inRange] using hop) hm
  | Unpin i => exact Masker.Unpin_inv m i (by simpa [MaskOp.inRange] using hop) hm
  | Clear => exact Masker.Clear_inv m hm

theorem Masker.run_length (m : Masker) (ops : List MaskOp) :
    (m.run ops).recorder_.length = m.recorder_.length := by
  induction ops generalizing m with
  | nil => rfl
  | cons op ops ih =>
    simp only [Masker.run, List.foldl_cons] at ih ⊢
    rw [ih, Masker.apply_length]

theorem Masker.run_inv (m : Masker) (ops : List MaskOp)
    (hops : ∀ op ∈ ops, op.inRange m.recorder_.length = true) (hm : m.Inv) :
    (m.run ops).Inv := by
  induction ops generalizing m with
  | nil => exact hm
  | cons op ops ih =>
    simp only [Masker.run, List.foldl_cons] at ih ⊢
    apply ih
    · intro o ho
      rw [Masker.apply_length]
      exact hops o (List.mem_cons_of_mem _ ho)
    · exact Masker.apply_inv m op (hops op (List.mem_cons_self _ _)) hm

theorem Masker.Reachable.inv {m : Masker} (h : m.Reachable) : m.Inv := by
  obtain ⟨size, ops, hs, hops, rfl⟩ := h
  apply Masker.run_inv
  · simpa [Masker.new] using hops
  · exact Masker.Inv_new size hs

/-- Under the invariant, `IsReady()` says: no slot is `UNSET` and the flag is up. -/
theorem Masker.IsReady_iff (m : Masker) (hm : m.Inv) :
    m.IsReady = true ↔ (∀ s ∈ m.recorder_, s ≠ .UNSET) ∧ m.any_user_ready_ = true := by
  obtain ⟨hc, _⟩ := hm
  simp only [Masker.IsReady, Bool.and_eq_true, beq_iff_eq, hc, List.count_eq_zero]
  constructor
  · rintro ⟨h1, h2⟩
    exact ⟨fun s hs he => h1 (he ▸ hs), h2⟩
  · rintro ⟨h1, h2⟩
    exact ⟨fun hmem => h1 _ hmem rfl, h2⟩

theorem Masker.apply_flag (m : Masker) (op : MaskOp) :
    humanAction (m.apply op).any_user_ready_ [] = humanAction m.any_user_ready_ [op] := by
  cases op with
  | Set i u =>
    cases u <;> simp [Masker.apply, Masker.Set, Masker.Record_flag, humanAction]
  | Unset i => simp [Masker.apply, Masker.Unset, Masker.Record_flag, humanAction]
  | Pin i => simp [Masker.apply, Masker.Pin, Masker.Record_flag, humanAction]
  | Unpin i => simp [Masker.apply, Masker.Unpin_flag, humanAction]
  | Clear => simp [Masker.apply, Masker.Clear, humanAction]

theorem humanAction_cons (b : Bool) (op : MaskOp) (ops : List MaskOp) :
    humanAction b (op :: ops) = humanAction (humanAction b [op]) ops := by
  cases op with
  | Set i u => cases u <;> simp [humanAction]
  | Unset i => simp [humanAction]
  | Pin i => simp [humanAction]
  | Unpin i => simp [humanAction]
  | Clear => simp [humanAction]

theorem Masker.run_flag (m : Masker) (ops : List MaskOp) :
    (m.run ops).any_user_ready_ = humanAction m.any_user_ready_ ops := by
  induction ops generalizing m with
  | nil => rfl
  | cons op ops ih =>
    simp only [Masker.run, List.foldl_cons] at ih ⊢
    rw [ih, humanAction_cons, ← Masker.apply_flag]
    rfl

theorem getD_set_state (l : List Masker.State) (i j : Nat) (a : Masker.State) :
    (l.set i a).getD j .UNSET = if i = j ∧ i < l.length then a else l.getD j .UNSET := by
  simp only [List.getD_eq_getElem?_getD, List.getElem?_set]
  by_cases hij : i = j
  · subst hij
    by_cases hl : i < l.length
    · simp [hl]
    · simp [hl, List.getElem?_eq_none (Nat.le_of_not_lt hl)]
  · simp [hij]

theorem Masker.noUnset_iff (m : Masker) :
    (∀ s ∈ m.recorder_, s ≠ .UNSET) ↔ ∀ j, j < m.recorder_.length → m.Get j ≠ .UNSET := by
  constructor
  · intro h j hj
    rw [m.Get_eq j hj]
    exact h _ (List.getElem_mem hj)
  · intro h s hs
    obtain ⟨j, hj, rfl⟩ := List.mem_iff_getElem.mp hs
    rw [← m.Get_eq j hj]
    exact h j hj

/-- Reading a slot after `Record_`. -/
theorem Masker.Record_Get (m : Masker) (i j : Nat) (s : Masker.State) :
    (m.Record_ i s).2.Get j =
      if i = j ∧ i < m.recorder_.length ∧ m.Get i ≠ .PINNED then s else m.Get j := by
  have h1 : (m.Record_ i s).2.Get j = (m.Record_ i s).2.recorder_.getD j .UNSET := rfl
  have h2 : m.Get j = m.recorder_.getD j .UNSET := rfl
  rw [h1, Masker.Record_recorder]
  by_cases hp : m.Get i = .PINNED
  · simp [hp, h2]
  · simp only [hp, if_false, getD_set_state, ← h2]
    by_cases hij : i = j
    · subst hij
      by_cases hl : i < m.recorder_.length <;> simp [hl, hp]
    · simp [hij]

theorem Masker.Unpin_Get (m : Masker) (i j : Nat) :
    (m.Unpin i).2.Get j =
      if i = j ∧ i < m.recorder_.length ∧ m.Get i = .PINNED then .UNSET else m.Get j := by
  have h1 : (m.Unpin i).2.Get j = (m.Unpin i).2.recorder_.getD j .UNSET := rfl
  have h2 : m.Get j = m.recorder_.getD j .UNSET := rfl
  rw [h1, Masker.Unpin_recorder]
  by_cases hp : m.Get i = .PINNED
  · simp only [hp, if_true, getD_set_state, ← h2]
    by_cases hij : i = j
    · subst hij
      by_cases hl : i < m.recorder_.length <;> simp [hl, hp]
    · simp [hij]
  · simp [hp, h2]

theorem Masker.Clear_Get (m : Masker) (j : Nat) (hj : j < m.recorder_.length) :
    m.Clear.Get j = clearedState (m.Get j) := by
  unfold Masker.Get
  rw [Masker.Clear_recorder]
  simp [List.getD_eq_getElem?_getD, hj]

theorem Masker.Set_Get (m : Masker) (i j : Nat) (u : Bool) :
    (m.Set i u).2.Get j =
      if i = j ∧ i < m.recorder_.length ∧ m.Get i ≠ .PINNED then .SET else m.Get j := by
  cases u
  · simp only [Masker.Set, Bool.false_eq_true, if_false]
    rw [Masker.Record_Get]
  · simp only [Masker.Set, if_true]
    rw [Masker.Record_Get]
    rfl

/-! ## Claims about the readiness mask -/

/-- C1: for every mask state reached from construction by in-range `Set`, `Unset`,
`Pin`, `Unpin` and `Clear` calls, `IsReady()` is true exactly when no slot is `UNSET`
and the human-action flag of the call history is up, the flag being raised by every
`Set` with `is_user = true` and every `Pin` and lowered only by `Clear`. -/
theorem masker_ready_iff_history (size : Nat) (ops : List MaskOp)
    (hsize : size < SIZE_MOD) (hops : ∀ op ∈ ops, op.inRange size = true) :
    ((Masker.new size).run ops).IsReady = true ↔
      (∀ i, i < size → ((Masker.new size).run ops).Get i ≠ .UNSET) ∧
        humanAction false ops = true := by
  have hinv : ((Masker.new size).run ops).Inv :=
    Masker.Reachable.inv ⟨size, ops, hsize, hops, rfl⟩
  have hlen : ((Masker.new size).run ops).recorder_.length = size := by
    rw [Masker.run_length]
    simp [Masker.new]
  rw [Masker.IsReady_iff _ hinv, Masker.noUnset_iff, Masker.run_flag, hlen]
  rfl

theorem masker_ready_iff_history_witness :
    (2 < SIZE_MOD ∧
      ∀ op ∈ [MaskOp.Set 0 false, MaskOp.Pin 1, MaskOp.Clear, MaskOp.Set 0 true],
        op.inRange 2 = true) ∧
    (((Masker.new 2).run
        [MaskOp.Set 0 false, MaskOp.Pin 1, MaskOp.Clear, MaskOp.Set 0 true]).IsReady = true ↔
      (∀ i, i < 2 → ((Masker.new 2).run
        [MaskOp.Set 0 false, MaskOp.Pin 1, MaskOp.Clear, MaskOp.Set 0 true]).Get i ≠ .UNSET) ∧
        humanAction false
          [MaskOp.Set 0 false, MaskOp.Pin 1, MaskOp.Clear, MaskOp.Set 0 true] = true) :=
  ⟨⟨by decide, by decide⟩,
    masker_ready_iff_history 2 _ (by decide) (by decide)⟩

/-- C7: on a reachable mask and an in-range slot `i`, `Set(i, is_user)` returns the value
`IsReady()` has after the call, and `Set(i, true)` returns true exactly when no slot
other than `i` is `UNSET`. -/
theorem masker_set_returns_ready (m : Masker) (i : Nat) (is_user : Bool)
    (hm : m.Reachable) (hi : i < m.recorder_.length) :
    (m.Set i is_user).1 = (m.Set i is_user).2.IsReady ∧
      ((m.Set i true).1 = true ↔
        ∀ j, j < m.recorder_.length → j ≠ i → m.Get j ≠ .UNSET) := by
  refine ⟨rfl, ?_⟩
  have hinv := Masker.Set_inv m i true hi hm.inv
  have hfst : (m.Set i true).1 = (m.Set i true).2.IsReady := rfl
  rw [hfst, Masker.IsReady_iff _ hinv, Masker.noUnset_iff]
  have hlen : (m.Set i true).2.recorder_.length = m.recorder_.length := by
    simp [Masker.Set, Masker.Record_length]
  have hflag : (m.Set i true).2.any_user_ready_ = true := by
    simp [Masker.Set, Masker.Record_flag]
  have hget : ∀ j, (m.Set i true).2.Get j =
      if i = j ∧ i < m.recorder_.length ∧ m.Get i ≠ .PINNED then .SET else m.Get j := by
    intro j
    rw [Masker.Set_Get]
  rw [hlen, hflag]
  constructor
  · rintro ⟨h, _⟩ j hj hji
    have := h j hj
    rw [hget j] at this
    simpa [Ne.symm hji] using this
  · intro h
    refine ⟨fun j hj => ?_, rfl⟩
    rw [hget j]
    by_cases hij : i = j
    · subst hij
      by_cases hp : m.Get i = .PINNED
      · simp [hp]
      · simp [hp, hi]
    · simpa [hij] using h j hj (Ne.symm hij)

theorem masker_set_returns_ready_witness :
    ((Masker.new 2).run [MaskOp.Pin 1]).Reachable ∧
      0 < ((Masker.new 2).run [MaskOp.Pin 1]).recorder_.length ∧
      ((((Masker.new 2).run [MaskOp.Pin 1]).Set 0 false).1 =
          (((Masker.new 2).run [MaskOp.Pin 1]).Set 0 false).2.IsReady ∧
        ((((Masker.new 2).run [MaskOp.Pin 1]).Set 0 true).1 = true ↔
          ∀ j, j < ((Masker.new 2).run [MaskOp.Pin 1]).recorder_.length → j ≠ 0 →
            ((Masker.new 2).run [MaskOp.Pin 1]).Get j ≠ .UNSET)) :=
  have hr : ((Masker.new 2).run [MaskOp.Pin 1]).Reachable :=
    ⟨2, [MaskOp.Pin 1], by decide, by decide, rfl⟩
  ⟨hr, by decide, masker_set_returns_ready _ 0 false hr (by decide)⟩

/-- C8: when slot `i` is `PINNED`, `Set(i, is_user)` and `Unset(i)` leave every slot state
and the counter as they were, and among all in-range calls exactly `Unpin(i)` takes slot
`i` out of `PINNED` (it becomes `UNSET`). -/
theorem masker_pinned_immune (m : Masker) (i : Nat) (is_user : Bool)
    (hi : i < m.recorder_.length) (hp : m.Get i = .PINNED) :
    ((m.Set i is_user).2.recorder_ = m.recorder_ ∧
        (m.Set i is_user).2.unset_count_ = m.unset_count_) ∧
      m.Unset i = m ∧
      (∀ op : MaskOp, op.inRange m.recorder_.length = true →
        ((m.apply op).Get i ≠ .PINNED ↔ op = MaskOp.Unpin i)) ∧
      (m.Unpin i).2.Get i = .UNSET := by
  refine ⟨?_, ?_, ?_, ?_⟩
  · cases is_user <;> simp [Masker.Set, Masker.Record_, hp, Masker.Get] <;>
      simp [Masker.Get] at hp <;> simp [hp]
  · simp [Masker.Unset, Masker.Record_, hp]
  · intro op hop
    cases op with
    | Set j u =>
      have : (m.apply (MaskOp.Set j u)).Get i = .PINNED := by
        simp only [Masker.apply]
        rw [Masker.Set_Get]
        split
        · rename_i h
          exact absurd (h.1 ▸ hp) h.2.2
        · exact hp
      simp [this]
    | Unset j =>
      have : (m.apply (MaskOp.Unset j)).Get i = .PINNED := by
        simp only [Masker.apply, Masker.Unset]
        rw [Masker.Record_Get]
        split
        · rename_i h
          exact absurd (h.1 ▸ hp) h.2.2
        · exact hp
      simp [this]
    | Pin j =>
      have : (m.apply (MaskOp.Pin j)).Get i = .PINNED := by
        simp only [Masker.apply, Masker.Pin]
        rw [Masker.Record_Get]
        split
        · rfl
        · exact hp
      simp [this]
    | Unpin j =>
      simp only [Masker.apply, MaskOp.Unpin.injEq]
      rw [Masker.Unpin_Get]
      by_cases hji : j = i
      · subst hji
        simp [hi, hp]
      · simp [hji, hp]
    | Clear =>
      simp [Masker.apply, Masker.Clear_Get m i hi, hp, clearedState]
  · rw [Masker.Unpin_Get]
    simp [hi, hp]

theorem masker_pinned_immune_witness :
    (1 < ((Masker.new 2).run [MaskOp.Pin 1]).recorder_.length ∧
      ((Masker.new 2).run [MaskOp.Pin 1]).Get 1 = .PINNED) ∧
    (((((Masker.new 2).run [MaskOp.Pin 1]).Set 1 true).2.recorder_ =
          ((Masker.new 2).run [MaskOp.Pin 1]).recorder_ ∧
        (((Masker.new 2).run [MaskOp.Pin 1]).Set 1 true).2.unset_count_ =
          ((Masker.new 2).run [MaskOp.Pin 1]).unset_count_) ∧
      ((Masker.new 2).run [MaskOp.Pin 1]).Unset 1 = (Masker.new 2).run [MaskOp.Pin 1] ∧
      (∀ op : MaskOp, op.inRange ((Masker.new 2).run [MaskOp.Pin 1]).recorder_.length = true →
        ((((Masker.new 2).run [MaskOp.Pin 1]).apply op).Get 1 ≠ .PINNED ↔
          op = MaskOp.Unpin 1)) ∧
      (((Masker.new 2).run [MaskOp.Pin 1]).Unpin 1).2.Get 1 = .UNSET) :=
  ⟨⟨by decide, by decide⟩, masker_pinned_immune _ 1 true (by decide) (by decide)⟩

/-- C9: after `Clear()` every slot that was `SET` is `UNSET`, every `PINNED` slot is still
`PINNED`, every `UNSET` slot is still `UNSET`, and `IsReady()` is false whatever the
slots are (also when all of them are `PINNED`). -/
theorem masker_clear_effect (m : Masker) :
    (∀ i, i < m.recorder_.length →
        (m.Get i = .SET → m.Clear.Get i = .UNSET) ∧
        (m.Get i = .PINNED → m.Clear.Get i = .PINNED) ∧
        (m.Get i = .UNSET → m.Clear.Get i = .UNSET)) ∧
      m.Clear.recorder_.length = m.recorder_.length ∧
      m.Clear.IsReady = false := by
  refine ⟨fun i hi => ?_, by simp [Masker.Clear_recorder], by simp [Masker.Clear, Masker.IsReady]⟩
  rw [Masker.Clear_Get m i hi]
  refine ⟨?_, ?_, ?_⟩ <;> intro h <;> simp [h, clearedState]

theorem masker_clear_effect_witness :
    ((Masker.new 2).run [MaskOp.Set 0 true, MaskOp.Pin 1]).IsReady = true ∧
      ((Masker.new 2).run [MaskOp.Set 0 true, MaskOp.Pin 1]).Clear.Get 0 = .UNSET ∧
      ((Masker.new 2).run [MaskOp.Set 0 true, MaskOp.Pin 1]).Clear.Get 1 = .PINNED ∧
      ((Masker.new 2).run [MaskOp.Pin 0, MaskOp.Pin 1]).Clear.IsReady = false :=
  ⟨by decide,
    ((masker_clear_effect ((Masker.new 2).run [MaskOp.Set 0 true, MaskOp.Pin 1])).1 0
      (by decide)).1 (by decide),
    ((masker_clear_effect ((Masker.new 2).run [MaskOp.Set 0 true, MaskOp.Pin 1])).1 1
      (by decide)).2.1 (by decide),
    (masker_clear_effect ((Masker.new 2).run [MaskOp.Pin 0, MaskOp.Pin 1])).2.2⟩

/-- C10: `Unset(i)` on an in-range slot that is not `PINNED` makes the slot `UNSET`, changes
no other slot and keeps the human-action flag; on a reachable mask that was all-ready
before, a following `Set(i, false)` makes `IsReady()` true again. -/
theorem masker_unset_keeps_flag (m : Masker) (i : Nat)
    (hm : m.Reachable) (hi : i < m.recorder_.length) (hp : m.Get i ≠ .PINNED) :
    (m.Unset i).Get i = .UNSET ∧
      (∀ j, j ≠ i → (m.Unset i).Get j = m.Get j) ∧
      (m.Unset i).any_user_ready_ = m.any_user_ready_ ∧
      (m.IsReady = true →
        ((m.Unset i).Set i false).1 = true ∧ ((m.Unset i).Set i false).2.IsReady = true) := by
  have hgetU : ∀ j, (m.Unset i).Get j = if i = j then .UNSET else m.Get j := by
    intro j
    simp only [Masker.Unset]
    rw [Masker.Record_Get]
    by_cases hij : i = j <;> simp [hij, hi, hp]
    subst hij
    simp [hi, hp]
  have hlenU : (m.Unset i).recorder_.length = m.recorder_.length := by
    simp [Masker.Unset, Masker.Record_length]
  have hflagU : (m.Unset i).any_user_ready_ = m.any_user_ready_ := by
    simp [Masker.Unset, Masker.Record_flag]
  refine ⟨by simp [hgetU], fun j hj => by simp [hgetU, Ne.symm hj], hflagU, ?_⟩
  intro hready
  have hinvU : (m.Unset i).Inv := Masker.Unset_inv m i hi hm.inv
  have hinvS := Masker.Set_inv (m.Unset i) i false (by rw [hlenU]; exact hi) hinvU
  have hall := ((Masker.IsReady_iff m hm.inv).mp hready)
  have hno := (Masker.noUnset_iff m).mp hall.1
  have hgoal : ((m.Unset i).Set i false).2.IsReady = true := by
    rw [Masker.IsReady_iff _ hinvS, Masker.noUnset_iff]
    constructor
    · intro j hj
      rw [Masker.Set_Get, hlenU]
      by_cases hij : i = j
      · subst hij
        simp [hgetU, hi]
      · have hj2 : j < m.recorder_.length := by
          simpa [Masker.Set, Masker.Record_length, hlenU] using hj
        simp only [hij, false_and, if_false, hgetU]
        exact hno j hj2
    · simp only [Masker.Set, Bool.false_eq_true, if_false]
      rw [Masker.Record_flag, hflagU]
      exact hall.2
  exact ⟨hgoal, hgoal⟩

theorem masker_unset_keeps_flag_witness :
    (((Masker.new 2).run [MaskOp.Set 0 true, MaskOp.Set 1 false]).Reachable ∧
      1 < ((Masker.new 2).run [MaskOp.Set 0 true, MaskOp.Set 1 false]).recorder_.length ∧
      ((Masker.new 2).run [MaskOp.Set 0 true, MaskOp.Set 1 false]).Get 1 ≠ .PINNED ∧
      ((Masker.new 2).run [MaskOp.Set 0 true, MaskOp.Set 1 false]).IsReady = true) ∧
    ((((Masker.new 2).run [MaskOp.Set 0 true, MaskOp.Set 1 false]).Unset 1).Set 1 false).1
      = true :=
  have hr : ((Masker.new 2).run [MaskOp.Set 0 true, MaskOp.Set 1 false]).Reachable :=
    ⟨2, [MaskOp.Set 0 true, MaskOp.Set 1 false], by decide, by decide, rfl⟩
  ⟨⟨hr, by decide, by decide, by decide⟩,
    ((masker_unset_keeps_flag _ 1 hr (by decide) (by decide)).2.2.2 (by decide)).1⟩

/-! ## Lemmas for rounds of requests -/

theorem Masker.new_Get (n j : Nat) : (Masker.new n).Get j = .UNSET := by
  simp only [Masker.Get, Masker.new, List.getD_eq_getElem?_getD]
  by_cases hj : j < n
  · simp [hj]
  · simp [List.getElem?_eq_none, Nat.le_of_not_lt hj]

theorem Masker.run_userSets_Get (ps : List Nat) (m : Masker)
    (hnp : ∀ j, m.Get j ≠ .PINNED) (i : Nat) :
    (m.run (userSets ps)).Get i =
      if i ∈ ps ∧ i < m.recorder_.length then .SET else m.Get i := by
  induction ps generalizing m with
  | nil => simp [userSets, Masker.run]
  | cons p ps ih =>
    have hrun : m.run (userSets (p :: ps)) = (m.Set p true).2.run (userSets ps) := rfl
    have hnp2 : ∀ j, (m.Set p true).2.Get j ≠ .PINNED := by
      intro j
      rw [Masker.Set_Get]
      split
      · decide
      · exact hnp j
    have hlen : (m.Set p true).2.recorder_.length = m.recorder_.length := by
      simp [Masker.Set, Masker.Record_length]
    rw [hrun, ih _ hnp2, hlen, Masker.Set_Get]
    by_cases hi : i < m.recorder_.length
    · by_cases hmem : i ∈ ps
      · simp [hmem, hi]
      · by_cases hpi : p = i
        · subst hpi
          simp [hi, hnp p]
        · have hip : ¬ i = p := fun h => hpi h.symm
          simp [hmem, hpi, hip]
    · by_cases hpi : p = i
      · subst hpi
        simp [hi]
      · simp [hi, hpi]

theorem humanAction_userSets (b : Bool) (ps : List Nat) :
    humanAction b (userSets ps) = (b || !ps.isEmpty) := by
  induction ps generalizing b with
  | nil => simp [userSets, humanAction]
  | cons p ps ih =>
    have : userSets (p :: ps) = MaskOp.Set p true :: userSets ps := rfl
    rw [this]
    simp only [humanAction]
    rw [ih]
    simp

theorem userSets_inRange (n : Nat) (ps : List Nat) (h : ∀ p ∈ ps, p < n) :
    ∀ op ∈ userSets ps, op.inRange n = true := by
  intro op hop
  simp only [userSets, List.mem_map] at hop
  obtain ⟨p, hp, rfl⟩ := hop
  simpa [MaskOp.inRange] using h p hp

/-- A new mask on which the slots `ps` got ready by human actions is all-ready exactly when
`ps` is not empty and holds every slot. -/
theorem Masker.new_userSets_ready (n : Nat) (ps : List Nat) (hn : n < SIZE_MOD)
    (hps : ∀ p ∈ ps, p < n) :
    ((Masker.new n).run (userSets ps)).IsReady = true ↔ (∀ i, i < n → i ∈ ps) ∧ ps ≠ [] := by
  have hinv : ((Masker.new n).run (userSets ps)).Inv :=
    Masker.Reachable.inv ⟨n, userSets ps, hn, userSets_inRange n ps hps, rfl⟩
  have hlen : ((Masker.new n).run (userSets ps)).recorder_.length = n := by
    rw [Masker.run_length]
    simp [Masker.new]
  have hlen0 : (Masker.new n).recorder_.length = n := by simp [Masker.new]
  rw [Masker.IsReady_iff _ hinv, Masker.noUnset_iff, Masker.run_flag, hlen,
    humanAction_userSets]
  have hget : ∀ i, ((Masker.new n).run (userSets ps)).Get i =
      if i ∈ ps ∧ i < n then .SET else .UNSET := by
    intro i
    rw [Masker.run_userSets_Get ps _ (fun j => by rw [Masker.new_Get]; decide), hlen0,
      Masker.new_Get]
  constructor
  · rintro ⟨h1, h2⟩
    refine ⟨fun i hi => ?_, ?_⟩
    · have := h1 i hi
      rw [hget] at this
      by_contra hmem
      simp [hmem] at this
    · intro he
      subst he
      simp [Masker.new] at h2
  · rintro ⟨h1, h2⟩
    refine ⟨fun i hi => ?_, ?_⟩
    · rw [hget]
      simp [h1 i hi, hi]
    · cases ps with
      | nil => exact absurd rfl h2
      | cons p ps => simp [Masker.new]

theorem take_misses_slot (n k : Nat) (ps : List Nat) (hk : k < n) : ¬ ∀ i, i < n → i ∈ ps.take k := by
  intro hall
  have hsub : List.range n ⊆ ps.take k := by
    intro i hi
    exact hall i (List.mem_range.mp hi)
  have hle := (List.subperm_of_subset (List.nodup_range n) hsub).length_le
  simp only [List.length_range, List.length_take] at hle
  omega

theorem AtomStage.requests_append {γ : Type} (h : AtomHooks γ) (s : AtomStage γ)
    (a b : List Request) :
    AtomStage.requests h s (a ++ b) =
      ((AtomStage.requests h s a).1 ++
          (AtomStage.requests h (AtomStage.requests h s a).2 b).1,
        (AtomStage.requests h (AtomStage.requests h s a).2 b).2) := by
  induction a generalizing s with
  | nil => simp [AtomStage.requests]
  | cons r rest ih =>
    have hcons : ∀ (l : List Request), AtomStage.requests h s (r :: l) =
        ((AtomStage.HandleRequestMsg h s r.msg r.pid r.is_public).1 ::
            (AtomStage.requests h
              (AtomStage.HandleRequestMsg h s r.msg r.pid r.is_public).2 l).1,
          (AtomStage.requests h
              (AtomStage.HandleRequestMsg h s r.msg r.pid r.is_public).2 l).2) :=
      fun _ => rfl
    rw [List.cons_append, hcons, hcons, ih]
    simp

/-- One request that a `READY` command accepts, on a stage with the default
`OnAllPlayerReady`, from a slot that is not pinned. -/
theorem AtomStage.ready_step {γ : Type} (h : AtomHooks γ) (s : AtomStage γ) (r : Request)
    (hdef : h.OnAllPlayerReady = (AtomHooks.default h.commands_).OnAllPlayerReady)
    (hr : ReadyRequest h r) (hp : s.env.masker.Get r.pid ≠ .PINNED) :
    (AtomStage.HandleRequestMsg h s r.msg r.pid r.is_public).2.env.masker =
        (s.env.masker.Set r.pid true).2 ∧
      ((s.env.masker.Set r.pid true).1 = true →
        (AtomStage.HandleRequestMsg h s r.msg r.pid r.is_public).1 = .CHECKOUT ∧
        (AtomStage.HandleRequestMsg h s r.msg r.pid r.is_public).2.is_over_ = true) ∧
      ((s.env.masker.Set r.pid true).1 = false →
        (AtomStage.HandleRequestMsg h s r.msg r.pid r.is_public).1 = .OK ∧
        (AtomStage.HandleRequestMsg h s r.msg r.pid r.is_public).2.is_over_ = s.is_over_) := by
  have hun : (s.env.masker.Unpin r.pid).2 = s.env.masker := by
    simp [Masker.Unpin, hp]
  obtain ⟨k, g, hk⟩ := hr { s.env with masker := (s.env.masker.Unpin r.pid).2 }
  simp only [hun] at hk
  have hfst : (s.env.masker.Set r.pid true).1 = (s.env.masker.Set r.pid true).2.IsReady := rfl
  have hid : ∀ e, h.OnAllPlayerReady e = e := by
    intro e
    rw [hdef]
    rfl
  cases hready : (s.env.masker.Set r.pid true).2.IsReady
  · simp [AtomStage.HandleRequestMsg, AtomStage.HandleRequest, hun, hk, AtomStage.Handle_pid,
      AtomStage.Handle_, AtomReqErrCode.toStageErrCode, hfst, hready]
  · simp [AtomStage.HandleRequestMsg, AtomStage.HandleRequest, hun, hk, AtomStage.Handle_pid,
      AtomStage.Handle_, AtomReqErrCode.toStageErrCode, hfst, hready, hid,
      StageErrCode.Condition, AtomStage.Over]

theorem Masker.run_append (m : Masker) (a b : List MaskOp) :
    m.run (a ++ b) = (m.run a).run b := by
  simp [Masker.run, List.foldl_append]

theorem userSets_concat (ps : List Nat) (p : Nat) :
    userSets (ps ++ [p]) = userSets ps ++ [MaskOp.Set p true] := by
  simp [userSets]

/-- The state of a stage over a new mask of `n` slots after the first `k` of `n` requests
that come from the `n` slots, one each, and are all accepted by `READY` commands. -/
theorem AtomStage.round_aux {γ : Type} (h : AtomHooks γ) (n : Nat) (g : γ)
    (reqs : List Request) (hsize : n < SIZE_MOD)
    (hperm : (reqs.map Request.pid).Perm (List.range n))
    (hdef : h.OnAllPlayerReady = (AtomHooks.default h.commands_).OnAllPlayerReady)
    (hready : ∀ r ∈ reqs, ReadyRequest h r) (k : Nat) (hk : k ≤ n) :
    (AtomStage.requests h (AtomStage.fresh n g) (reqs.take k)).2.env.masker =
        (Masker.new n).run (userSets ((reqs.take k).map Request.pid)) ∧
      (k < n →
        (AtomStage.requests h (AtomStage.fresh n g) (reqs.take k)).1 = List.replicate k .OK ∧
        (AtomStage.requests h (AtomStage.fresh n g) (reqs.take k)).2.is_over_ = false) ∧
      (k = n → 1 ≤ n →
        (AtomStage.requests h (AtomStage.fresh n g) (reqs.take k)).1 =
          List.replicate (n - 1) .OK ++ [.CHECKOUT] ∧
        (AtomStage.requests h (AtomStage.fresh n g) (reqs.take k)).2.is_over_ = true) := by
  have hlen : reqs.length = n := by
    have := hperm.length_eq
    simpa using this
  have hpid : ∀ r ∈ reqs, r.pid < n := by
    intro r hr
    have : r.pid ∈ reqs.map Request.pid := List.mem_map_of_mem _ hr
    exact List.mem_range.mp (hperm.mem_iff.mp this)
  induction k with
  | zero =>
    refine ⟨rfl, fun _ => ⟨rfl, rfl⟩, fun h0 h1 => ?_⟩
    omega
  | succ k ih =>
    obtain ⟨hmask, hlt, _⟩ := ih (by omega)
    obtain ⟨hcodes, hover⟩ := hlt (by omega)
    have hkl : k < reqs.length := by omega
    have htake : reqs.take (k + 1) = reqs.take k ++ [reqs[k]] := by
      rw [List.take_succ]
      simp [List.getElem?_eq_getElem hkl]
    have hmemk : reqs[k] ∈ reqs := List.getElem_mem hkl
    have hnp : (AtomStage.requests h (AtomStage.fresh n g) (reqs.take k)).2.env.masker.Get
        reqs[k].pid ≠ .PINNED := by
      rw [hmask, Masker.run_userSets_Get _ _ (fun j => by rw [Masker.new_Get]; decide),
        Masker.new_Get]
      split <;> decide
    obtain ⟨hm1, hrdy, hnrdy⟩ := AtomStage.ready_step h
      (AtomStage.requests h (AtomStage.fresh n g) (reqs.take k)).2 reqs[k] hdef
      (hready _ hmemk) hnp
    have hmask1 : (AtomStage.requests h (AtomStage.fresh n g) (reqs.take (k + 1))).2.env.masker
        = (Masker.new n).run (userSets ((reqs.take (k + 1)).map Request.pid)) := by
      rw [htake, AtomStage.requests_append]
      simp only [AtomStage.requests]
      rw [hm1, hmask, List.map_append, List.map_singleton, userSets_concat,
        Masker.run_append]
      rfl
    have hset : ((AtomStage.requests h (AtomStage.fresh n g) (reqs.take k)).2.env.masker.Set
        reqs[k].pid true).1 =
        ((Masker.new n).run (userSets ((reqs.take (k + 1)).map Request.pid))).IsReady := by
      rw [← hmask1, htake, AtomStage.requests_append]
      simp only [AtomStage.requests]
      rw [hm1]
      rfl
    have hps : ∀ p ∈ (reqs.take (k + 1)).map Request.pid, p < n := by
      intro p hp
      obtain ⟨r, hr, rfl⟩ := List.mem_map.mp hp
      exact hpid r (List.mem_of_mem_take hr)
    have hiff := Masker.new_userSets_ready n _ hsize hps
    refine ⟨hmask1, ?_, ?_⟩
    · intro hk1
      have hnot : ((Masker.new n).run
          (userSets ((reqs.take (k + 1)).map Request.pid))).IsReady = false := by
        cases hb : ((Masker.new n).run
            (userSets ((reqs.take (k + 1)).map Request.pid))).IsReady
        · rfl
        · exfalso
          have hall := (hiff.mp hb).1
          rw [List.map_take] at hall
          exact take_misses_slot n (k + 1) _ hk1 hall
      obtain ⟨hc, ho⟩ := hnrdy (hset.trans hnot)
      rw [htake, AtomStage.requests_append]
      simp only [AtomStage.requests]
      refine ⟨?_, ?_⟩
      · rw [hcodes, hc, List.replicate_succ']
      · rw [ho, hover]
    · intro hk1 _
      have hyes : ((Masker.new n).run
          (userSets ((reqs.take (k + 1)).map Request.pid))).IsReady = true := by
        rw [hiff]
        have hfull : reqs.take (k + 1) = reqs := List.take_of_length_le (by omega)
        rw [hfull]
        refine ⟨fun i hi => hperm.mem_iff.mpr (List.mem_range.mpr hi), ?_⟩
        intro he
        have h0 : (reqs.map Request.pid).length = 0 := by rw [he]; rfl
        rw [List.length_map] at h0
        omega
      obtain ⟨hc, ho⟩ := hrdy (hset.trans hyes)
      rw [htake, AtomStage.requests_append]
      simp only [AtomStage.requests]
      refine ⟨?_, ho⟩
      rw [hcodes, hc]
      have : n - 1 = k := by omega
      rw [this]

/-! ## Atomic stage -/

/-- C3: when the command accepting a request returns `READY` and the `Set` it causes makes
the mask all-ready, `OnAllPlayerReady` runs exactly once, on the state right after that
`Set`, before the result is decided: if the mask is not all-ready after the hook the
request returns `CONTINUE`, `Over()` is not called and the over flag keeps its value;
otherwise it returns `CHECKOUT` and `Over()` is called exactly once. -/
theorem atom_ready_hook_once {γ : Type} (h : AtomHooks γ) (s : AtomStage γ) (r : Request)
    (k : Nat) (e1 : Env γ)
    (hcmd : firstValid h.commands_ 0 r.msg r.pid r.is_public
      { s.env with masker := (s.env.masker.Unpin r.pid).2 } = some (k, .READY, e1))
    (hall : (e1.masker.Set r.pid true).1 = true) :
    (AtomStage.HandleRequestMsg h s r.msg r.pid r.is_public).2.env =
        h.OnAllPlayerReady { e1 with masker := (e1.masker.Set r.pid true).2 } ∧
      ((AtomStage.HandleRequestMsg h s r.msg r.pid r.is_public).2.env.masker.IsReady = false →
        (AtomStage.HandleRequestMsg h s r.msg r.pid r.is_public).1 = .CONTINUE ∧
        (AtomStage.HandleRequestMsg h s r.msg r.pid r.is_public).2.is_over_ = s.is_over_ ∧
        (AtomStage.HandleRequestMsg h s r.msg r.pid r.is_public).2.calls =
          s.calls ++ [Call.Command k, Call.OnAllPlayerReady]) ∧
      ((AtomStage.HandleRequestMsg h s r.msg r.pid r.is_public).2.env.masker.IsReady = true →
        (AtomStage.HandleRequestMsg h s r.msg r.pid r.is_public).1 = .CHECKOUT ∧
        (AtomStage.HandleRequestMsg h s r.msg r.pid r.is_public).2.is_over_ = true ∧
        (AtomStage.HandleRequestMsg h s r.msg r.pid r.is_public).2.calls =
          s.calls ++ [Call.Command k, Call.OnAllPlayerReady, Call.Over]) := by
  have hall2 : (e1.masker.Set r.pid true).2.IsReady = true := hall
  cases hr : (h.OnAllPlayerReady { e1 with masker := (e1.masker.Set r.pid true).2 }).masker.IsReady
  · simp [AtomStage.HandleRequestMsg, AtomStage.HandleRequest, hcmd, AtomStage.Handle_pid,
      AtomStage.Handle_, AtomReqErrCode.toStageErrCode, hall2, hr, StageErrCode.Condition]
  · simp [AtomStage.HandleRequestMsg, AtomStage.HandleRequest, hcmd, AtomStage.Handle_pid,
      AtomStage.Handle_, AtomReqErrCode.toStageErrCode, hall2, hr, StageErrCode.Condition,
      AtomStage.Over]

theorem atom_ready_hook_once_witness :
    (firstValid TestSubStage.hooks.commands_ 0 "准备" 1 true
        { masker := (((Masker.new 2).Set 0 true).2.Unpin 1).2, game := ⟨1, 0⟩ }
          = some (1, .READY, { masker := ((Masker.new 2).Set 0 true).2, game := ⟨1, 0⟩ }) ∧
      ((((Masker.new 2).Set 0 true).2).Set 1 true).1 = true) ∧
    (AtomStage.HandleRequestMsg TestSubStage.hooks
        { env := { masker := ((Masker.new 2).Set 0 true).2, game := ⟨1, 0⟩ },
          is_over_ := false, calls := [] } "准备" 1 true).1 = .CONTINUE ∧
    (AtomStage.HandleRequestMsg TestSubStage.hooks
        { env := { masker := ((Masker.new 2).Set 0 true).2, game := ⟨1, 0⟩ },
          is_over_ := false, calls := [] } "准备" 1 true).2.calls =
      [Call.Command 1, Call.OnAllPlayerReady] :=
  have h := atom_ready_hook_once TestSubStage.hooks
    { env := { masker := ((Masker.new 2).Set 0 true).2, game := ⟨1, 0⟩ },
      is_over_ := false, calls := [] } ⟨"准备", 1, true⟩ 1
    { masker := ((Masker.new 2).Set 0 true).2, game := ⟨1, 0⟩ } (by decide) (by decide)
  ⟨⟨by decide, by decide⟩, (h.2.1 (by decide)).1, (h.2.1 (by decide)).2.2⟩

/-- C2: an atomic stage over `n >= 1` slots starts from a new mask and keeps the default
`OnAllPlayerReady`; the `n` slots, one after another in any order, each issue a request
that a command answers `READY`.  Then after any `k < n` of the requests all codes so far
are `OK` and the stage is not over, and the codes of all `n` requests are `n - 1` times
`OK` followed by `CHECKOUT`, with the stage over after the last one. -/
theorem atom_round_checkout {γ : Type} (h : AtomHooks γ) (n : Nat) (g : γ)
    (reqs : List Request) (hn : 1 ≤ n) (hsize : n < SIZE_MOD)
    (hperm : (reqs.map Request.pid).Perm (List.range n))
    (hdef : h.OnAllPlayerReady = (AtomHooks.default h.commands_).OnAllPlayerReady)
    (hready : ∀ r ∈ reqs, ReadyRequest h r) :
    (∀ k, k < n →
        (AtomStage.requests h (AtomStage.fresh n g) (reqs.take k)).1 = List.replicate k .OK ∧
        (AtomStage.requests h (AtomStage.fresh n g) (reqs.take k)).2.is_over_ = false) ∧
      (AtomStage.requests h (AtomStage.fresh n g) reqs).1 =
        List.replicate (n - 1) .OK ++ [.CHECKOUT] ∧
      (AtomStage.requests h (AtomStage.fresh n g) reqs).2.is_over_ = true := by
  have hlen : reqs.length = n := by
    have := hperm.length_eq
    simpa using this
  refine ⟨fun k hk =>
    (AtomStage.round_aux h n g reqs hsize hperm hdef hready k (by omega)).2.1 hk, ?_⟩
  have hfull : reqs.take n = reqs := List.take_of_length_le (by omega)
  have := (AtomStage.round_aux h n g reqs hsize hperm hdef hready n (le_refl n)).2.2 rfl hn
  rw [hfull] at this
  exact this

theorem readyRequest_default_Ready_ (pid : Nat) (is_public : Bool) :
    ReadyRequest (AtomHooks.default [TestSubStage.Ready_]) ⟨"准备", pid, is_public⟩ := by
  intro e
  exact ⟨0, e.game, by simp [AtomHooks.default, firstValid, TestSubStage.Ready_]⟩

theorem atom_round_checkout_witness :
    (AtomStage.requests (AtomHooks.default [TestSubStage.Ready_])
        (AtomStage.fresh 2 (⟨0, 0⟩ : TestData)) [⟨"准备", 1, true⟩, ⟨"准备", 0, false⟩]).1 =
      [.OK, .CHECKOUT] ∧
    (AtomStage.requests (AtomHooks.default [TestSubStage.Ready_])
        (AtomStage.fresh 2 (⟨0, 0⟩ : TestData)) [⟨"准备", 1, true⟩, ⟨"准备", 0, false⟩]).2.is_over_ =
      true :=
  (atom_round_checkout (AtomHooks.default [TestSubStage.Ready_]) 2 (⟨0, 0⟩ : TestData)
    [⟨"准备", 1, true⟩, ⟨"准备", 0, false⟩] (by decide) (by decide) (by decide) rfl
    (by
      intro r hr
      simp only [List.mem_cons, List.mem_singleton, List.not_mem_nil, or_false] at hr
      rcases hr with rfl | rfl
      · exact readyRequest_default_Ready_ 1 true
      · exact readyRequest_default_Ready_ 0 false)).2

theorem Masker.Pin_Get (m : Masker) (i j : Nat) :
    (m.Pin i).2.Get j =
      if i = j ∧ i < m.recorder_.length ∧ m.Get i ≠ .PINNED then .PINNED else m.Get j := by
  simp only [Masker.Pin]
  rw [Masker.Record_Get]
  rfl

theorem Masker.Pin_Get_of_lt (m : Masker) (i j : Nat) (hi : i < m.recorder_.length) :
    (m.Pin i).2.Get j = if i = j then .PINNED else m.Get j := by
  rw [Masker.Pin_Get]
  by_cases hij : i = j
  · subst hij
    by_cases hp : m.Get i = .PINNED <;> simp [hi, hp]
  · simp [hij]

theorem Masker.not_ready_of_unset (m : Masker) (hm : m.Inv) (r : Nat)
    (hr : r < m.recorder_.length) (hu : m.Get r = .UNSET) : m.IsReady = false := by
  cases hb : m.IsReady
  · rfl
  · exfalso
    exact (Masker.noUnset_iff m).mp ((Masker.IsReady_iff m hm).mp hb).1 r hr hu

/-- One `HandleLeave` while another slot `r` is still `UNSET` and the leave hook continues:
the slot gets pinned, the code is `CONTINUE` and `Over()` is not called. -/
theorem AtomStage.leave_step {γ : Type} (h : AtomHooks γ) (s : AtomStage γ) (pid r : Nat)
    (hl : LeaveContinues h) (hm : s.env.masker.Inv)
    (hpid : pid < s.env.masker.recorder_.length) (hr : r < s.env.masker.recorder_.length)
    (hne : pid ≠ r) (hu : s.env.masker.Get r = .UNSET) :
    (AtomStage.HandleLeave h s pid).1 = .CONTINUE ∧
      (AtomStage.HandleLeave h s pid).2.is_over_ = s.is_over_ ∧
      (AtomStage.HandleLeave h s pid).2.env.masker = (s.env.masker.Pin pid).2 := by
  obtain ⟨h1, h2⟩ := hl pid { s.env with masker := (s.env.masker.Pin pid).2 }
  have hinv := Masker.Pin_inv _ pid hpid hm
  have hlen : (s.env.masker.Pin pid).2.recorder_.length = s.env.masker.recorder_.length := by
    simp [Masker.Pin, Masker.Record_length]
  have hur : (s.env.masker.Pin pid).2.Get r = .UNSET := by
    rw [Masker.Pin_Get_of_lt _ _ _ hpid]
    simp [hne, hu]
  have hnr := Masker.not_ready_of_unset _ hinv r (by rw [hlen]; exact hr) hur
  simp only at h2
  simp [AtomStage.HandleLeave, AtomStage.Handle_pid, AtomStage.Handle_, h1, h2, hnr,
    CheckoutErrCode.toStageErrCode]

/-- The stage after the slots `ls` have left while slot `r` stayed `UNSET`. -/
theorem AtomStage.leaves_aux {γ : Type} (h : AtomHooks γ) (r : Nat) (hl : LeaveContinues h)
    (ls : List Nat) (s : AtomStage γ) (hm : s.env.masker.Inv)
    (hr : r < s.env.masker.recorder_.length) (hu : s.env.masker.Get r = .UNSET)
    (hls : ∀ p ∈ ls, p < s.env.masker.recorder_.length ∧ p ≠ r) :
    (AtomStage.leaves h s ls).2.is_over_ = s.is_over_ ∧
      (AtomStage.leaves h s ls).2.env.masker.Inv ∧
      (AtomStage.leaves h s ls).2.env.masker.recorder_.length =
        s.env.masker.recorder_.length ∧
      (AtomStage.leaves h s ls).2.env.masker.any_user_ready_ =
        (s.env.masker.any_user_ready_ || !ls.isEmpty) ∧
      ∀ j, (AtomStage.leaves h s ls).2.env.masker.Get j =
        if j ∈ ls then .PINNED else s.env.masker.Get j := by
  induction ls generalizing s with
  | nil => simp [AtomStage.leaves, hm]
  | cons p ls ih =>
    obtain ⟨hp, hpr⟩ := hls p (List.mem_cons_self _ _)
    obtain ⟨_, ho, hmk⟩ := AtomStage.leave_step h s p r hl hm hp hr hpr hu
    have hlen : (s.env.masker.Pin p).2.recorder_.length = s.env.masker.recorder_.length := by
      simp [Masker.Pin, Masker.Record_length]
    have hget : ∀ j, (s.env.masker.Pin p).2.Get j =
        if p = j then .PINNED else s.env.masker.Get j :=
      fun j => Masker.Pin_Get_of_lt _ _ _ hp
    have hflag : (s.env.masker.Pin p).2.any_user_ready_ = true := by
      simp [Masker.Pin, Masker.Record_flag]
    have hstep : AtomStage.leaves h s (p :: ls) =
        ((AtomStage.HandleLeave h s p).1 :: (AtomStage.leaves h (AtomStage.HandleLeave h s p).2 ls).1,
          (AtomStage.leaves h (AtomStage.HandleLeave h s p).2 ls).2) := rfl
    obtain ⟨i1, i2, i3, i4, i5⟩ := ih (AtomStage.HandleLeave h s p).2
      (by rw [hmk]; exact Masker.Pin_inv _ p hp hm)
      (by rw [hmk, hlen]; exact hr)
      (by rw [hmk, hget]; simp [hpr, hu])
      (by
        intro q hq
        rw [hmk, hlen]
        exact hls q (List.mem_cons_of_mem _ hq))
    rw [hstep]
    refine ⟨by rw [i1, ho], i2, by rw [i3, hmk, hlen], by rw [i4, hmk, hflag]; simp, ?_⟩
    intro j
    rw [i5 j, hmk, hget]
    by_cases hj : j ∈ ls
    · simp [hj]
    · by_cases hpj : p = j
      · subst hpj
        simp
      · have : ¬ j = p := fun e => hpj e.symm
        simp [hj, hpj, this]

/-- C6 (as amended): the stage is not over, its mask satisfies the counter invariant and the
remaining slot `r` is `UNSET`; the leave hook returns `CONTINUE` without touching the mask and
`OnAllPlayerReady` is the default.  After `HandleLeave` for every slot but `r`, each left
slot is `PINNED` and the stage is not over, and a following request by `r` that a command
answers `READY` returns `CHECKOUT` and marks the stage over. -/
theorem atom_leave_then_ready {γ : Type} (h : AtomHooks γ) (s : AtomStage γ) (r : Nat)
    (ls : List Nat) (req : Request)
    (hl : LeaveContinues h)
    (hdef : h.OnAllPlayerReady = (AtomHooks.default h.commands_).OnAllPlayerReady)
    (hm : s.env.masker.Inv) (hover : s.is_over_ = false)
    (hr : r < s.env.masker.recorder_.length) (hu : s.env.masker.Get r = .UNSET)
    (hls : ∀ p ∈ ls, p < s.env.masker.recorder_.length ∧ p ≠ r)
    (hall : ∀ j, j < s.env.masker.recorder_.length → j ≠ r → j ∈ ls)
    (hpid : req.pid = r) (hready : ReadyRequest h req) :
    (∀ p ∈ ls, (AtomStage.leaves h s ls).2.env.masker.Get p = .PINNED) ∧
      (AtomStage.leaves h s ls).2.is_over_ = false ∧
      (AtomStage.HandleRequestMsg h (AtomStage.leaves h s ls).2
        req.msg req.pid req.is_public).1 = .CHECKOUT ∧
      (AtomStage.HandleRequestMsg h (AtomStage.leaves h s ls).2
        req.msg req.pid req.is_public).2.is_over_ = true := by
  obtain ⟨i1, i2, i3, _, i5⟩ := AtomStage.leaves_aux h r hl ls s hm hr hu hls
  have hrl : r ∉ ls := fun hmem => (hls r hmem).2 rfl
  have hgr : (AtomStage.leaves h s ls).2.env.masker.Get r = .UNSET := by
    rw [i5]
    simp [hrl, hu]
  refine ⟨fun p hp => by rw [i5]; simp [hp], by rw [i1, hover], ?_⟩
  subst hpid
  have hnp : (AtomStage.leaves h s ls).2.env.masker.Get req.pid ≠ .PINNED := by
    rw [hgr]
    decide
  obtain ⟨_, hrdy, _⟩ := AtomStage.ready_step h (AtomStage.leaves h s ls).2 req hdef hready hnp
  apply hrdy
  have hfst : ((AtomStage.leaves h s ls).2.env.masker.Set req.pid true).1 =
      ((AtomStage.leaves h s ls).2.env.masker.Set req.pid true).2.IsReady := rfl
  have hinvS := Masker.Set_inv _ req.pid true (by rw [i3]; exact hr) i2
  rw [hfst, Masker.IsReady_iff _ hinvS, Masker.noUnset_iff]
  refine ⟨fun j hj => ?_, by simp [Masker.Set, Masker.Record_flag]⟩
  have hj2 : j < s.env.masker.recorder_.length := by
    simpa [Masker.Set, Masker.Record_length, i3] using hj
  rw [Masker.Set_Get]
  by_cases hjr : req.pid = j
  · subst hjr
    simp [i3, hr, hnp]
  · have hjl : j ∈ ls := hall j hj2 (fun e => hjr e.symm)
    simp [hjr, i5, hjl]

theorem leaveContinues_default {γ : Type} (cmds : List (Cmd AtomReqErrCode γ)) :
    LeaveContinues (AtomHooks.default cmds) :=
  fun _ _ => ⟨rfl, rfl⟩

theorem atom_leave_then_ready_witness :
    (AtomStage.leaves (AtomHooks.default [TestSubStage.Ready_])
        (AtomStage.fresh 2 (⟨0, 0⟩ : TestData)) [0]).2.env.masker.Get 0 = .PINNED ∧
      (AtomStage.leaves (AtomHooks.default [TestSubStage.Ready_])
        (AtomStage.fresh 2 (⟨0, 0⟩ : TestData)) [0]).2.is_over_ = false ∧
      (AtomStage.HandleRequestMsg (AtomHooks.default [TestSubStage.Ready_])
        (AtomStage.leaves (AtomHooks.default [TestSubStage.Ready_])
          (AtomStage.fresh 2 (⟨0, 0⟩ : TestData)) [0]).2 "准备" 1 true).1 = .CHECKOUT ∧
      (AtomStage.HandleRequestMsg (AtomHooks.default [TestSubStage.Ready_])
        (AtomStage.leaves (AtomHooks.default [TestSubStage.Ready_])
          (AtomStage.fresh 2 (⟨0, 0⟩ : TestData)) [0]).2 "准备" 1 true).2.is_over_ = true :=
  have h := atom_leave_then_ready (AtomHooks.default [TestSubStage.Ready_])
    (AtomStage.fresh 2 (⟨0, 0⟩ : TestData)) 1 [0] ⟨"准备", 1, true⟩
    (leaveContinues_default _) rfl (Masker.Inv_new 2 (by decide)) rfl (by decide) (by decide)
    (by decide) (by decide) rfl (readyRequest_default_Ready_ 1 true)
  ⟨h.1 0 (by decide), h.2⟩

/-- C6 fails as stated.  With the default hooks and two slots of which slot 1 is already
`SET` by its user, `HandleLeave(0)` returns `CHECKOUT` and the stage is over although
slot 1 has not left; and with the test stage's `OnAllPlayerReady` (one reset pending),
after slot 0 has left a new two-slot stage, the `READY` request of slot 1 returns
`CONTINUE` and the stage is not over. -/
theorem atom_leave_then_ready_counterexample :
    ((AtomStage.requests (AtomHooks.default [TestSubStage.Ready_])
          (AtomStage.fresh 2 (⟨0, 0⟩ : TestData)) [⟨"准备", 1, true⟩]).2.is_over_ = false ∧
      (AtomStage.leaves (AtomHooks.default [TestSubStage.Ready_])
        (AtomStage.requests (AtomHooks.default [TestSubStage.Ready_])
          (AtomStage.fresh 2 (⟨0, 0⟩ : TestData)) [⟨"准备", 1, true⟩]).2 [0]).1 = [.CHECKOUT] ∧
      (AtomStage.leaves (AtomHooks.default [TestSubStage.Ready_])
        (AtomStage.requests (AtomHooks.default [TestSubStage.Ready_])
          (AtomStage.fresh 2 (⟨0, 0⟩ : TestData)) [⟨"准备", 1, true⟩]).2 [0]).2.is_over_ = true) ∧
    ((AtomStage.leaves TestSubStage.hooks (AtomStage.fresh 2 ⟨1, 0⟩) [0]).2.is_over_ = false ∧
      (AtomStage.HandleRequestMsg TestSubStage.hooks
        (AtomStage.leaves TestSubStage.hooks (AtomStage.fresh 2 ⟨1, 0⟩) [0]).2
        "准备" 1 true).1 = .CONTINUE ∧
      (AtomStage.HandleRequestMsg TestSubStage.hooks
        (AtomStage.leaves TestSubStage.hooks (AtomStage.fresh 2 ⟨1, 0⟩) [0]).2
        "准备" 1 true).2.is_over_ = false) := by
  decide

/-- Two slots of the test stage get ready in turn: `OK`, then `CHECKOUT`. -/
theorem test_round_of_two :
    (AtomStage.requests TestSubStage.hooks (AtomStage.fresh 2 ⟨0, 0⟩)
      [⟨"准备", 0, true⟩, ⟨"准备", 1, true⟩]).1 = [.OK, .CHECKOUT] := by decide

/-- With one readiness reset pending the round of the test stage continues. -/
theorem test_round_with_reset :
    (AtomStage.requests TestSubStage.hooks (AtomStage.fresh 2 ⟨1, 0⟩)
      [⟨"准备", 0, true⟩, ⟨"准备", 1, true⟩, ⟨"准备", 1, true⟩, ⟨"x", 1, true⟩]).1
        = [.OK, .CONTINUE, .OK, .NOT_FOUND] := by decide

/-! ## Composite stage -/

/-- A checkout that returns has asked `NextSubStage` with its reason first. -/
theorem CompStage.CheckoutSubStage_calls {γ τ : Type} (G : CompHooks γ τ) (fuel : Nat)
    (reason : CheckoutReason) (s s2 : CompStage γ τ)
    (h : CompStage.CheckoutSubStage G fuel reason s = .ok s2) :
    ∃ rest, s2.calls = s.calls ++ Call.NextSubStage reason :: rest := by
  induction fuel generalizing reason s with
  | zero => simp [CompStage.CheckoutSubStage] at h
  | succ fuel ih =>
    unfold CompStage.CheckoutSubStage at h
    cases hsub : s.sub_stage_ with
    | none => simp [hsub] at h
    | some sub =>
      simp only [hsub] at h
      cases hn : (G.NextSubStage sub reason s.env).1 with
      | none =>
        simp only [hn] at h
        injection h with h
        subst h
        exact ⟨[Call.ReleaseSubStage, Call.MaskClear, Call.Over], by simp [CompStage.Over]⟩
      | some nsub =>
        simp only [hn] at h
        split at h
        · obtain ⟨rest, hrest⟩ := ih _ _ h
          exact ⟨[Call.ReleaseSubStage, Call.MaskClear, Call.SubStageBegin,
            Call.NextSubStage .SKIP] ++ rest, by simp [hrest]⟩
        · injection h with h
          subst h
          exact ⟨[Call.ReleaseSubStage, Call.MaskClear, Call.SubStageBegin], by simp⟩

/-- C4: a composite stage handles a message as follows.  When one of its own commands
accepts it, that command's code is returned, the active child is left as it is and neither
handles the message nor is checked out.  Otherwise the active child handles it and the
child's code is returned unchanged: without a checkout when the child is not over
afterwards, and through exactly `CheckoutSubStage(BY_REQUEST)` when it is over. -/
theorem comp_request_dispatch {γ τ : Type} (G : CompHooks γ τ) (fuel : Nat)
    (s : CompStage γ τ) (msg : String) (pid : Nat) (is_public : Bool) :
    (∀ k rc e1, firstValid G.commands_ 0 msg pid is_public s.env = some (k, rc, e1) →
        CompStage.HandleRequest G fuel s msg pid is_public =
          .ok (rc.toStageErrCode,
            { s with env := e1, calls := s.calls ++ [Call.Command k] })) ∧
      (∀ sub, firstValid G.commands_ 0 msg pid is_public s.env = none →
        s.sub_stage_ = some sub →
        (G.sub.IsOver (G.sub.HandleRequest msg pid is_public sub s.env).2.1 = false →
          CompStage.HandleRequest G fuel s msg pid is_public =
            .ok ((G.sub.HandleRequest msg pid is_public sub s.env).1,
              { s with
                env := (G.sub.HandleRequest msg pid is_public sub s.env).2.2
                sub_stage_ := some (G.sub.HandleRequest msg pid is_public sub s.env).2.1
                calls := s.calls ++ [Call.SubHandleRequest] })) ∧
        (G.sub.IsOver (G.sub.HandleRequest msg pid is_public sub s.env).2.1 = true →
          CompStage.HandleRequest G fuel s msg pid is_public =
              (CompStage.CheckoutSubStage G fuel .BY_REQUEST
                { s with
                  env := (G.sub.HandleRequest msg pid is_public sub s.env).2.2
                  sub_stage_ := some (G.sub.HandleRequest msg pid is_public sub s.env).2.1
                  calls := s.calls ++ [Call.SubHandleRequest] }).map
                (fun s2 => ((G.sub.HandleRequest msg pid is_public sub s.env).1, s2)) ∧
            ∀ rc s2, CompStage.HandleRequest G fuel s msg pid is_public = .ok (rc, s2) →
              rc = (G.sub.HandleRequest msg pid is_public sub s.env).1 ∧
              ∃ rest, s2.calls =
                s.calls ++ [Call.SubHandleRequest, Call.NextSubStage .BY_REQUEST] ++ rest)) := by
  refine ⟨?_, ?_⟩
  · intro k rc e1 hcmd
    simp [CompStage.HandleRequest, hcmd]
  · intro sub hnone hsub
    refine ⟨?_, ?_⟩
    · intro hno
      simp [CompStage.HandleRequest, hnone, CompStage.PassToSubStage_, hsub, hno]
    · intro hov
      have heq : CompStage.HandleRequest G fuel s msg pid is_public =
          (CompStage.CheckoutSubStage G fuel .BY_REQUEST
            { s with
              env := (G.sub.HandleRequest msg pid is_public sub s.env).2.2
              sub_stage_ := some (G.sub.HandleRequest msg pid is_public sub s.env).2.1
              calls := s.calls ++ [Call.SubHandleRequest] }).map
            (fun s2 => ((G.sub.HandleRequest msg pid is_public sub s.env).1, s2)) := by
        simp only [CompStage.HandleRequest, hnone, CompStage.PassToSubStage_, hsub, hov, if_true]
        cases CompStage.CheckoutSubStage G fuel .BY_REQUEST
          { s with
            env := (G.sub.HandleRequest msg pid is_public sub s.env).2.2
            sub_stage_ := some (G.sub.HandleRequest msg pid is_public sub s.env).2.1
            calls := s.calls ++ [Call.SubHandleRequest] } <;> rfl
      refine ⟨heq, ?_⟩
      intro rc s2 hok
      rw [heq] at hok
      cases hc : CompStage.CheckoutSubStage G fuel .BY_REQUEST
          { s with
            env := (G.sub.HandleRequest msg pid is_public sub s.env).2.2
            sub_stage_ := some (G.sub.HandleRequest msg pid is_public sub s.env).2.1
            calls := s.calls ++ [Call.SubHandleRequest] } with
      | error f =>
        rw [hc] at hok
        simp [Except.map] at hok
      | ok s3 =>
        rw [hc] at hok
        simp only [Except.map, Except.ok.injEq, Prod.mk.injEq] at hok
        obtain ⟨h1, h2⟩ := hok
        subst h2
        obtain ⟨rest, hrest⟩ := CompStage.CheckoutSubStage_calls G fuel _ _ _ hc
        exact ⟨h1.symm, rest, by simp [hrest]⟩

/-- `HandleStageBegin` of the test `MainStage` leaves its first `SubStage` active. -/
theorem test_main_stage_begin :
    CompStage.HandleStageBegin TestMainStage.hooks 0 (TestMainStage.init 2) =
      .ok (TestMainStage.started 2) := rfl

theorem comp_request_dispatch_witness :
    (firstValid TestMainStage.hooks.commands_ 0 "结束子阶段" 0 true
        (TestMainStage.started 2).env = none ∧
      (TestMainStage.started 2).sub_stage_ =
        some { is_over_ := false, calls := [Call.OnStageBegin] } ∧
      TestMainStage.hooks.sub.IsOver
        (TestMainStage.hooks.sub.HandleRequest "结束子阶段" 0 true
          { is_over_ := false, calls := [Call.OnStageBegin] }
          (TestMainStage.started 2).env).2.1 = true) ∧
    ∀ rc s2,
      CompStage.HandleRequest TestMainStage.hooks 1 (TestMainStage.started 2)
        "结束子阶段" 0 true = .ok (rc, s2) →
      rc = (TestMainStage.hooks.sub.HandleRequest "结束子阶段" 0 true
          { is_over_ := false, calls := [Call.OnStageBegin] }
          (TestMainStage.started 2).env).1 ∧
        ∃ rest, s2.calls = (TestMainStage.started 2).calls ++
          [Call.SubHandleRequest, Call.NextSubStage .BY_REQUEST] ++ rest :=
  ⟨⟨by decide, rfl, by decide⟩,
    (((comp_request_dispatch TestMainStage.hooks 1 (TestMainStage.started 2)
      "结束子阶段" 0 true).2 { is_over_ := false, calls := [Call.OnStageBegin] }
      (by decide) rfl).2 (by decide)).2⟩

/-- C5: a checkout of a composite stage with active child `sub` asks
`NextSubStage(sub, reason)`, releases the child and clears the mask.  When no child is
returned, no child begins and the stage is marked over.  When a child is returned, its
`HandleStageBegin` runs exactly once, on the cleared mask; the checkout ends there when
the child is not over, and goes on with a `SKIP` checkout of that child when it is. -/
theorem comp_checkout_step {γ τ : Type} (G : CompHooks γ τ) (fuel : Nat)
    (reason : CheckoutReason) (s : CompStage γ τ) (sub : τ)
    (hsub : s.sub_stage_ = some sub) :
    ((G.NextSubStage sub reason s.env).1 = none →
        CompStage.CheckoutSubStage G (fuel + 1) reason s =
          .ok { env := { (G.NextSubStage sub reason s.env).2 with
                  masker := (G.NextSubStage sub reason s.env).2.masker.Clear }
                sub_stage_ := none
                is_over_ := true
                calls := s.calls ++ [Call.NextSubStage reason, Call.ReleaseSubStage,
                  Call.MaskClear, Call.Over] }) ∧
      (∀ nsub, (G.NextSubStage sub reason s.env).1 = some nsub →
        (G.sub.IsOver (G.sub.HandleStageBegin nsub
            { (G.NextSubStage sub reason s.env).2 with
              masker := (G.NextSubStage sub reason s.env).2.masker.Clear }).1 = false →
          CompStage.CheckoutSubStage G (fuel + 1) reason s =
            .ok { env := (G.sub.HandleStageBegin nsub
                    { (G.NextSubStage sub reason s.env).2 with
                      masker := (G.NextSubStage sub reason s.env).2.masker.Clear }).2
                  sub_stage_ := some (G.sub.HandleStageBegin nsub
                    { (G.NextSubStage sub reason s.env).2 with
                      masker := (G.NextSubStage sub reason s.env).2.masker.Clear }).1
                  is_over_ := s.is_over_
                  calls := s.calls ++ [Call.NextSubStage reason, Call.ReleaseSubStage,
                    Call.MaskClear, Call.SubStageBegin] }) ∧
        (G.sub.IsOver (G.sub.HandleStageBegin nsub
            { (G.NextSubStage sub reason s.env).2 with
              masker := (G.NextSubStage sub reason s.env).2.masker.Clear }).1 = true →
          CompStage.CheckoutSubStage G (fuel + 1) reason s =
            CompStage.CheckoutSubStage G fuel .SKIP
              { env := (G.sub.HandleStageBegin nsub
                  { (G.NextSubStage sub reason s.env).2 with
                    masker := (G.NextSubStage sub reason s.env).2.masker.Clear }).2
                sub_stage_ := some (G.sub.HandleStageBegin nsub
                  { (G.NextSubStage sub reason s.env).2 with
                    masker := (G.NextSubStage sub reason s.env).2.masker.Clear }).1
                is_over_ := s.is_over_
                calls := s.calls ++ [Call.NextSubStage reason, Call.ReleaseSubStage,
                  Call.MaskClear, Call.SubStageBegin] })) := by
  refine ⟨?_, ?_⟩
  · intro hnone
    simp [CompStage.CheckoutSubStage, hsub, hnone, CompStage.Over]
  · intro nsub hsome
    refine ⟨?_, ?_⟩
    · intro hno
      simp [CompStage.CheckoutSubStage, hsub, hsome, hno]
    · intro hov
      simp [CompStage.CheckoutSubStage, hsub, hsome, hov]

theorem comp_checkout_step_witness :
    ({ TestMainStage.started 2 with
        env := { masker := ((Masker.new 2).Set 0 true).2, game := ⟨0, 1⟩ } }
        : CompStage TestData AtomLocal).sub_stage_ =
      some { is_over_ := false, calls := [Call.OnStageBegin] } ∧
    CompStage.CheckoutSubStage TestMainStage.hooks 1 .BY_TIMEOUT
        { TestMainStage.started 2 with
          env := { masker := ((Masker.new 2).Set 0 true).2, game := ⟨0, 1⟩ } } =
      .ok { env := { masker := Masker.new 2, game := ⟨0, 0⟩ }
            sub_stage_ := some { is_over_ := false, calls := [Call.OnStageBegin] }
            is_over_ := false
            calls := [Call.OnStageBegin, Call.SubStageBegin, Call.NextSubStage .BY_TIMEOUT,
              Call.ReleaseSubStage, Call.MaskClear, Call.SubStageBegin] } :=
  ⟨rfl,
    ((comp_checkout_step TestMainStage.hooks 0 .BY_TIMEOUT
      { TestMainStage.started 2 with
        env := { masker := ((Masker.new 2).Set 0 true).2, game := ⟨0, 1⟩ } }
      { is_over_ := false, calls := [Call.OnStageBegin] } rfl).2
      { is_over_ := false, calls := [] } rfl).1 (by decide)⟩

/-- The scenario of `checkout_substage_by_request`: with one more sub-stage requested,
the first `结束子阶段` checks out to a new sub-stage and the second one ends the game. -/
theorem test_checkout_substage_by_request :
    ((CompStage.HandleRequestMsg TestMainStage.hooks 2 (TestMainStage.started 2)
        "准备切换 1" 0 true).toOption.map (fun r => (r.1, r.2.is_over_)) = some (.OK, false)) ∧
      ((CompStage.HandleRequestMsg TestMainStage.hooks 2
        { TestMainStage.started 2 with env := { masker := Masker.new 2, game := ⟨0, 1⟩ } }
        "结束子阶段" 0 true).toOption.map (fun r => (r.1, r.2.is_over_, r.2.env.game))
          = some (.CHECKOUT, false, ⟨0, 0⟩)) ∧
      ((CompStage.HandleRequestMsg TestMainStage.hooks 2 (TestMainStage.started 2)
        "结束子阶段" 0 true).toOption.map (fun r => (r.1, r.2.is_over_))
          = some (.CHECKOUT, true)) := by
  decide

/-! ## Claims about the human-action flag -/

theorem humanAction_quiet (ops : List MaskOp) (h : ∀ op ∈ ops, op.raisesFlag = false) :
    humanAction false ops = false := by
  induction ops with
  | nil => rfl
  | cons op ops ih =>
    have hop := h op (List.mem_cons_self _ _)
    have hrest := ih (fun o ho => h o (List.mem_cons_of_mem _ ho))
    cases op with
    | Set i u =>
      cases u
      · simpa [humanAction] using hrest
      · simp [MaskOp.raisesFlag] at hop
    | Unset i => simpa [humanAction] using hrest
    | Pin i => simp [MaskOp.raisesFlag] at hop
    | Unpin i => simpa [humanAction] using hrest
    | Clear => simpa [humanAction] using hrest

theorem MaskOp.isComputerOnly_quiet (op : MaskOp) (h : op.isComputerOnly = true) :
    op.raisesFlag = false := by
  cases op with
  | Set i u => cases u <;> simp_all [MaskOp.isComputerOnly, MaskOp.raisesFlag]
  | Unset i => rfl
  | Pin i => simp [MaskOp.isComputerOnly] at h
  | Unpin i => rfl
  | Clear => rfl

theorem Masker.not_ready_of_flag (m : Masker) (h : m.any_user_ready_ = false) :
    m.IsReady = false := by
  simp [Masker.IsReady, h]

theorem Masker.run_quiet_flag (m : Masker) (ops : List MaskOp)
    (hm : m.any_user_ready_ = false) (h : ∀ op ∈ ops, op.raisesFlag = false) :
    (m.run ops).any_user_ready_ = false := by
  rw [Masker.run_flag, hm]
  exact humanAction_quiet ops h

/-- C11: from a newly constructed mask or a mask that has just been cleared, of any size,
after any finite sequence of `Set(i, false)`, `Unset(i)` and `Unpin(i)` calls `IsReady()`
is false. -/
theorem masker_computer_only_not_ready (m0 : Masker) (ops : List MaskOp)
    (hstart : (∃ size, m0 = Masker.new size) ∨ ∃ m : Masker, m0 = m.Clear)
    (hops : ∀ op ∈ ops, op.isComputerOnly = true) :
    (m0.run ops).IsReady = false := by
  apply Masker.not_ready_of_flag
  apply Masker.run_quiet_flag
  · rcases hstart with ⟨size, rfl⟩ | ⟨m, rfl⟩
    · rfl
    · rfl
  · exact fun op hop => MaskOp.isComputerOnly_quiet op (hops op hop)

theorem masker_computer_only_not_ready_witness :
    (((Masker.new 2).run [MaskOp.Set 0 false, MaskOp.Set 1 false]).Get 0 = .SET ∧
      ((Masker.new 2).run [MaskOp.Set 0 false, MaskOp.Set 1 false]).Get 1 = .SET) ∧
    ((Masker.new 2).run [MaskOp.Set 0 false, MaskOp.Set 1 false]).IsReady = false ∧
    ((((Masker.new 2).run [MaskOp.Set 0 true, MaskOp.Pin 1]).Clear).run
      [MaskOp.Unpin 1, MaskOp.Set 1 false, MaskOp.Unset 0, MaskOp.Set 0 false]).IsReady
        = false :=
  ⟨⟨by decide, by decide⟩,
    masker_computer_only_not_ready _ _ (Or.inl ⟨2, rfl⟩) (by decide),
    masker_computer_only_not_ready _ _ (Or.inr ⟨_, rfl⟩) (by decide)⟩

/-- C12 fails as stated: on a new mask of one slot, after `Pin(0)` every slot is `PINNED`, no
`Set` call at all has occurred, and `IsReady()` is true. -/
theorem masker_all_pinned_counterexample :
    (∀ i, i < 1 → ((Masker.new 1).run [MaskOp.Pin 0]).Get i = .PINNED) ∧
      (∀ op ∈ [MaskOp.Pin 0], ∀ i, op ≠ MaskOp.Set i true) ∧
      ((Masker.new 1).run [MaskOp.Pin 0]).IsReady = true := by
  refine ⟨by decide, ?_, by decide⟩
  intro op hop i
  simp only [List.mem_singleton] at hop
  subst hop
  simp

/-- C12 (as amended): when every slot of a reachable mask is `PINNED` and neither a `Set`
with `is_user = true` nor a `Pin` has occurred since construction or since a `Clear`, the
counter is 0, the human-action flag is down and `IsReady()` returns false. -/
theorem masker_all_pinned_quiet_not_ready (size : Nat) (ops : List MaskOp)
    (hsize : size < SIZE_MOD) (hops : ∀ op ∈ ops, op.inRange size = true)
    (hpinned : ∀ i, i < size → ((Masker.new size).run ops).Get i = .PINNED)
    (hquiet : (∀ op ∈ ops, op.raisesFlag = false) ∨
      ∃ pre post, ops = pre ++ MaskOp.Clear :: post ∧ ∀ op ∈ post, op.raisesFlag = false) :
    ((Masker.new size).run ops).unset_count_ = 0 ∧
      ((Masker.new size).run ops).any_user_ready_ = false ∧
      ((Masker.new size).run ops).IsReady = false := by
  have hinv : ((Masker.new size).run ops).Inv :=
    Masker.Reachable.inv ⟨size, ops, hsize, hops, rfl⟩
  have hlen : ((Masker.new size).run ops).recorder_.length = size := by
    rw [Masker.run_length]
    simp [Masker.new]
  have hflag : ((Masker.new size).run ops).any_user_ready_ = false := by
    rcases hquiet with hq | ⟨pre, post, rfl, hq⟩
    · exact Masker.run_quiet_flag _ _ rfl hq
    · have : (Masker.new size).run (pre ++ MaskOp.Clear :: post) =
          (((Masker.new size).run pre).Clear).run post := by
        rw [Masker.run_append]
        rfl
      rw [this]
      exact Masker.run_quiet_flag _ _ rfl hq
  refine ⟨?_, hflag, Masker.not_ready_of_flag _ hflag⟩
  rw [hinv.1, List.count_eq_zero]
  intro hmem
  obtain ⟨j, hj, hjeq⟩ := List.mem_iff_getElem.mp hmem
  have hp := hpinned j (by rw [← hlen]; exact hj)
  rw [Masker.Get_eq _ j hj, hjeq] at hp
  exact absurd hp (by decide)

theorem masker_all_pinned_quiet_not_ready_witness :
    ((∀ op ∈ [MaskOp.Pin 0, MaskOp.Pin 1, MaskOp.Clear, MaskOp.Set 0 false],
        op.inRange 2 = true) ∧
      (∀ i, i < 2 → ((Masker.new 2).run
        [MaskOp.Pin 0, MaskOp.Pin 1, MaskOp.Clear, MaskOp.Set 0 false]).Get i = .PINNED)) ∧
    ((Masker.new 2).run
      [MaskOp.Pin 0, MaskOp.Pin 1, MaskOp.Clear, MaskOp.Set 0 false]).unset_count_ = 0 ∧
    ((Masker.new 2).run
      [MaskOp.Pin 0, MaskOp.Pin 1, MaskOp.Clear, MaskOp.Set 0 false]).IsReady = false :=
  have h := masker_all_pinned_quiet_not_ready 2
    [MaskOp.Pin 0, MaskOp.Pin 1, MaskOp.Clear, MaskOp.Set 0 false] (by decide) (by decide)
    (by decide)
    (Or.inr ⟨[MaskOp.Pin 0, MaskOp.Pin 1], [MaskOp.Set 0 false], rfl, by decide⟩)
  ⟨⟨by decide, by decide⟩, h.1, h.2.2⟩

/-! ## Claims about requests to an atomic stage -/

theorem AtomStage.Handle_code {γ : Type} (h : AtomHooks γ) (s : AtomStage γ)
    (rc : StageErrCode) :
    (AtomStage.Handle_ h s rc).1 = rc ∨ (AtomStage.Handle_ h s rc).1 = .CHECKOUT ∨
      (AtomStage.Handle_ h s rc).1 = .CONTINUE := by
  by_cases hc1 : rc = .CHECKOUT
  · simp [AtomStage.Handle_, hc1]
  · by_cases hc2 : s.env.masker.IsReady = true
    · cases hr : (h.OnAllPlayerReady s.env).masker.IsReady <;>
        simp [AtomStage.Handle_, hc1, hc2, hr, StageErrCode.Condition]
    · simp [AtomStage.Handle_, hc1, hc2]

theorem AtomStage.Handle_pid_code {γ : Type} (h : AtomHooks γ) (s : AtomStage γ) (pid : Nat)
    (is_user : Bool) (rc : AtomReqErrCode) :
    (AtomStage.Handle_pid h s pid is_user rc.toStageErrCode).1 ∈
      [StageErrCode.OK, .FAILED, .CHECKOUT, .CONTINUE] := by
  unfold AtomStage.Handle_pid
  cases rc
  · have := AtomStage.Handle_code h s .OK
    simp only [AtomReqErrCode.toStageErrCode]
    rcases this with h1 | h1 | h1 <;> simp [h1]
  · have := AtomStage.Handle_code h s .FAILED
    simp only [AtomReqErrCode.toStageErrCode]
    rcases this with h1 | h1 | h1 <;> simp [h1]
  · have := AtomStage.Handle_code h
      { s with env := { s.env with masker := (s.env.masker.Set pid is_user).2 } } .OK
    simp only [AtomReqErrCode.toStageErrCode, if_true]
    rcases this with h1 | h1 | h1 <;> simp [h1]
  · have := AtomStage.Handle_code h s .CHECKOUT
    simp only [AtomReqErrCode.toStageErrCode]
    rcases this with h1 | h1 | h1 <;> simp [h1]

theorem AtomStage.HandleRequest_code {γ : Type} (h : AtomHooks γ) (s : AtomStage γ)
    (msg : String) (pid : Nat) (is_public : Bool) :
    (AtomStage.HandleRequest h s msg pid is_public).1 ∈
      [StageErrCode.OK, .FAILED, .CHECKOUT, .CONTINUE, .NOT_FOUND] := by
  unfold AtomStage.HandleRequest
  cases hf : firstValid h.commands_ 0 msg pid is_public s.env with
  | none => simp
  | some r =>
    have := AtomStage.Handle_pid_code h
      { s with env := r.2.2, calls := s.calls ++ [Call.Command r.1] } pid true r.2.1
    simp only [List.mem_cons, List.mem_singleton, List.not_mem_nil, or_false] at this ⊢
    rcases this with h1 | h1 | h1 | h1 <;> simp [h1]

/-- C13 fails as stated: on the test stage with one readiness reset pending, after slot 0 got
ready the request `准备` of slot 1 returns `CONTINUE`, which is none of `OK`, `FAILED`,
`READY`, `CHECKOUT`, `NOT_FOUND`. -/
theorem atom_request_codes_counterexample :
    (AtomStage.HandleRequestMsg TestSubStage.hooks
        (AtomStage.requests TestSubStage.hooks (AtomStage.fresh 2 ⟨1, 0⟩)
          [⟨"准备", 0, true⟩]).2 "准备" 1 true).1 = .CONTINUE ∧
      ¬ (AtomStage.HandleRequestMsg TestSubStage.hooks
        (AtomStage.requests TestSubStage.hooks (AtomStage.fresh 2 ⟨1, 0⟩)
          [⟨"准备", 0, true⟩]).2 "准备" 1 true).1 ∈
        [StageErrCode.OK, .FAILED, .READY, .CHECKOUT, .NOT_FOUND] := by
  decide

/-- C13 (as amended): for every atomic stage, slot and message, `HandleRequest` (with or
without the unpinning wrapper of `StageBaseWrapper`) returns one of `OK`, `FAILED`,
`CHECKOUT`, `CONTINUE` or `NOT_FOUND`; `READY` is never returned. -/
theorem atom_request_codes {γ : Type} (h : AtomHooks γ) (s : AtomStage γ) (msg : String)
    (pid : Nat) (is_public : Bool) :
    (AtomStage.HandleRequestMsg h s msg pid is_public).1 ∈
        [StageErrCode.OK, .FAILED, .CHECKOUT, .CONTINUE, .NOT_FOUND] ∧
      (AtomStage.HandleRequest h s msg pid is_public).1 ∈
        [StageErrCode.OK, .FAILED, .CHECKOUT, .CONTINUE, .NOT_FOUND] ∧
      (AtomStage.HandleRequestMsg h s msg pid is_public).1 ≠ .READY ∧
      (AtomStage.HandleRequest h s msg pid is_public).1 ≠ .READY := by
  have h1 := AtomStage.HandleRequest_code h
    { s with env := { s.env with masker := (s.env.masker.Unpin pid).2 } } msg pid is_public
  have h2 := AtomStage.HandleRequest_code h s msg pid is_public
  refine ⟨h1, h2, ?_, ?_⟩
  · intro he
    have h3 : (AtomStage.HandleRequestMsg h s msg pid is_public).1 ∈
        [StageErrCode.OK, .FAILED, .CHECKOUT, .CONTINUE, .NOT_FOUND] := h1
    rw [he] at h3
    simp at h3
  · intro he
    rw [he] at h2
    simp at h2

theorem firstValid_append {ρ γ : Type} (pre : List (Cmd ρ γ)) (c : Cmd ρ γ)
    (post : List (Cmd ρ γ)) (idx : Nat) (msg : String) (pid : Nat) (is_public : Bool)
    (e : Env γ) (rc : ρ) (e1 : Env γ)
    (hpre : ∀ p ∈ pre, p msg pid is_public e = none)
    (hc : c msg pid is_public e = some (rc, e1)) :
    firstValid (pre ++ c :: post) idx msg pid is_public e = some (idx + pre.length, rc, e1) := by
  induction pre generalizing idx with
  | nil => simp [firstValid, hc]
  | cons p pre ih =>
    have hp := hpre p (List.mem_cons_self _ _)
    have hstep : firstValid ((p :: pre) ++ c :: post) idx msg pid is_public e =
        firstValid (pre ++ c :: post) (idx + 1) msg pid is_public e := by
      show firstValid (p :: (pre ++ c :: post)) idx msg pid is_public e = _
      simp only [firstValid, hp]
    rw [hstep, ih (idx + 1) (fun q hq => hpre q (List.mem_cons_of_mem _ hq))]
    simp only [List.length_cons]
    congr 2
    omega

theorem firstValid_none {ρ γ : Type} (cmds : List (Cmd ρ γ)) (idx : Nat) (msg : String)
    (pid : Nat) (is_public : Bool) (e : Env γ)
    (h : ∀ c ∈ cmds, c msg pid is_public e = none) :
    firstValid cmds idx msg pid is_public e = none := by
  induction cmds generalizing idx with
  | nil => rfl
  | cons c cmds ih =>
    simp only [firstValid, h c (List.mem_cons_self _ _)]
    exact ih (idx + 1) (fun q hq => h q (List.mem_cons_of_mem _ hq))

theorem AtomStage.Handle_calls {γ : Type} (h : AtomHooks γ) (s : AtomStage γ)
    (rc : StageErrCode) :
    ∃ rest, (AtomStage.Handle_ h s rc).2.calls = s.calls ++ rest ∧
      ∀ c ∈ rest, c = Call.OnAllPlayerReady ∨ c = Call.Over := by
  by_cases hc1 : rc = .CHECKOUT
  · exact ⟨[Call.Over], by simp [AtomStage.Handle_, hc1, AtomStage.Over], by simp⟩
  · by_cases hc2 : s.env.masker.IsReady = true
    · cases hr : (h.OnAllPlayerReady s.env).masker.IsReady
      · exact ⟨[Call.OnAllPlayerReady],
          by simp [AtomStage.Handle_, hc1, hc2, hr, StageErrCode.Condition], by simp⟩
      · exact ⟨[Call.OnAllPlayerReady, Call.Over],
          by simp [AtomStage.Handle_, hc1, hc2, hr, StageErrCode.Condition, AtomStage.Over],
          by simp⟩
    · exact ⟨[], by simp [AtomStage.Handle_, hc1, hc2], by simp⟩

theorem AtomStage.Handle_pid_calls {γ : Type} (h : AtomHooks γ) (s : AtomStage γ) (pid : Nat)
    (is_user : Bool) (rc : StageErrCode) :
    ∃ rest, (AtomStage.Handle_pid h s pid is_user rc).2.calls = s.calls ++ rest ∧
      ∀ c ∈ rest, c = Call.OnAllPlayerReady ∨ c = Call.Over := by
  unfold AtomStage.Handle_pid
  split
  · exact AtomStage.Handle_calls h _ _
  · exact AtomStage.Handle_calls h _ _

/-- C14: when the commands before `c` in registration order all reject the message and `c`
accepts it, `HandleRequest` is `Handle_` of the result of `c` alone: the trace gains the one
command call `Command pre.length`, followed at most by `OnAllPlayerReady` and `Over`, and
the commands after `c` play no part.  When no command accepts the message the result is
`NOT_FOUND`, the stage leaves `HandleRequest` as it entered it (no command, no
`OnAllPlayerReady`, over flag unchanged, whether or not the mask is all-ready), and the
wrapper of `StageBaseWrapper` changes nothing but the unpinning of the slot. -/
theorem atom_request_first_match {γ : Type} (h : AtomHooks γ) (s : AtomStage γ)
    (msg : String) (pid : Nat) (is_public : Bool) :
    (∀ (pre post : List (Cmd AtomReqErrCode γ)) (c : Cmd AtomReqErrCode γ)
        (rc : AtomReqErrCode) (e1 : Env γ),
        h.commands_ = pre ++ c :: post →
        (∀ p ∈ pre, p msg pid is_public s.env = none) →
        c msg pid is_public s.env = some (rc, e1) →
        AtomStage.HandleRequest h s msg pid is_public =
            AtomStage.Handle_pid h
              { s with env := e1, calls := s.calls ++ [Call.Command pre.length] }
              pid true rc.toStageErrCode ∧
          ∃ rest, (AtomStage.HandleRequest h s msg pid is_public).2.calls =
              s.calls ++ Call.Command pre.length :: rest ∧
            ∀ x ∈ rest, x = Call.OnAllPlayerReady ∨ x = Call.Over) ∧
      ((∀ c ∈ h.commands_, c msg pid is_public s.env = none) →
        AtomStage.HandleRequest h s msg pid is_public = (.NOT_FOUND, s)) ∧
      ((∀ c ∈ h.commands_, c msg pid is_public
          { s.env with masker := (s.env.masker.Unpin pid).2 } = none) →
        (AtomStage.HandleRequestMsg h s msg pid is_public).1 = .NOT_FOUND ∧
        (AtomStage.HandleRequestMsg h s msg pid is_public).2.is_over_ = s.is_over_ ∧
        (AtomStage.HandleRequestMsg h s msg pid is_public).2.calls = s.calls ∧
        (AtomStage.HandleRequestMsg h s msg pid is_public).2.env =
          { s.env with masker := (s.env.masker.Unpin pid).2 }) := by
  refine ⟨?_, ?_, ?_⟩
  · intro pre post c rc e1 hcmds hpre hc
    have hf := firstValid_append pre c post 0 msg pid is_public s.env rc e1 hpre hc
    have heq : AtomStage.HandleRequest h s msg pid is_public =
        AtomStage.Handle_pid h
          { s with env := e1, calls := s.calls ++ [Call.Command pre.length] }
          pid true rc.toStageErrCode := by
      simp [AtomStage.HandleRequest, hcmds, hf]
    refine ⟨heq, ?_⟩
    obtain ⟨rest, hrest, hall⟩ := AtomStage.Handle_pid_calls h
      { s with env := e1, calls := s.calls ++ [Call.Command pre.length] } pid true
      rc.toStageErrCode
    exact ⟨rest, by rw [heq, hrest]; simp, hall⟩
  · intro hnone
    simp [AtomStage.HandleRequest, firstValid_none _ 0 msg pid is_public s.env hnone]
  · intro hnone
    simp [AtomStage.HandleRequestMsg, AtomStage.HandleRequest,
      firstValid_none _ 0 msg pid is_public _ hnone]

theorem atom_request_first_match_witness :
    (TestSubStage.hooks.commands_ =
        [TestSubStage.Over_] ++ TestSubStage.Ready_ :: [TestSubStage.Eliminate_] ∧
      (∀ p ∈ [TestSubStage.Over_],
        p "准备" 0 true (AtomStage.fresh 1 (⟨0, 0⟩ : TestData)).env = none) ∧
      TestSubStage.Ready_ "准备" 0 true (AtomStage.fresh 1 (⟨0, 0⟩ : TestData)).env =
        some (.READY, (AtomStage.fresh 1 (⟨0, 0⟩ : TestData)).env)) ∧
    AtomStage.HandleRequest TestSubStage.hooks (AtomStage.fresh 1 ⟨0, 0⟩) "准备" 0 true =
      AtomStage.Handle_pid TestSubStage.hooks
        { AtomStage.fresh 1 (⟨0, 0⟩ : TestData) with calls := [] ++ [Call.Command 1] }
        0 true .READY ∧
    AtomStage.HandleRequest TestSubStage.hooks
        { env := { masker := ((Masker.new 1).Set 0 true).2, game := ⟨0, 0⟩ },
          is_over_ := false, calls := [] } "你好" 0 true =
      (.NOT_FOUND,
        { env := { masker := ((Masker.new 1).Set 0 true).2, game := ⟨0, 0⟩ },
          is_over_ := false, calls := [] }) :=
  ⟨⟨rfl, by decide, by decide⟩,
    ((atom_request_first_match TestSubStage.hooks (AtomStage.fresh 1 ⟨0, 0⟩) "准备" 0 true).1
      [TestSubStage.Over_] [TestSubStage.Eliminate_] TestSubStage.Ready_ .READY
      (AtomStage.fresh 1 (⟨0, 0⟩ : TestData)).env rfl (by decide) (by decide)).1,
    (atom_request_first_match TestSubStage.hooks
      { env := { masker := ((Masker.new 1).Set 0 true).2, game := ⟨0, 0⟩ },
        is_over_ := false, calls := [] } "你好" 0 true).2.1 (by decide)⟩

/-! ## Claims about timeout and leave -/

theorem Masker.Pin_length (m : Masker) (i : Nat) :
    (m.Pin i).2.recorder_.length = m.recorder_.length := by
  simp [Masker.Pin, Masker.Record_length]

theorem hookStep_Get (m : Masker) (p j : Nat) :
    (if m.Get p ≠ .SET then (m.Pin p).2 else m).Get j =
      if p = j ∧ p < m.recorder_.length ∧ m.Get p ≠ .SET then .PINNED else m.Get j := by
  by_cases hs : m.Get p = .SET
  · simp [hs]
  · simp only [ne_eq, hs, not_false_eq_true, if_true, and_true]
    rw [Masker.Pin_Get]
    by_cases hpj : p = j
    · subst hpj
      by_cases hl : p < m.recorder_.length
      · by_cases hp : m.Get p = .PINNED <;> simp [hl, hp]
      · simp [hl]
    · simp [hpj]

theorem hookStep_length (m : Masker) (p : Nat) :
    (if m.Get p ≠ .SET then (m.Pin p).2 else m).recorder_.length = m.recorder_.length := by
  split
  · exact Masker.Pin_length m p
  · rfl

theorem hookLoop_length (ps : List Nat) (m : Masker) :
    (ps.foldl (fun acc pid => if acc.Get pid ≠ .SET then (acc.Pin pid).2 else acc)
      m).recorder_.length = m.recorder_.length := by
  induction ps generalizing m with
  | nil => rfl
  | cons p ps ih =>
    simp only [List.foldl_cons]
    rw [ih, hookStep_length]

theorem hookLoop_Get (ps : List Nat) (m : Masker) (i : Nat) :
    (ps.foldl (fun acc pid => if acc.Get pid ≠ .SET then (acc.Pin pid).2 else acc) m).Get i =
      if i ∈ ps ∧ i < m.recorder_.length ∧ m.Get i ≠ .SET then .PINNED else m.Get i := by
  induction ps generalizing m with
  | nil => simp
  | cons p ps ih =>
    simp only [List.foldl_cons]
    rw [ih, hookStep_length, hookStep_Get]
    by_cases hpi : p = i
    · subst hpi
      by_cases hl : p < m.recorder_.length
      · by_cases hs : m.Get p = .SET
        · simp [hl, hs]
        · simp [hl, hs]
      · simp [hl]
    · have hip : ¬ i = p := fun e => hpi e.symm
      simp [hpi, hip]

/-- After numcomb's `HandleUnreadyPlayers_` over all slots, every slot that was not `SET` is
`PINNED` and every `SET` slot is still `SET`. -/
theorem NumcombRoundStage.HandleUnreadyPlayers_Get (m : Masker) (i : Nat)
    (hi : i < m.recorder_.length) :
    (NumcombRoundStage.HandleUnreadyPlayers_ m.recorder_.length m).Get i =
      if m.Get i = .SET then .SET else .PINNED := by
  unfold NumcombRoundStage.HandleUnreadyPlayers_
  rw [hookLoop_Get]
  by_cases hs : m.Get i = .SET
  · simp [hs]
  · simp [hs, hi]

/-- C15 fails as stated: on a new two-slot stage with the default hooks, slot 0 is `UNSET`
when the timeout fires and is still `UNSET`, not `PINNED`, after `HandleTimeout` has
returned `CHECKOUT`. -/
theorem atom_timeout_pins_counterexample :
    (AtomStage.fresh 2 (⟨0, 0⟩ : TestData)).env.masker.Get 0 = .UNSET ∧
      (AtomStage.HandleTimeout TestSubStage.hooks (AtomStage.fresh 2 ⟨0, 0⟩)).1 = .CHECKOUT ∧
      (AtomStage.HandleTimeout TestSubStage.hooks
        (AtomStage.fresh 2 ⟨0, 0⟩)).2.env.masker.Get 0 = .UNSET ∧
      (AtomStage.HandleTimeout TestSubStage.hooks
        (AtomStage.fresh 2 ⟨0, 0⟩)).2.env.masker.Get 0 ≠ .PINNED := by
  decide

/-- C15 (as amended): `HandleTimeout` on an atomic stage pins no slot itself; the state it
leaves is the one the `OnTimeout` hook leaves.  With a hook that does not touch the mask
every slot keeps its state, and when the hook of the game hooks its unready slots, as the
one of numcomb does, every in-range slot that was `UNSET` when the timeout fired is `PINNED`
after `HandleTimeout` has returned. -/
theorem atom_timeout_mask {γ : Type} (h : AtomHooks γ) (s : AtomStage γ) :
    (AtomStage.HandleTimeout h s).2.env = (h.OnTimeout s.env).2 ∧
      ((h.OnTimeout s.env).2.masker = s.env.masker →
        (AtomStage.HandleTimeout h s).2.env.masker = s.env.masker) ∧
      (h.OnTimeout = NumcombRoundStage.OnTimeout →
        ∀ i, i < s.env.masker.recorder_.length → s.env.masker.Get i = .UNSET →
          (AtomStage.HandleTimeout h s).2.env.masker.Get i = .PINNED) := by
  have henv : (AtomStage.HandleTimeout h s).2.env = (h.OnTimeout s.env).2 := by
    cases hc : (h.OnTimeout s.env).1 <;> simp [AtomStage.HandleTimeout, hc, AtomStage.Over]
  refine ⟨henv, fun hm => by rw [henv, hm], ?_⟩
  intro hh i hi hu
  rw [henv, hh]
  simp only [NumcombRoundStage.OnTimeout]
  rw [NumcombRoundStage.HandleUnreadyPlayers_Get _ _ hi, hu]
  decide

theorem atom_timeout_mask_witness :
    ((AtomStage.fresh 2 (⟨0, 0⟩ : TestData)).env.masker.Get 1 = .UNSET ∧
      1 < (AtomStage.fresh 2 (⟨0, 0⟩ : TestData)).env.masker.recorder_.length) ∧
    (AtomStage.HandleTimeout NumcombRoundStage.hooks
      (AtomStage.fresh 2 (⟨0, 0⟩ : TestData))).2.env.masker.Get 1 = .PINNED ∧
    (AtomStage.HandleTimeout TestSubStage.hooks
      (AtomStage.fresh 2 (⟨0, 0⟩ : TestData))).2.env.masker = Masker.new 2 :=
  ⟨⟨by decide, by decide⟩,
    (atom_timeout_mask NumcombRoundStage.hooks (AtomStage.fresh 2 (⟨0, 0⟩ : TestData))).2.2
      rfl 1 (by decide) (by decide),
    (atom_timeout_mask TestSubStage.hooks (AtomStage.fresh 2 (⟨0, 0⟩ : TestData))).2.1 rfl⟩

/-- What `PassToSubStage_` does with an active child `sub` on which the task yields `r`. -/
theorem CompStage.PassToSubStage_spec {γ τ : Type} (G : CompHooks γ τ) (fuel : Nat)
    (task : τ → Env γ → StageErrCode × τ × Env γ) (ev : Call) (reason : CheckoutReason)
    (s : CompStage γ τ) (sub : τ) (r : StageErrCode × τ × Env γ)
    (hsub : s.sub_stage_ = some sub) (hr : task sub s.env = r) :
    (G.sub.IsOver r.2.1 = false →
        CompStage.PassToSubStage_ G fuel task ev reason s =
          .ok (r.1,
            { s with env := r.2.2, sub_stage_ := some r.2.1, calls := s.calls ++ [ev] })) ∧
      (G.sub.IsOver r.2.1 = true →
        CompStage.PassToSubStage_ G fuel task ev reason s =
            (CompStage.CheckoutSubStage G fuel reason
              { s with env := r.2.2, sub_stage_ := some r.2.1, calls := s.calls ++ [ev] }).map
              (fun s2 => (r.1, s2)) ∧
          ∀ rc s2, CompStage.PassToSubStage_ G fuel task ev reason s = .ok (rc, s2) →
            rc = r.1 ∧
            ∃ rest, s2.calls = s.calls ++ [ev, Call.NextSubStage reason] ++ rest) := by
  subst hr
  refine ⟨?_, ?_⟩
  · intro hno
    simp [CompStage.PassToSubStage_, hsub, hno]
  · intro hov
    have heq : CompStage.PassToSubStage_ G fuel task ev reason s =
        (CompStage.CheckoutSubStage G fuel reason
          { s with
            env := (task sub s.env).2.2
            sub_stage_ := some (task sub s.env).2.1
            calls := s.calls ++ [ev] }).map (fun s2 => ((task sub s.env).1, s2)) := by
      simp only [CompStage.PassToSubStage_, hsub, hov, if_true]
      cases CompStage.CheckoutSubStage G fuel reason
        { s with
          env := (task sub s.env).2.2
          sub_stage_ := some (task sub s.env).2.1
          calls := s.calls ++ [ev] } <;> rfl
    refine ⟨heq, ?_⟩
    intro rc s2 hok
    rw [heq] at hok
    cases hc : CompStage.CheckoutSubStage G fuel reason
        { s with
          env := (task sub s.env).2.2
          sub_stage_ := some (task sub s.env).2.1
          calls := s.calls ++ [ev] } with
    | error f =>
      rw [hc] at hok
      simp [Except.map] at hok
    | ok s3 =>
      rw [hc] at hok
      simp only [Except.map, Except.ok.injEq, Prod.mk.injEq] at hok
      obtain ⟨h1, h2⟩ := hok
      subst h2
      obtain ⟨rest, hrest⟩ := CompStage.CheckoutSubStage_calls G fuel _ _ _ hc
      exact ⟨h1.symm, rest, by simp [hrest]⟩

/-- C16: `HandleTimeout` on an atomic stage returns the code of the `OnTimeout` hook
(`CHECKOUT` with the default hook) and leaves the state the hook leaves: `Over()` is called
exactly when the code is `CHECKOUT`, and `OnAllPlayerReady` is not called whatever the
mask is.  On a composite stage the active child handles the timeout and its code is
returned: without a checkout when the child is not over afterwards, and through exactly
`CheckoutSubStage(BY_TIMEOUT)` when it is over. -/
theorem stage_timeout {γ τ : Type} (h : AtomHooks γ) (a : AtomStage γ)
    (G : CompHooks γ τ) (fuel : Nat) (s : CompStage γ τ) :
    ((AtomStage.HandleTimeout h a).1 = (h.OnTimeout a.env).1.toStageErrCode ∧
        (AtomStage.HandleTimeout h a).2.env = (h.OnTimeout a.env).2 ∧
        ((h.OnTimeout a.env).1 = .CHECKOUT →
          (AtomStage.HandleTimeout h a).2.is_over_ = true ∧
          (AtomStage.HandleTimeout h a).2.calls = a.calls ++ [Call.OnTimeout, Call.Over]) ∧
        ((h.OnTimeout a.env).1 = .CONTINUE →
          (AtomStage.HandleTimeout h a).2.is_over_ = a.is_over_ ∧
          (AtomStage.HandleTimeout h a).2.calls = a.calls ++ [Call.OnTimeout]) ∧
        (h.OnTimeout = (AtomHooks.default h.commands_).OnTimeout →
          (AtomStage.HandleTimeout h a).1 = .CHECKOUT)) ∧
      (∀ (sub : τ) (r : StageErrCode × τ × Env γ),
        s.sub_stage_ = some sub → G.sub.HandleTimeout sub s.env = r →
        (G.sub.IsOver r.2.1 = false →
          CompStage.HandleTimeout G fuel s =
            .ok (r.1,
              { s with
                env := r.2.2
                sub_stage_ := some r.2.1
                calls := s.calls ++ [Call.SubHandleTimeout] })) ∧
        (G.sub.IsOver r.2.1 = true →
          CompStage.HandleTimeout G fuel s =
              (CompStage.CheckoutSubStage G fuel .BY_TIMEOUT
                { s with
                  env := r.2.2
                  sub_stage_ := some r.2.1
                  calls := s.calls ++ [Call.SubHandleTimeout] }).map (fun s2 => (r.1, s2)) ∧
            ∀ rc s2, CompStage.HandleTimeout G fuel s = .ok (rc, s2) →
              rc = r.1 ∧
              ∃ rest, s2.calls =
                s.calls ++ [Call.SubHandleTimeout, Call.NextSubStage .BY_TIMEOUT] ++ rest)) := by
  refine ⟨⟨?_, ?_, ?_, ?_, ?_⟩, ?_⟩
  · cases hc : (h.OnTimeout a.env).1 <;> simp [AtomStage.HandleTimeout, hc]
  · cases hc : (h.OnTimeout a.env).1 <;> simp [AtomStage.HandleTimeout, hc, AtomStage.Over]
  · intro hc
    simp [AtomStage.HandleTimeout, hc, AtomStage.Over]
  · intro hc
    simp [AtomStage.HandleTimeout, hc]
  · intro hd
    have : (h.OnTimeout a.env).1 = .CHECKOUT := by rw [hd]; rfl
    simp [AtomStage.HandleTimeout, this, CheckoutErrCode.toStageErrCode]
  · intro sub r hsub hr
    exact CompStage.PassToSubStage_spec G fuel G.sub.HandleTimeout Call.SubHandleTimeout
      .BY_TIMEOUT s sub r hsub hr

theorem stage_timeout_witness :
    ((TestMainStage.started 2).sub_stage_ =
        some { is_over_ := false, calls := [Call.OnStageBegin] } ∧
      TestMainStage.hooks.sub.IsOver
        (TestMainStage.hooks.sub.HandleTimeout { is_over_ := false, calls := [Call.OnStageBegin] }
          (TestMainStage.started 2).env).2.1 = true) ∧
    (AtomStage.HandleTimeout TestSubStage.hooks (AtomStage.fresh 2 ⟨0, 0⟩)).2.calls =
      [Call.OnTimeout, Call.Over] ∧
    ∀ rc s2, CompStage.HandleTimeout TestMainStage.hooks 1 (TestMainStage.started 2) =
        .ok (rc, s2) →
      rc = (TestMainStage.hooks.sub.HandleTimeout
          { is_over_ := false, calls := [Call.OnStageBegin] } (TestMainStage.started 2).env).1 ∧
        ∃ rest, s2.calls = (TestMainStage.started 2).calls ++
          [Call.SubHandleTimeout, Call.NextSubStage .BY_TIMEOUT] ++ rest :=
  have h := stage_timeout TestSubStage.hooks (AtomStage.fresh 2 ⟨0, 0⟩)
    TestMainStage.hooks 1 (TestMainStage.started 2)
  ⟨⟨rfl, by decide⟩, (h.1.2.2.1 (by decide)).2,
    ((h.2 { is_over_ := false, calls := [Call.OnStageBegin] } _ rfl rfl).2 (by decide)).2⟩

/-- The scenario of `checkout_substage_by_timeout`: the timeout ends the sub-stage with
`CHECKOUT` and the main stage goes on to a new sub-stage when one more was requested, and
is over otherwise. -/
theorem test_checkout_substage_by_timeout :
    ((CompStage.HandleTimeout TestMainStage.hooks 2
        { TestMainStage.started 2 with env := { masker := Masker.new 2, game := ⟨0, 1⟩ } }
        ).toOption.map (fun r => (r.1, r.2.is_over_, r.2.env.game))
          = some (.CHECKOUT, false, ⟨0, 0⟩)) ∧
      ((CompStage.HandleTimeout TestMainStage.hooks 2 (TestMainStage.started 2)).toOption.map
        (fun r => (r.1, r.2.is_over_)) = some (.CHECKOUT, true)) := by
  decide

/-- C17: `HandleLeave(pid)` on an atomic stage pins the slot first, so the leave hook
already runs on a mask in which the slot is `PINNED`, and the hook's code then goes through
`Handle_`.  On a composite stage the stage's own `OnPlayerLeave` runs first, the active
child's `HandleLeave` runs on the state that hook leaves, and the child is checked out, by
exactly `CheckoutSubStage(BY_LEAVE)`, when it is over afterwards and not otherwise. -/
theorem stage_leave {γ τ : Type} (h : AtomHooks γ) (a : AtomStage γ)
    (G : CompHooks γ τ) (fuel : Nat) (s : CompStage γ τ) (pid : Nat) :
    ((pid < a.env.masker.recorder_.length →
          (a.env.masker.Pin pid).2.Get pid = .PINNED) ∧
        AtomStage.HandleLeave h a pid =
          AtomStage.Handle_ h
            { a with
              env := (h.OnPlayerLeave pid { a.env with masker := (a.env.masker.Pin pid).2 }).2
              calls := a.calls ++ [Call.OnPlayerLeave pid] }
            (h.OnPlayerLeave pid
              { a.env with masker := (a.env.masker.Pin pid).2 }).1.toStageErrCode) ∧
      (∀ (sub : τ) (r : StageErrCode × τ × Env γ),
        s.sub_stage_ = some sub → G.sub.HandleLeave pid sub (G.OnPlayerLeave pid s.env) = r →
        (G.sub.IsOver r.2.1 = false →
          CompStage.HandleLeave G fuel s pid =
            .ok (r.1,
              { s with
                env := r.2.2
                sub_stage_ := some r.2.1
                calls := s.calls ++ [Call.OnPlayerLeave pid, Call.SubHandleLeave pid] })) ∧
        (G.sub.IsOver r.2.1 = true →
          CompStage.HandleLeave G fuel s pid =
              (CompStage.CheckoutSubStage G fuel .BY_LEAVE
                { s with
                  env := r.2.2
                  sub_stage_ := some r.2.1
                  calls := s.calls ++ [Call.OnPlayerLeave pid, Call.SubHandleLeave pid] }).map
                (fun s2 => (r.1, s2)) ∧
            ∀ rc s2, CompStage.HandleLeave G fuel s pid = .ok (rc, s2) →
              rc = r.1 ∧
              ∃ rest, s2.calls =
                s.calls ++ [Call.OnPlayerLeave pid, Call.SubHandleLeave pid,
                  Call.NextSubStage .BY_LEAVE] ++ rest)) := by
  refine ⟨⟨?_, ?_⟩, ?_⟩
  · intro hp
    rw [Masker.Pin_Get_of_lt _ _ _ hp]
    simp
  · cases hc : (h.OnPlayerLeave pid { a.env with masker := (a.env.masker.Pin pid).2 }).1 <;>
      simp [AtomStage.HandleLeave, AtomStage.Handle_pid, hc, CheckoutErrCode.toStageErrCode]
  · intro sub r hsub hr
    have hspec := CompStage.PassToSubStage_spec G fuel (G.sub.HandleLeave pid)
      (Call.SubHandleLeave pid) .BY_LEAVE
      { s with env := G.OnPlayerLeave pid s.env, calls := s.calls ++ [Call.OnPlayerLeave pid] }
      sub r hsub hr
    refine ⟨?_, ?_⟩
    · intro hno
      have := hspec.1 hno
      simpa [CompStage.HandleLeave] using this
    · intro hov
      obtain ⟨h1, h2⟩ := hspec.2 hov
      refine ⟨by simpa [CompStage.HandleLeave] using h1, ?_⟩
      intro rc s2 hok
      obtain ⟨hrc, rest, hrest⟩ := h2 rc s2 (by simpa [CompStage.HandleLeave] using hok)
      exact ⟨hrc, rest, by simpa using hrest⟩

theorem stage_leave_witness :
    (0 < (AtomStage.fresh 2 (⟨0, 0⟩ : TestData)).env.masker.recorder_.length ∧
      (TestMainStage.started 2).sub_stage_ =
        some { is_over_ := false, calls := [Call.OnStageBegin] } ∧
      TestMainStage.hooks.sub.IsOver
        (TestMainStage.hooks.sub.HandleLeave 0 { is_over_ := false, calls := [Call.OnStageBegin] }
          (TestMainStage.hooks.OnPlayerLeave 0 (TestMainStage.started 2).env)).2.1 = false) ∧
    ((AtomStage.fresh 2 (⟨0, 0⟩ : TestData)).env.masker.Pin 0).2.Get 0 = .PINNED ∧
    (CompStage.HandleLeave TestMainStage.hooks 1 (TestMainStage.started 2) 0).toOption.map
        (fun r => (r.1, r.2.calls, r.2.env.masker.Get 0)) =
      some (.CONTINUE,
        [Call.OnStageBegin, Call.SubStageBegin, Call.OnPlayerLeave 0, Call.SubHandleLeave 0],
        .PINNED) :=
  have h := stage_leave TestSubStage.hooks (AtomStage.fresh 2 ⟨0, 0⟩)
    TestMainStage.hooks 1 (TestMainStage.started 2) 0
  ⟨⟨by decide, rfl, by decide⟩, h.1.1 (by decide),
    by
      rw [((h.2 { is_over_ := false, calls := [Call.OnStageBegin] } _ rfl rfl).1 (by decide))]
      decide⟩

/-! ## Computer actions -/

theorem AtomStage.Handle_congr {γ : Type} (h : AtomHooks γ) (s t : AtomStage γ)
    (rc : StageErrCode) (henv : s.env = t.env) (hover : s.is_over_ = t.is_over_) :
    (AtomStage.Handle_ h s rc).1 = (AtomStage.Handle_ h t rc).1 ∧
      (AtomStage.Handle_ h s rc).2.env = (AtomStage.Handle_ h t rc).2.env ∧
      (AtomStage.Handle_ h s rc).2.is_over_ = (AtomStage.Handle_ h t rc).2.is_over_ := by
  by_cases hc1 : rc = .CHECKOUT
  · simp [AtomStage.Handle_, hc1, AtomStage.Over, henv]
  · by_cases hc2 : t.env.masker.IsReady = true
    · cases hr : (h.OnAllPlayerReady t.env).masker.IsReady <;>
        simp [AtomStage.Handle_, hc1, hc2, hr, StageErrCode.Condition, AtomStage.Over, henv,
          hover]
    · simp only [AtomStage.Handle_, henv, hc2]
      simp [hc1, hover, henv]

theorem Masker.Set_flag_up (m : Masker) (i : Nat) (u : Bool)
    (hflag : u = true ∨ m.any_user_ready_ = true) : m.Set i u = m.Set i true := by
  rcases hflag with rfl | hf
  · rfl
  · cases u
    · obtain ⟨r, a, c⟩ := m
      simp only at hf
      subst hf
      rfl
    · rfl

/-- C18 fails as stated: on a new one-slot test stage, whose computer hook returns `READY`,
`HandleComputerAct(0, false)` returns `OK` and leaves the stage not over and the flag down,
while the human request `准备` of that slot returns `CHECKOUT` and marks the stage over. -/
theorem atom_computer_act_counterexample :
    (AtomStage.fresh 1 (⟨0, 0⟩ : TestData)).env.masker.Get 0 ≠ .PINNED ∧
      (TestSubStage.hooks.OnComputerAct 0 (AtomStage.fresh 1 (⟨0, 0⟩ : TestData)).env).1
        = .READY ∧
      ((AtomStage.HandleComputerAct TestSubStage.hooks (AtomStage.fresh 1 ⟨0, 0⟩) 0 false).1
          = .OK ∧
        (AtomStage.HandleComputerAct TestSubStage.hooks
          (AtomStage.fresh 1 ⟨0, 0⟩) 0 false).2.is_over_ = false ∧
        (AtomStage.HandleComputerAct TestSubStage.hooks
          (AtomStage.fresh 1 ⟨0, 0⟩) 0 false).2.env.masker.any_user_ready_ = false) ∧
      ((AtomStage.HandleRequestMsg TestSubStage.hooks (AtomStage.fresh 1 ⟨0, 0⟩)
          "准备" 0 true).1 = .CHECKOUT ∧
        (AtomStage.HandleRequestMsg TestSubStage.hooks (AtomStage.fresh 1 ⟨0, 0⟩)
          "准备" 0 true).2.is_over_ = true ∧
        (AtomStage.HandleRequestMsg TestSubStage.hooks (AtomStage.fresh 1 ⟨0, 0⟩)
          "准备" 0 true).2.env.masker.any_user_ready_ = true) := by
  decide

/-- C18 (as amended): the computer hook returns `READY` and a command accepts the human
request with `READY`, both leaving the same mask and game data; the slot is not `PINNED`.
When `ready_as_user` is true, or the human-action flag is already up, `HandleComputerAct`
and the human request leave the same mask and game data, return the same code and leave
the same over flag. -/
theorem atom_computer_act_as_request {γ : Type} (h : AtomHooks γ) (s : AtomStage γ)
    (msg : String) (pid : Nat) (is_public ready_as_user : Bool) (k : Nat) (e1 : Env γ)
    (hhook : h.OnComputerAct pid s.env = (.READY, e1))
    (hcmd : firstValid h.commands_ 0 msg pid is_public s.env = some (k, .READY, e1))
    (hnp : s.env.masker.Get pid ≠ .PINNED)
    (hflag : ready_as_user = true ∨ e1.masker.any_user_ready_ = true) :
    (AtomStage.HandleComputerAct h s pid ready_as_user).1 =
        (AtomStage.HandleRequestMsg h s msg pid is_public).1 ∧
      (AtomStage.HandleComputerAct h s pid ready_as_user).2.env =
        (AtomStage.HandleRequestMsg h s msg pid is_public).2.env ∧
      (AtomStage.HandleComputerAct h s pid ready_as_user).2.is_over_ =
        (AtomStage.HandleRequestMsg h s msg pid is_public).2.is_over_ := by
  have hun : (s.env.masker.Unpin pid).2 = s.env.masker := by
    simp [Masker.Unpin, hnp]
  have hset := Masker.Set_flag_up e1.masker pid ready_as_user hflag
  have hL : AtomStage.HandleComputerAct h s pid ready_as_user =
      AtomStage.Handle_ h
        { env := { e1 with masker := (e1.masker.Set pid true).2 }, is_over_ := s.is_over_,
          calls := s.calls ++ [Call.OnComputerAct pid] } .OK := by
    simp [AtomStage.HandleComputerAct, hhook, AtomStage.Handle_pid,
      AtomReqErrCode.toStageErrCode, hset]
  have hR : AtomStage.HandleRequestMsg h s msg pid is_public =
      AtomStage.Handle_ h
        { env := { e1 with masker := (e1.masker.Set pid true).2 }, is_over_ := s.is_over_,
          calls := s.calls ++ [Call.Command k] } .OK := by
    simp [AtomStage.HandleRequestMsg, AtomStage.HandleRequest, hun, hcmd, AtomStage.Handle_pid,
      AtomReqErrCode.toStageErrCode]
  rw [hL, hR]
  exact AtomStage.Handle_congr h _ _ .OK rfl rfl

theorem atom_computer_act_as_request_witness :
    (TestSubStage.hooks.OnComputerAct 1
        { masker := ((Masker.new 2).Set 0 true).2, game := (⟨0, 0⟩ : TestData) } =
          (.READY, { masker := ((Masker.new 2).Set 0 true).2, game := ⟨0, 0⟩ }) ∧
      firstValid TestSubStage.hooks.commands_ 0 "准备" 1 true
        { masker := ((Masker.new 2).Set 0 true).2, game := (⟨0, 0⟩ : TestData) } =
          some (1, .READY, { masker := ((Masker.new 2).Set 0 true).2, game := ⟨0, 0⟩ }) ∧
      ((Masker.new 2).Set 0 true).2.Get 1 ≠ .PINNED ∧
      ((Masker.new 2).Set 0 true).2.any_user_ready_ = true) ∧
    (AtomStage.HandleComputerAct TestSubStage.hooks
        { env := { masker := ((Masker.new 2).Set 0 true).2, game := ⟨0, 0⟩ },
          is_over_ := false, calls := [] } 1 false).1 = .CHECKOUT ∧
    (AtomStage.HandleComputerAct TestSubStage.hooks
        { env := { masker := ((Masker.new 2).Set 0 true).2, game := ⟨0, 0⟩ },
          is_over_ := false, calls := [] } 1 false).1 =
      (AtomStage.HandleRequestMsg TestSubStage.hooks
        { env := { masker := ((Masker.new 2).Set 0 true).2, game := ⟨0, 0⟩ },
          is_over_ := false, calls := [] } "准备" 1 true).1 :=
  ⟨⟨rfl, by decide, by decide, by decide⟩, by decide,
    (atom_computer_act_as_request TestSubStage.hooks
      { env := { masker := ((Masker.new 2).Set 0 true).2, game := ⟨0, 0⟩ },
        is_over_ := false, calls := [] } "准备" 1 true false 1
      { masker := ((Masker.new 2).Set 0 true).2, game := ⟨0, 0⟩ } rfl (by decide)
      (by decide) (Or.inr (by decide))).1⟩

/-! ## The cascade of checkouts -/

theorem CompStage.CheckoutSubStage_round {γ τ : Type} (G : CompHooks γ τ) (fuel : Nat)
    (reason : CheckoutReason) (s : CompStage γ τ) :
    CompStage.CheckoutSubStage G (fuel + 1) reason s =
      match CompStage.checkoutRound G reason s with
      | .ok (s1, true) => CompStage.CheckoutSubStage G fuel .SKIP s1
      | .ok (s1, false) => .ok s1
      | .error f => .error f := by
  rw [CompStage.CheckoutSubStage]
  unfold CompStage.checkoutRound
  cases hsub : s.sub_stage_ with
  | none => rfl
  | some sub =>
    simp only
    cases hn : (G.NextSubStage sub reason s.env).1 with
    | none => rfl
    | some nsub =>
      simp only
      cases hov : G.sub.IsOver (G.sub.HandleStageBegin nsub
        { (G.NextSubStage sub reason s.env).2 with
          masker := (G.NextSubStage sub reason s.env).2.masker.Clear }).1 <;> simp

theorem CompStage.Cascade.returns {γ τ : Type} {G : CompHooks γ τ} {k : Nat}
    {reason : CheckoutReason} {s s2 : CompStage γ τ} (hc : CompStage.Cascade G k reason s s2) :
    ∀ fuel, k < fuel → CompStage.CheckoutSubStage G fuel reason s = .ok s2 := by
  induction hc with
  | stop reason s s1 hround =>
    intro fuel hf
    obtain ⟨f, rfl⟩ : ∃ f, fuel = f + 1 := ⟨fuel - 1, by omega⟩
    rw [CompStage.CheckoutSubStage_round, hround]
  | skip k reason s s1 s2 hround _ ih =>
    intro fuel hf
    obtain ⟨f, rfl⟩ : ∃ f, fuel = f + 1 := ⟨fuel - 1, by omega⟩
    rw [CompStage.CheckoutSubStage_round, hround]
    exact ih f (by omega)

theorem CompStage.Cascade.of_returns {γ τ : Type} (G : CompHooks γ τ) (fuel : Nat)
    (reason : CheckoutReason) (s s2 : CompStage γ τ)
    (h : CompStage.CheckoutSubStage G fuel reason s = .ok s2) :
    ∃ k, k < fuel ∧ CompStage.Cascade G k reason s s2 := by
  induction fuel generalizing reason s with
  | zero => simp [CompStage.CheckoutSubStage] at h
  | succ fuel ih =>
    rw [CompStage.CheckoutSubStage_round] at h
    cases hround : CompStage.checkoutRound G reason s with
    | error f => simp [hround] at h
    | ok p =>
      obtain ⟨s1, b⟩ := p
      cases b
      · simp only [hround, Except.ok.injEq] at h
        subst h
        exact ⟨0, by omega, CompStage.Cascade.stop reason s s1 hround⟩
      · simp only [hround] at h
        obtain ⟨k, hk, hc⟩ := ih _ _ h
        exact ⟨k + 1, by omega, CompStage.Cascade.skip k reason s s1 s2 hround hc⟩

theorem nonSkipAsks_append (a b : List Call) :
    nonSkipAsks (a ++ b) = nonSkipAsks a + nonSkipAsks b := by
  simp [nonSkipAsks, List.countP_append]

theorem nonSkipAsks_round_calls (reason : CheckoutReason) :
    nonSkipAsks [Call.NextSubStage reason, Call.ReleaseSubStage, Call.MaskClear] =
      if reason = .SKIP then 0 else 1 := by
  cases reason <;> rfl

/-- One round: where it ends and what it adds to the trace. -/
theorem CompStage.checkoutRound_spec {γ τ : Type} (G : CompHooks γ τ)
    (reason : CheckoutReason) (s s1 : CompStage γ τ) (b : Bool)
    (h : CompStage.checkoutRound G reason s = .ok (s1, b)) :
    nonSkipAsks s1.calls = nonSkipAsks s.calls + (if reason = .SKIP then 0 else 1) ∧
      (b = false →
        (s1.sub_stage_ = none ∧ s1.is_over_ = true) ∨
          ∃ c, s1.sub_stage_ = some c ∧ G.sub.IsOver c = false) ∧
      (b = true → ∃ c, s1.sub_stage_ = some c ∧ G.sub.IsOver c = true) := by
  unfold CompStage.checkoutRound at h
  cases hsub : s.sub_stage_ with
  | none => simp [hsub] at h
  | some sub =>
    simp only [hsub] at h
    cases hn : (G.NextSubStage sub reason s.env).1 with
    | none =>
      simp only [hn, Except.ok.injEq, Prod.mk.injEq] at h
      obtain ⟨h1, h2⟩ := h
      subst h1 h2
      refine ⟨?_, fun _ => Or.inl ⟨rfl, rfl⟩, fun hb => by simp at hb⟩
      simp only [CompStage.Over]
      rw [nonSkipAsks_append, nonSkipAsks_append, nonSkipAsks_round_calls]
      simp [nonSkipAsks, Call.isNonSkipAsk]
    | some nsub =>
      simp only [hn, Except.ok.injEq, Prod.mk.injEq] at h
      obtain ⟨h1, h2⟩ := h
      subst h1 h2
      refine ⟨?_, fun hb => Or.inr ⟨_, rfl, hb⟩, fun hb => ⟨_, rfl, hb⟩⟩
      simp only
      rw [nonSkipAsks_append, nonSkipAsks_append, nonSkipAsks_round_calls]
      simp [nonSkipAsks, Call.isNonSkipAsk]

theorem CompStage.Cascade.spec {γ τ : Type} {G : CompHooks γ τ} {k : Nat}
    {reason : CheckoutReason} {s s2 : CompStage γ τ} (hc : CompStage.Cascade G k reason s s2) :
    ((s2.sub_stage_ = none ∧ s2.is_over_ = true) ∨
        ∃ c, s2.sub_stage_ = some c ∧ G.sub.IsOver c = false) ∧
      nonSkipAsks s2.calls = nonSkipAsks s.calls + (if reason = .SKIP then 0 else 1) := by
  induction hc with
  | stop reason s s1 hround =>
    obtain ⟨h1, h2, _⟩ := CompStage.checkoutRound_spec G reason s s1 false hround
    exact ⟨h2 rfl, h1⟩
  | skip k reason s s1 s2 hround _ ih =>
    obtain ⟨h1, _, _⟩ := CompStage.checkoutRound_spec G reason s s1 true hround
    refine ⟨ih.1, ?_⟩
    rw [ih.2, h1]
    simp

theorem CompStage.CheckoutSubStage_asks {γ τ : Type} (G : CompHooks γ τ) (fuel : Nat)
    (reason : CheckoutReason) (s s2 : CompStage γ τ)
    (h : CompStage.CheckoutSubStage G fuel reason s = .ok s2) :
    nonSkipAsks s2.calls = nonSkipAsks s.calls + (if reason = .SKIP then 0 else 1) := by
  obtain ⟨k, _, hc⟩ := CompStage.Cascade.of_returns G fuel reason s s2 h
  exact hc.spec.2

theorem CompStage.PassToSubStage_asks {γ τ : Type} (G : CompHooks γ τ) (fuel : Nat)
    (task : τ → Env γ → StageErrCode × τ × Env γ) (ev : Call) (reason : CheckoutReason)
    (s s2 : CompStage γ τ) (rc : StageErrCode) (hev : ev.isNonSkipAsk = false)
    (h : CompStage.PassToSubStage_ G fuel task ev reason s = .ok (rc, s2)) :
    nonSkipAsks s2.calls ≤ nonSkipAsks s.calls + 1 := by
  have hevc : nonSkipAsks [ev] = 0 := by simp [nonSkipAsks, hev]
  unfold CompStage.PassToSubStage_ at h
  cases hsub : s.sub_stage_ with
  | none => simp [hsub] at h
  | some sub =>
    simp only [hsub] at h
    split at h
    · cases hc : CompStage.CheckoutSubStage G fuel reason
          { s with
            env := (task sub s.env).2.2
            sub_stage_ := some (task sub s.env).2.1
            calls := s.calls ++ [ev] } with
      | error f => simp [hc] at h
      | ok s3 =>
        simp only [hc, Except.ok.injEq, Prod.mk.injEq] at h
        obtain ⟨_, h2⟩ := h
        subst h2
        have := CompStage.CheckoutSubStage_asks G fuel reason _ _ hc
        rw [this]
        simp only [nonSkipAsks_append, hevc]
        split <;> omega
    · simp only [Except.ok.injEq, Prod.mk.injEq] at h
      obtain ⟨_, h2⟩ := h
      subst h2
      simp only [nonSkipAsks_append, hevc]
      omega

/-- C19: one checkout is one round (`NextSubStage`, release, clear, begin) followed by a
`SKIP` checkout exactly when the child that has just begun is over, and `HandleStageBegin`
of the composite stage does the same after beginning its first child.  Whenever the game
returns a child that is not over, or no child, after `k` skips, the checkout returns with
every fuel above `k`; and every checkout that returns is such a cascade, ends with no child
and the stage over or with an active child that is not over, and has asked `NextSubStage`
with a reason other than `SKIP` once if its own reason is not `SKIP` and never otherwise.
Hence the handling of one event by the composite stage asks with a non-`SKIP` reason at
most once, and `HandleStageBegin` never. -/
theorem comp_skip_cascade {γ τ : Type} (G : CompHooks γ τ) (reason : CheckoutReason)
    (s : CompStage γ τ) :
    (∀ fuel, CompStage.CheckoutSubStage G (fuel + 1) reason s =
        match CompStage.checkoutRound G reason s with
        | .ok (s1, true) => CompStage.CheckoutSubStage G fuel .SKIP s1
        | .ok (s1, false) => .ok s1
        | .error f => .error f) ∧
      (∀ s1 b, CompStage.checkoutRound G reason s = .ok (s1, b) →
        (b = true ↔ ∃ c, s1.sub_stage_ = some c ∧ G.sub.IsOver c = true)) ∧
      (∀ fuel sub e, G.OnStageBegin s.env = (some sub, e) →
        (G.sub.IsOver (G.sub.HandleStageBegin sub e).1 = true →
          CompStage.HandleStageBegin G fuel s =
            CompStage.CheckoutSubStage G fuel .SKIP
              { s with
                env := (G.sub.HandleStageBegin sub e).2
                sub_stage_ := some (G.sub.HandleStageBegin sub e).1
                calls := s.calls ++ [Call.OnStageBegin, Call.SubStageBegin] }) ∧
        (G.sub.IsOver (G.sub.HandleStageBegin sub e).1 = false →
          CompStage.HandleStageBegin G fuel s =
            .ok { s with
                  env := (G.sub.HandleStageBegin sub e).2
                  sub_stage_ := some (G.sub.HandleStageBegin sub e).1
                  calls := s.calls ++ [Call.OnStageBegin, Call.SubStageBegin] })) ∧
      (∀ k s2, CompStage.Cascade G k reason s s2 →
        ∀ fuel, k < fuel → CompStage.CheckoutSubStage G fuel reason s = .ok s2) ∧
      (∀ fuel s2, CompStage.CheckoutSubStage G fuel reason s = .ok s2 →
        (∃ k, k < fuel ∧ CompStage.Cascade G k reason s s2) ∧
        ((s2.sub_stage_ = none ∧ s2.is_over_ = true) ∨
          ∃ c, s2.sub_stage_ = some c ∧ G.sub.IsOver c = false) ∧
        nonSkipAsks s2.calls = nonSkipAsks s.calls + (if reason = .SKIP then 0 else 1)) ∧
      (∀ fuel task ev rc s2, Call.isNonSkipAsk ev = false →
        CompStage.PassToSubStage_ G fuel task ev reason s = .ok (rc, s2) →
        nonSkipAsks s2.calls ≤ nonSkipAsks s.calls + 1) ∧
      (∀ fuel s2, CompStage.HandleStageBegin G fuel s = .ok s2 →
        nonSkipAsks s2.calls = nonSkipAsks s.calls) := by
  refine ⟨fun fuel => CompStage.CheckoutSubStage_round G fuel reason s, ?_, ?_, ?_, ?_,
    ?_, ?_⟩
  · intro s1 b hround
    obtain ⟨_, hf, ht⟩ := CompStage.checkoutRound_spec G reason s s1 b hround
    constructor
    · exact ht
    · rintro ⟨c, hc, hov⟩
      cases b
      · rcases hf rfl with ⟨hnone, _⟩ | ⟨c2, hc2, hov2⟩
        · rw [hnone] at hc
          cases hc
        · rw [hc2] at hc
          cases hc
          rw [hov2] at hov
          cases hov
      · rfl
  · intro fuel sub e hbegin
    refine ⟨fun hov => ?_, fun hno => ?_⟩
    · simp [CompStage.HandleStageBegin, hbegin, hov]
    · simp [CompStage.HandleStageBegin, hbegin, hno]
  · intro k s2 hc
    exact hc.returns
  · intro fuel s2 hret
    obtain ⟨k, hk, hc⟩ := CompStage.Cascade.of_returns G fuel reason s s2 hret
    exact ⟨⟨k, hk, hc⟩, hc.spec.1, hc.spec.2⟩
  · intro fuel task ev rc s2 hev hret
    exact CompStage.PassToSubStage_asks G fuel task ev reason s s2 rc hev hret
  · intro fuel s2 hret
    unfold CompStage.HandleStageBegin at hret
    cases hb : (G.OnStageBegin s.env).1 with
    | none => simp [hb] at hret
    | some sub =>
      simp only [hb] at hret
      split at hret
      · have := CompStage.CheckoutSubStage_asks G fuel .SKIP _ _ hret
        rw [this]
        simp [nonSkipAsks_append, nonSkipAsks, Call.isNonSkipAsk]
      · simp only [Except.ok.injEq] at hret
        subst hret
        simp [nonSkipAsks_append, nonSkipAsks, Call.isNonSkipAsk]

theorem comp_skip_cascade_witness :
    CompStage.Cascade SkipExample.hooks 2 .BY_REQUEST SkipExample.start SkipExample.finish ∧
      CompStage.CheckoutSubStage SkipExample.hooks 3 .BY_REQUEST SkipExample.start =
        .ok SkipExample.finish ∧
      nonSkipAsks SkipExample.finish.calls = 1 :=
  have hc : CompStage.Cascade SkipExample.hooks 2 .BY_REQUEST SkipExample.start
      SkipExample.finish := by
    refine CompStage.Cascade.skip 1 _ _ _ _ rfl ?_
    refine CompStage.Cascade.skip 0 _ _ _ _ rfl ?_
    exact CompStage.Cascade.stop _ _ _ rfl
  ⟨hc,
    (comp_skip_cascade SkipExample.hooks .BY_REQUEST SkipExample.start).2.2.2.1 2 _ hc 3
      (by decide),
    by decide⟩

/-- C20, the code at the failing input: in the checkout of the test `MainStage` with one
more sub-stage requested, `NextSubStage` runs on the current child and returns the next
child, already constructed, and only then the current child is released: the call of
`NextSubStage` comes before `ReleaseSubStage` in the trace. -/
theorem comp_checkout_release_order :
    (TestMainStage.hooks.NextSubStage { is_over_ := true, calls := [] } .BY_REQUEST
        { masker := Masker.new 2, game := ⟨0, 1⟩ }).1 =
      some { is_over_ := false, calls := [] } ∧
    (CompStage.CheckoutSubStage TestMainStage.hooks 1 .BY_REQUEST
        { env := { masker := Masker.new 2, game := ⟨0, 1⟩ }
          sub_stage_ := some { is_over_ := true, calls := [] }
          is_over_ := false
          calls := [] }).toOption.map (fun s => s.calls) =
      some [Call.NextSubStage .BY_REQUEST, Call.ReleaseSubStage, Call.MaskClear,
        Call.SubStageBegin] := by
  decide

/-! ## Claims about unpinning and about commands that make the mask all-ready -/

theorem AtomStage.Handle_mask {γ : Type} (h : AtomHooks γ) (s : AtomStage γ)
    (rc : StageErrCode) (hhook : ∀ e, (h.OnAllPlayerReady e).masker = e.masker) :
    (AtomStage.Handle_ h s rc).2.env.masker = s.env.masker := by
  by_cases hc1 : rc = .CHECKOUT
  · simp [AtomStage.Handle_, hc1, AtomStage.Over]
  · by_cases hc2 : s.env.masker.IsReady = true
    · cases hr : (h.OnAllPlayerReady s.env).masker.IsReady <;>
        simp [AtomStage.Handle_, hc1, hc2, hr, StageErrCode.Condition, AtomStage.Over, hhook]
    · simp [AtomStage.Handle_, hc1, hc2]

/-- C22 fails as stated: in the test stage with slot 0 `PINNED` (it has left), the request
`淘汰` of slot 0 is accepted (code `OK`) and the slot is `PINNED` after it; and the same
request from slot 1, which is not `PINNED`, leaves slot 1 `PINNED`. -/
theorem atom_request_unpins_counterexample :
    ((AtomStage.leaves TestSubStage.hooks (AtomStage.fresh 2 ⟨0, 0⟩) [0]).2.env.masker.Get 0
        = .PINNED ∧
      (AtomStage.HandleRequestMsg TestSubStage.hooks
        (AtomStage.leaves TestSubStage.hooks (AtomStage.fresh 2 ⟨0, 0⟩) [0]).2
        "淘汰" 0 true).1 = .OK ∧
      (AtomStage.HandleRequestMsg TestSubStage.hooks
        (AtomStage.leaves TestSubStage.hooks (AtomStage.fresh 2 ⟨0, 0⟩) [0]).2
        "淘汰" 0 true).2.env.masker.Get 0 = .PINNED) ∧
    ((AtomStage.fresh 2 (⟨0, 0⟩ : TestData)).env.masker.Get 1 ≠ .PINNED ∧
      (AtomStage.HandleRequestMsg TestSubStage.hooks (AtomStage.fresh 2 ⟨0, 0⟩)
        "淘汰" 1 true).1 = .OK ∧
      (AtomStage.HandleRequestMsg TestSubStage.hooks (AtomStage.fresh 2 ⟨0, 0⟩)
        "淘汰" 1 true).2.env.masker.Get 1 = .PINNED) := by
  decide

/-- C22 (as amended): an in-range slot issues a request that a command accepts, and neither
the command's callback nor `OnAllPlayerReady` changes the mask itself.  The slot is unpinned
before the command runs, and the mask after the request is the unpinned mask, with the slot
`SET` on top when the command returns `READY`.  So a slot that was `PINNED` is not `PINNED`
afterwards whatever the code, and is `SET` when the code is `READY`; and a request from a
slot that was not `PINNED` leaves every slot's pinned status as it was. -/
theorem atom_request_unpins {γ : Type} (h : AtomHooks γ) (s : AtomStage γ) (msg : String)
    (pid : Nat) (is_public : Bool) (k : Nat) (rc : AtomReqErrCode) (e1 : Env γ)
    (hpid : pid < s.env.masker.recorder_.length)
    (hcmd : firstValid h.commands_ 0 msg pid is_public
      { s.env with masker := (s.env.masker.Unpin pid).2 } = some (k, rc, e1))
    (hcb : e1.masker = (s.env.masker.Unpin pid).2)
    (hhook : ∀ e, (h.OnAllPlayerReady e).masker = e.masker) :
    (AtomStage.HandleRequestMsg h s msg pid is_public).2.env.masker =
        (if rc = .READY then ((s.env.masker.Unpin pid).2.Set pid true).2
          else (s.env.masker.Unpin pid).2) ∧
      (s.env.masker.Get pid = .PINNED →
        (AtomStage.HandleRequestMsg h s msg pid is_public).2.env.masker.Get pid ≠ .PINNED ∧
        (rc = .READY →
          (AtomStage.HandleRequestMsg h s msg pid is_public).2.env.masker.Get pid = .SET)) ∧
      (s.env.masker.Get pid ≠ .PINNED →
        ∀ j, (AtomStage.HandleRequestMsg h s msg pid is_public).2.env.masker.Get j = .PINNED ↔
          s.env.masker.Get j = .PINNED) := by
  have hmask : (AtomStage.HandleRequestMsg h s msg pid is_public).2.env.masker =
      (if rc = .READY then ((s.env.masker.Unpin pid).2.Set pid true).2
        else (s.env.masker.Unpin pid).2) := by
    simp only [AtomStage.HandleRequestMsg, AtomStage.HandleRequest, hcmd, AtomStage.Handle_pid]
    cases rc <;>
      simp [AtomReqErrCode.toStageErrCode, AtomStage.Handle_mask _ _ _ hhook, hcb]
  have hlenU : (s.env.masker.Unpin pid).2.recorder_.length = s.env.masker.recorder_.length := by
    rw [Masker.Unpin_recorder]
    split <;> simp
  refine ⟨hmask, ?_, ?_⟩
  · intro hp
    have hu : (s.env.masker.Unpin pid).2.Get pid = .UNSET := by
      rw [Masker.Unpin_Get]
      simp [hpid, hp]
    rw [hmask]
    by_cases hr : rc = .READY
    · simp only [hr, if_true]
      rw [Masker.Set_Get]
      simp [hlenU, hpid, hu]
    · simp [hr, hu]
  · intro hnp j
    have hun : (s.env.masker.Unpin pid).2 = s.env.masker := by
      simp [Masker.Unpin, hnp]
    rw [hmask, hun]
    by_cases hr : rc = .READY
    · simp only [hr, if_true]
      rw [Masker.Set_Get]
      by_cases hj : pid = j
      · subst hj
        simp [hpid, hnp]
      · simp [hj]
    · simp [hr]

theorem atom_request_unpins_witness :
    ((AtomStage.leaves TestSubStage.hooks (AtomStage.fresh 2 ⟨0, 0⟩) [0]).2.env.masker.Get 0
        = .PINNED ∧
      firstValid TestSubStage.hooks.commands_ 0 "准备" 0 true
        { (AtomStage.leaves TestSubStage.hooks (AtomStage.fresh 2 ⟨0, 0⟩) [0]).2.env with
          masker := ((AtomStage.leaves TestSubStage.hooks
            (AtomStage.fresh 2 ⟨0, 0⟩) [0]).2.env.masker.Unpin 0).2 } =
        some (1, .READY,
          { (AtomStage.leaves TestSubStage.hooks (AtomStage.fresh 2 ⟨0, 0⟩) [0]).2.env with
            masker := ((AtomStage.leaves TestSubStage.hooks
              (AtomStage.fresh 2 ⟨0, 0⟩) [0]).2.env.masker.Unpin 0).2 })) ∧
    (AtomStage.HandleRequestMsg (AtomHooks.default TestSubStage.hooks.commands_)
      (AtomStage.leaves TestSubStage.hooks (AtomStage.fresh 2 ⟨0, 0⟩) [0]).2
      "准备" 0 true).2.env.masker.Get 0 = .SET :=
  ⟨⟨by decide, by decide⟩,
    ((atom_request_unpins (AtomHooks.default TestSubStage.hooks.commands_)
      (AtomStage.leaves TestSubStage.hooks (AtomStage.fresh 2 ⟨0, 0⟩) [0]).2 "准备" 0 true 1
      .READY
      { (AtomStage.leaves TestSubStage.hooks (AtomStage.fresh 2 ⟨0, 0⟩) [0]).2.env with
        masker := ((AtomStage.leaves TestSubStage.hooks
          (AtomStage.fresh 2 ⟨0, 0⟩) [0]).2.env.masker.Unpin 0).2 }
      (by decide) (by decide) rfl (fun _ => rfl)).2.1 (by decide)).2 rfl⟩

/-- C28: a command accepts the request with its own code `OK` or `FAILED`, and the mask is
all-ready once its callback has run.  Then `OnAllPlayerReady` runs, once, on that state:
the request returns `CHECKOUT` and `Over()` is called when the mask is still all-ready
after the hook, and returns `CONTINUE` without `Over()` when the hook has reset
readiness. -/
theorem atom_ok_command_all_ready {γ : Type} (h : AtomHooks γ) (s : AtomStage γ)
    (msg : String) (pid : Nat) (is_public : Bool) (k : Nat) (rc : AtomReqErrCode)
    (e1 : Env γ)
    (hcmd : firstValid h.commands_ 0 msg pid is_public
      { s.env with masker := (s.env.masker.Unpin pid).2 } = some (k, rc, e1))
    (hrc : rc = .OK ∨ rc = .FAILED)
    (hall : e1.masker.IsReady = true) :
    (AtomStage.HandleRequestMsg h s msg pid is_public).2.env = h.OnAllPlayerReady e1 ∧
      ((h.OnAllPlayerReady e1).masker.IsReady = true →
        (AtomStage.HandleRequestMsg h s msg pid is_public).1 = .CHECKOUT ∧
        (AtomStage.HandleRequestMsg h s msg pid is_public).2.is_over_ = true ∧
        (AtomStage.HandleRequestMsg h s msg pid is_public).2.calls =
          s.calls ++ [Call.Command k, Call.OnAllPlayerReady, Call.Over]) ∧
      ((h.OnAllPlayerReady e1).masker.IsReady = false →
        (AtomStage.HandleRequestMsg h s msg pid is_public).1 = .CONTINUE ∧
        (AtomStage.HandleRequestMsg h s msg pid is_public).2.is_over_ = s.is_over_ ∧
        (AtomStage.HandleRequestMsg h s msg pid is_public).2.calls =
          s.calls ++ [Call.Command k, Call.OnAllPlayerReady]) := by
  cases hr : (h.OnAllPlayerReady e1).masker.IsReady <;>
    rcases hrc with rfl | rfl <;>
    simp [AtomStage.HandleRequestMsg, AtomStage.HandleRequest, hcmd, AtomStage.Handle_pid,
      AtomStage.Handle_, AtomReqErrCode.toStageErrCode, hall, hr, StageErrCode.Condition,
      AtomStage.Over]

theorem atom_ok_command_all_ready_witness :
    (firstValid TestSubStage.hooks.commands_ 0 "淘汰" 0 true
        { masker := ((((Masker.new 2).Set 1 true).2).Unpin 0).2, game := (⟨0, 0⟩ : TestData) } =
          some (2, .OK, { masker := ((((Masker.new 2).Set 1 true).2).Pin 0).2, game := ⟨0, 0⟩ }) ∧
      ((((Masker.new 2).Set 1 true).2).Pin 0).2.IsReady = true) ∧
    (AtomStage.HandleRequestMsg TestSubStage.hooks
        { env := { masker := ((Masker.new 2).Set 1 true).2, game := ⟨0, 0⟩ },
          is_over_ := false, calls := [] } "淘汰" 0 true).1 = .CHECKOUT ∧
    (AtomStage.HandleRequestMsg TestSubStage.hooks
        { env := { masker := ((Masker.new 2).Set 1 true).2, game := ⟨0, 0⟩ },
          is_over_ := false, calls := [] } "淘汰" 0 true).2.calls =
      [Call.Command 2, Call.OnAllPlayerReady, Call.Over] :=
  have h := atom_ok_command_all_ready TestSubStage.hooks
    { env := { masker := ((Masker.new 2).Set 1 true).2, game := ⟨0, 0⟩ },
      is_over_ := false, calls := [] } "淘汰" 0 true 2 .OK
    { masker := ((((Masker.new 2).Set 1 true).2).Pin 0).2, game := ⟨0, 0⟩ }
    (by decide) (Or.inl rfl) (by decide)
  ⟨⟨by decide, by decide⟩, (h.2.1 (by decide)).1, (h.2.1 (by decide)).2.2⟩

/-- C29 fails as stated: in the test stage with slot 0 `PINNED`, the request `你好` of slot 0,
which no command accepts, returns `NOT_FOUND` and leaves slot 0 `UNSET`: the mask has
changed. -/
theorem atom_unmatched_request_counterexample :
    (AtomStage.leaves TestSubStage.hooks (AtomStage.fresh 2 ⟨0, 0⟩) [0]).2.env.masker.Get 0
        = .PINNED ∧
      (AtomStage.HandleRequestMsg TestSubStage.hooks
        (AtomStage.leaves TestSubStage.hooks (AtomStage.fresh 2 ⟨0, 0⟩) [0]).2
        "你好" 0 true).1 = .NOT_FOUND ∧
      (AtomStage.HandleRequestMsg TestSubStage.hooks
        (AtomStage.leaves TestSubStage.hooks (AtomStage.fresh 2 ⟨0, 0⟩) [0]).2
        "你好" 0 true).2.env.masker.Get 0 = .UNSET ∧
      (AtomStage.HandleRequestMsg TestSubStage.hooks
        (AtomStage.leaves TestSubStage.hooks (AtomStage.fresh 2 ⟨0, 0⟩) [0]).2
        "你好" 0 true).2.env.masker ≠
        (AtomStage.leaves TestSubStage.hooks (AtomStage.fresh 2 ⟨0, 0⟩) [0]).2.env.masker := by
  decide

/-- C29 (as amended): a request from an in-range `PINNED` slot that no command accepts
returns `NOT_FOUND`, runs no command and no hook and leaves the over flag and the game data
as they were, but the slot is unpinned: the wrapper of `StageBaseWrapper` calls `Unpin`
before any command is tried, so afterwards the slot is `UNSET`, every other slot and the
human-action flag are unchanged.  A composite stage, too, handles the request on the
unpinned mask. -/
theorem atom_unmatched_request_unpins {γ τ : Type} (h : AtomHooks γ) (s : AtomStage γ)
    (G : CompHooks γ τ) (fuel : Nat) (c : CompStage γ τ)
    (msg : String) (pid : Nat) (is_public : Bool)
    (hpid : pid < s.env.masker.recorder_.length) (hp : s.env.masker.Get pid = .PINNED)
    (hnone : ∀ cmd ∈ h.commands_, cmd msg pid is_public
      { s.env with masker := (s.env.masker.Unpin pid).2 } = none) :
    (AtomStage.HandleRequestMsg h s msg pid is_public).1 = .NOT_FOUND ∧
      (AtomStage.HandleRequestMsg h s msg pid is_public).2.is_over_ = s.is_over_ ∧
      (AtomStage.HandleRequestMsg h s msg pid is_public).2.calls = s.calls ∧
      (AtomStage.HandleRequestMsg h s msg pid is_public).2.env.game = s.env.game ∧
      (AtomStage.HandleRequestMsg h s msg pid is_public).2.env.masker =
        (s.env.masker.Unpin pid).2 ∧
      (AtomStage.HandleRequestMsg h s msg pid is_public).2.env.masker.Get pid = .UNSET ∧
      (∀ j, j ≠ pid →
        (AtomStage.HandleRequestMsg h s msg pid is_public).2.env.masker.Get j =
          s.env.masker.Get j) ∧
      (AtomStage.HandleRequestMsg h s msg pid is_public).2.env.masker.any_user_ready_ =
        s.env.masker.any_user_ready_ ∧
      CompStage.HandleRequestMsg G fuel c msg pid is_public =
        CompStage.HandleRequest G fuel
          { c with env := { c.env with masker := (c.env.masker.Unpin pid).2 } }
          msg pid is_public := by
  have hout : AtomStage.HandleRequestMsg h s msg pid is_public =
      (.NOT_FOUND, { s with env := { s.env with masker := (s.env.masker.Unpin pid).2 } }) := by
    simp [AtomStage.HandleRequestMsg, AtomStage.HandleRequest,
      firstValid_none _ 0 msg pid is_public _ hnone]
  rw [hout]
  refine ⟨rfl, rfl, rfl, rfl, rfl, ?_, ?_, ?_, rfl⟩
  · simp only
    rw [Masker.Unpin_Get]
    simp [hpid, hp]
  · intro j hj
    simp only
    rw [Masker.Unpin_Get]
    simp [Ne.symm hj]
  · simp only
    rw [Masker.Unpin_flag]

theorem atom_unmatched_request_unpins_witness :
    (0 < (AtomStage.leaves TestSubStage.hooks (AtomStage.fresh 2 ⟨0, 0⟩)
        [0]).2.env.masker.recorder_.length ∧
      (AtomStage.leaves TestSubStage.hooks (AtomStage.fresh 2 ⟨0, 0⟩) [0]).2.env.masker.Get 0
        = .PINNED ∧
      ∀ cmd ∈ TestSubStage.hooks.commands_, cmd "你好" 0 true
        { (AtomStage.leaves TestSubStage.hooks (AtomStage.fresh 2 ⟨0, 0⟩) [0]).2.env with
          masker := ((AtomStage.leaves TestSubStage.hooks
            (AtomStage.fresh 2 ⟨0, 0⟩) [0]).2.env.masker.Unpin 0).2 } = none) ∧
    (AtomStage.HandleRequestMsg TestSubStage.hooks
      (AtomStage.leaves TestSubStage.hooks (AtomStage.fresh 2 ⟨0, 0⟩) [0]).2
      "你好" 0 true).2.env.masker.Get 0 = .UNSET :=
  ⟨⟨by decide, by decide, by decide⟩,
    (atom_unmatched_request_unpins TestSubStage.hooks
      (AtomStage.leaves TestSubStage.hooks (AtomStage.fresh 2 ⟨0, 0⟩) [0]).2
      TestMainStage.hooks 0 (TestMainStage.started 2) "你好" 0 true
      (by decide) (by decide) (by decide)).2.2.2.2.2.1⟩

/-! ## Checkout on a stage without an active child -/

theorem CompStage.checkoutRound_over {γ τ : Type} (G : CompHooks γ τ)
    (reason : CheckoutReason) (s s1 : CompStage γ τ) (b : Bool)
    (h : CompStage.checkoutRound G reason s = .ok (s1, b)) :
    s1.calls.count Call.Over =
        s.calls.count Call.Over + (if s1.sub_stage_.isNone then 1 else 0) ∧
      s1.calls.count Call.SubStageBegin =
        s.calls.count Call.SubStageBegin + (if s1.sub_stage_.isNone then 0 else 1) ∧
      (b = true → s1.sub_stage_.isNone = false) := by
  unfold CompStage.checkoutRound at h
  cases hsub : s.sub_stage_ with
  | none => simp [hsub] at h
  | some sub =>
    simp only [hsub] at h
    cases hn : (G.NextSubStage sub reason s.env).1 with
    | none =>
      simp only [hn, Except.ok.injEq, Prod.mk.injEq] at h
      obtain ⟨h1, h2⟩ := h
      subst h1 h2
      simp [CompStage.Over, List.count_append, hn]
    | some nsub =>
      simp only [hn, Except.ok.injEq, Prod.mk.injEq] at h
      obtain ⟨h1, h2⟩ := h
      subst h1 h2
      simp [List.count_append]

theorem CompStage.Cascade.over_once {γ τ : Type} {G : CompHooks γ τ} {k : Nat}
    {reason : CheckoutReason} {s s2 : CompStage γ τ} (hc : CompStage.Cascade G k reason s s2) :
    s2.calls.count Call.Over =
        s.calls.count Call.Over + (if s2.sub_stage_.isNone then 1 else 0) ∧
      s2.calls.count Call.SubStageBegin =
        s.calls.count Call.SubStageBegin + k + (if s2.sub_stage_.isNone then 0 else 1) := by
  induction hc with
  | stop reason s s1 hround =>
    obtain ⟨h1, h2, _⟩ := CompStage.checkoutRound_over G reason s s1 false hround
    exact ⟨h1, by rw [h2]; omega⟩
  | skip k reason s s1 s2 hround _ ih =>
    obtain ⟨h1, h2, h3⟩ := CompStage.checkoutRound_over G reason s s1 true hround
    have hne := h3 rfl
    simp only [hne, Bool.false_eq_true, if_false] at h1 h2
    refine ⟨by rw [ih.1, h1]; omega, by rw [ih.2, h2]; omega⟩

/-- C21 fails as stated: the test `MainStage` is over and holds no active child; a further
checkout does not return that state, it faults on the missing child, and so does a
further request that has to be passed to the child. -/
theorem comp_checkout_again_counterexample :
    TestMainStage.finished.sub_stage_ = none ∧ TestMainStage.finished.is_over_ = true ∧
      CompStage.CheckoutSubStage TestMainStage.hooks 1 .BY_REQUEST TestMainStage.finished =
        .error .NullSubStage ∧
      CompStage.CheckoutSubStage TestMainStage.hooks 1 .BY_REQUEST TestMainStage.finished ≠
        .ok TestMainStage.finished ∧
      CompStage.HandleRequest TestMainStage.hooks 1 TestMainStage.finished "准备" 0 true =
        .error .NullSubStage := by
  refine ⟨rfl, rfl, rfl, ?_, rfl⟩
  intro h
  cases h

/-- C21 (as amended): a checkout that returns having found no next child has called
`Over()` exactly once, has begun only the children it skipped, and leaves the stage over
without a child.  On a stage that holds no active child a further checkout returns no
state, whatever the bound on the skips: the code dereferences the missing child for
`NextSubStage` before any test (`Fault.NullSubStage`), as does every handler that forwards
to the child. -/
theorem comp_checkout_without_child {γ τ : Type} (G : CompHooks γ τ) (fuel : Nat)
    (reason : CheckoutReason) (s : CompStage γ τ) :
    (∀ s2, CompStage.CheckoutSubStage G fuel reason s = .ok s2 → s2.sub_stage_ = none →
        s2.is_over_ = true ∧
        s2.calls.count Call.Over = s.calls.count Call.Over + 1 ∧
        ∃ k, k < fuel ∧
          s2.calls.count Call.SubStageBegin = s.calls.count Call.SubStageBegin + k) ∧
      (s.sub_stage_ = none →
        (∀ s2, CompStage.CheckoutSubStage G fuel reason s ≠ .ok s2) ∧
        CompStage.CheckoutSubStage G (fuel + 1) reason s = .error .NullSubStage ∧
        (∀ task ev, CompStage.PassToSubStage_ G fuel task ev reason s =
          .error .NullSubStage)) := by
  refine ⟨?_, ?_⟩
  · intro s2 hret hnone
    obtain ⟨k, hk, hc⟩ := CompStage.Cascade.of_returns G fuel reason s s2 hret
    have hover : s2.is_over_ = true := by
      rcases hc.spec.1 with ⟨_, ho⟩ | ⟨c, hsome, _⟩
      · exact ho
      · rw [hnone] at hsome
        cases hsome
    obtain ⟨h1, h2⟩ := hc.over_once
    simp only [hnone, Option.isNone_none, if_true] at h1 h2
    exact ⟨hover, h1, k, hk, by rw [h2]; omega⟩
  · intro hnone
    have hstep : CompStage.CheckoutSubStage G (fuel + 1) reason s = .error .NullSubStage := by
      rw [CompStage.CheckoutSubStage]
      simp [hnone]
    refine ⟨?_, hstep, ?_⟩
    · intro s2 hret
      cases fuel with
      | zero => simp [CompStage.CheckoutSubStage] at hret
      | succ f =>
        have : CompStage.CheckoutSubStage G (f + 1) reason s = .error .NullSubStage := by
          rw [CompStage.CheckoutSubStage]
          simp [hnone]
        rw [this] at hret
        cases hret
    · intro task ev
      simp [CompStage.PassToSubStage_, hnone]

theorem comp_checkout_without_child_witness :
    ((TestMainStage.started 2).sub_stage_ ≠ none ∧
      TestMainStage.finished.sub_stage_ = none) ∧
    (CompStage.CheckoutSubStage TestMainStage.hooks 2 .BY_REQUEST
        { TestMainStage.started 2 with
          calls := [Call.OnStageBegin, Call.SubStageBegin, Call.SubHandleRequest] } =
        .ok TestMainStage.finished ∧
      TestMainStage.finished.calls.count Call.Over = 1) ∧
    (∀ s2, CompStage.CheckoutSubStage TestMainStage.hooks 2 .BY_REQUEST
      TestMainStage.finished ≠ .ok s2) :=
  ⟨⟨by decide, rfl⟩,
    ⟨rfl,
      ((comp_checkout_without_child TestMainStage.hooks 2 .BY_REQUEST
        { TestMainStage.started 2 with
          calls := [Call.OnStageBegin, Call.SubStageBegin, Call.SubHandleRequest] }).1
        TestMainStage.finished rfl rfl).2.1⟩,
    ((comp_checkout_without_child TestMainStage.hooks 2 .BY_REQUEST
      TestMainStage.finished).2 rfl).1⟩

/-! ## Meta commands -/

/-- The guard of `handle_match_by_user` when the user has no match. -/
theorem handle_match_by_user_none {σ μ : Type} (B : BotOps σ μ) (uid : UserID)
    (gid : Option GroupID) (fn : μ → Bot σ μ → ErrCode × Bot σ μ) (b : Bot σ μ)
    (h : B.GetMatchByUser b.st uid = none) :
    handle_match_by_user B uid gid fn b = (.EC_MATCH_USER_NOT_IN_MATCH, b) := by
  simp [handle_match_by_user, h]

/-- The guard of `handle_match_by_user` when the command comes from another group. -/
theorem handle_match_by_user_other_group {σ μ : Type} (B : BotOps σ μ) (uid : UserID)
    (g : GroupID) (fn : μ → Bot σ μ → ErrCode × Bot σ μ) (b : Bot σ μ) (m : μ)
    (h : B.GetMatchByUser b.st uid = some m) (hg : B.gid m ≠ some g) :
    handle_match_by_user B uid (some g) fn b = (.EC_MATCH_NOT_THIS_GROUP, b) := by
  simp [handle_match_by_user, h, hg]

/-- Past its guards `handle_match_by_user` is `fn(match)`. -/
theorem handle_match_by_user_pass {σ μ : Type} (B : BotOps σ μ) (uid : UserID)
    (gid : Option GroupID) (fn : μ → Bot σ μ → ErrCode × Bot σ μ) (b : Bot σ μ) (m : μ)
    (h : B.GetMatchByUser b.st uid = some m) (hg : gid = none ∨ B.gid m = gid) :
    handle_match_by_user B uid gid fn b = fn m b := by
  rcases hg with hg | hg
  · simp [handle_match_by_user, h, hg]
  · simp [handle_match_by_user, h, hg]

/-- C23: each of the five user-addressed match commands (`set_bench_to`, `set_multiple`,
`start_game`, `leave`, `user_interrupt_game`) (1) returns `EC_MATCH_USER_NOT_IN_MATCH` and
leaves the bot and the trace of calls as they were when the user is in no match; (2)
returns `EC_MATCH_NOT_THIS_GROUP`, again without any call, when it is issued in a group `g`
and the match of the user is not bound to `g` (so in any group when the match is private);
(3) otherwise, that is issued privately or in the group of the match, makes exactly the
one call of the match operation and returns its code and the state it leaves. -/
theorem user_match_command_dispatch {σ μ : Type} (B : BotOps σ μ) (uid : UserID)
    (gid : Option GroupID) (n multiple : Nat) (force cancel : Bool) (b : Bot σ μ) :
    (B.GetMatchByUser b.st uid = none →
      set_bench_to B uid gid n b = (.EC_MATCH_USER_NOT_IN_MATCH, b) ∧
      set_multiple B uid gid multiple b = (.EC_MATCH_USER_NOT_IN_MATCH, b) ∧
      start_game B uid gid b = (.EC_MATCH_USER_NOT_IN_MATCH, b) ∧
      leave B uid gid force b = (.EC_MATCH_USER_NOT_IN_MATCH, b) ∧
      user_interrupt_game B uid gid cancel b = (.EC_MATCH_USER_NOT_IN_MATCH, b)) ∧
    (∀ m g, B.GetMatchByUser b.st uid = some m → gid = some g → B.gid m ≠ some g →
      set_bench_to B uid gid n b = (.EC_MATCH_NOT_THIS_GROUP, b) ∧
      set_multiple B uid gid multiple b = (.EC_MATCH_NOT_THIS_GROUP, b) ∧
      start_game B uid gid b = (.EC_MATCH_NOT_THIS_GROUP, b) ∧
      leave B uid gid force b = (.EC_MATCH_NOT_THIS_GROUP, b) ∧
      user_interrupt_game B uid gid cancel b = (.EC_MATCH_NOT_THIS_GROUP, b)) ∧
    (∀ m g, B.GetMatchByUser b.st uid = some m → gid = some g → B.IsPrivate m = true →
      start_game B uid gid b = (.EC_MATCH_NOT_THIS_GROUP, b)) ∧
    (∀ m, B.GetMatchByUser b.st uid = some m → (gid = none ∨ B.gid m = gid) →
      set_bench_to B uid gid n b =
        ((B.SetBenchTo m uid (some n) b.st).1,
          { st := (B.SetBenchTo m uid (some n) b.st).2,
            calls := b.calls ++ [BotCall.SetBenchTo m uid (some n)] }) ∧
      set_multiple B uid gid multiple b =
        ((B.SetMultiple m uid multiple b.st).1,
          { st := (B.SetMultiple m uid multiple b.st).2,
            calls := b.calls ++ [BotCall.SetMultiple m uid multiple] }) ∧
      start_game B uid gid b =
        ((B.GameStart m uid gid.isSome b.st).1,
          { st := (B.GameStart m uid gid.isSome b.st).2,
            calls := b.calls ++ [BotCall.GameStart m uid gid.isSome] }) ∧
      leave B uid gid force b =
        ((B.Leave m uid force b.st).1,
          { st := (B.Leave m uid force b.st).2,
            calls := b.calls ++ [BotCall.Leave m uid force] }) ∧
      user_interrupt_game B uid gid cancel b =
        ((B.UserInterrupt m uid cancel b.st).1,
          { st := (B.UserInterrupt m uid cancel b.st).2,
            calls := b.calls ++ [BotCall.UserInterrupt m uid cancel] })) := by
  refine ⟨fun h => ?_, fun m g h hgid hg => ?_, fun m g h hgid hp => ?_, fun m h hg => ?_⟩
  · simp only [set_bench_to, set_multiple, start_game, leave, user_interrupt_game,
      handle_match_by_user_none B uid gid _ b h, and_self]
  · subst hgid
    simp only [set_bench_to, set_multiple, start_game, leave, user_interrupt_game,
      handle_match_by_user_other_group B uid g _ b m h hg, and_self]
  · subst hgid
    have hg : B.gid m ≠ some g := by
      intro hc
      simp [BotOps.IsPrivate, hc] at hp
    simp only [start_game, handle_match_by_user_other_group B uid g _ b m h hg]
  · simp only [set_bench_to, set_multiple, start_game, leave, user_interrupt_game,
      handle_match_by_user_pass B uid gid _ b m h hg, Bot.call, and_self]

/-- Witness for C23 on the tests of the repository: user 9 is in no match
(`pri_exit_not_exist_game`); user 1, of the match of group 1, starts in group 2
(`pub_start_other_pub_game`); user 1, of a private match, starts in group 3; user 1, of the
match of group 1, starts privately (`pub_game_pri_start`). -/
theorem user_match_command_dispatch_witness :
    leave ExampleBot.ops "9" none false ExampleBot.twoGroups =
      (.EC_MATCH_USER_NOT_IN_MATCH, ExampleBot.twoGroups) ∧
    start_game ExampleBot.ops "1" (some "2") ExampleBot.twoGroups =
      (.EC_MATCH_NOT_THIS_GROUP, ExampleBot.twoGroups) ∧
    start_game ExampleBot.ops "1" (some "3") ExampleBot.privateAndGroup =
      (.EC_MATCH_NOT_THIS_GROUP, ExampleBot.privateAndGroup) ∧
    (start_game ExampleBot.ops "1" none ExampleBot.twoGroups).1 = .EC_OK ∧
    (start_game ExampleBot.ops "1" none ExampleBot.twoGroups).2.calls =
      [BotCall.GameStart
        { mid := 1, gid := some "1", users := ["1", "2"], started := false } "1" false] :=
  ⟨((user_match_command_dispatch ExampleBot.ops "9" none 0 0 false false
      ExampleBot.twoGroups).1 rfl).2.2.2.1,
   ((user_match_command_dispatch ExampleBot.ops "1" (some "2") 0 0 false false
      ExampleBot.twoGroups).2.1 _ "2" rfl rfl (by decide)).2.2.1,
   (user_match_command_dispatch ExampleBot.ops "1" (some "3") 0 0 false false
      ExampleBot.privateAndGroup).2.2.1 _ "3" rfl rfl rfl,
   by
     rw [((user_match_command_dispatch ExampleBot.ops "1" none 0 0 false false
      ExampleBot.twoGroups).2.2.2 _ rfl (Or.inl rfl)).2.2.1]
     rfl,
   by
     rw [((user_match_command_dispatch ExampleBot.ops "1" none 0 0 false false
      ExampleBot.twoGroups).2.2.2 _ rfl (Or.inl rfl)).2.2.1]
     rfl⟩

/-- C24: `join_public` returns `EC_MATCH_NEED_ID` outside a group and
`EC_MATCH_GROUP_NOT_IN_MATCH` when the group has no match; `join_private` returns
`EC_MATCH_NEED_REQUEST_PRIVATE` inside a group, `EC_MATCH_NOT_EXIST` when no match has the
id and `EC_MATCH_NEED_REQUEST_PUBLIC` when that match is bound to a group; in these five
cases the bot and the trace of calls are as before, so `Match::Join` is not called.  In the
other cases (`join_private` outside a group on a private match; `join_public` on the match
of the group, which the `assert` of the source takes to be bound to a group) `Join` is
called once and the handler returns its code and the state it leaves. -/
theorem join_dispatch {σ μ : Type} (B : BotOps σ μ) (uid : UserID) (gid : Option GroupID)
    (mid : MatchID) (b : Bot σ μ) :
    (gid = none → join_public B uid gid b = .ok (.EC_MATCH_NEED_ID, b)) ∧
    (∀ g, gid = some g → B.GetMatchByGroup b.st g = none →
      join_public B uid gid b = .ok (.EC_MATCH_GROUP_NOT_IN_MATCH, b)) ∧
    (∀ g, gid = some g → join_private B uid gid mid b = (.EC_MATCH_NEED_REQUEST_PRIVATE, b)) ∧
    (gid = none → B.GetMatchById b.st mid = none →
      join_private B uid gid mid b = (.EC_MATCH_NOT_EXIST, b)) ∧
    (∀ m g, gid = none → B.GetMatchById b.st mid = some m → B.gid m = some g →
      join_private B uid gid mid b = (.EC_MATCH_NEED_REQUEST_PUBLIC, b)) ∧
    (∀ m, gid = none → B.GetMatchById b.st mid = some m → B.gid m = none →
      join_private B uid gid mid b =
        ((B.Join m uid b.st).1,
          { st := (B.Join m uid b.st).2, calls := b.calls ++ [BotCall.Join m uid] })) ∧
    (∀ g m, gid = some g → B.GetMatchByGroup b.st g = some m → B.IsPrivate m = false →
      join_public B uid gid b =
        .ok ((B.Join m uid b.st).1,
          { st := (B.Join m uid b.st).2, calls := b.calls ++ [BotCall.Join m uid] })) := by
  refine ⟨?_, ?_, ?_, ?_, ?_, ?_, ?_⟩
  · intro h
    subst h
    rfl
  · intro g h hm
    subst h
    simp [join_public, hm]
  · intro g h
    subst h
    simp [join_private]
  · intro h hm
    subst h
    simp [join_private, hm]
  · intro m g h hm hg
    subst h
    simp [join_private, hm, BotOps.IsPrivate, hg]
  · intro m h hm hg
    subst h
    by_cases hj : (B.Join m uid b.st).1 = .EC_OK
    · simp [join_private, hm, BotOps.IsPrivate, hg, Bot.call, hj]
    · simp [join_private, hm, BotOps.IsPrivate, hg, Bot.call, hj]
  · intro g m h hm hp
    subst h
    by_cases hj : (B.Join m uid b.st).1 = .EC_OK
    · simp [join_public, hm, hp, Bot.call, hj]
    · simp [join_public, hm, hp, Bot.call, hj]

/-- Witness for C24 on the tests `pri_join_pub_game_failed`, `pub_join_game_failed`,
`pub_join_pri_game_failed`, `pri_join_game_failed`, and on joins that reach `Match::Join`:
user 9 asks privately for the match 2 of group 3, user 9 joins the private match 1, user 9
joins in group 3 and user 1, already in a match, joins in group 3. -/
theorem join_dispatch_witness :
    join_public ExampleBot.ops "1" none ExampleBot.empty =
      .ok (.EC_MATCH_NEED_ID, ExampleBot.empty) ∧
    join_public ExampleBot.ops "1" (some "1") ExampleBot.empty =
      .ok (.EC_MATCH_GROUP_NOT_IN_MATCH, ExampleBot.empty) ∧
    join_private ExampleBot.ops "1" (some "1") 1 ExampleBot.empty =
      (.EC_MATCH_NEED_REQUEST_PRIVATE, ExampleBot.empty) ∧
    join_private ExampleBot.ops "1" none 1 ExampleBot.empty =
      (.EC_MATCH_NOT_EXIST, ExampleBot.empty) ∧
    join_private ExampleBot.ops "9" none 2 ExampleBot.privateAndGroup =
      (.EC_MATCH_NEED_REQUEST_PUBLIC, ExampleBot.privateAndGroup) ∧
    (join_private ExampleBot.ops "9" none 1 ExampleBot.privateAndGroup).1 = .EC_OK ∧
    (join_public ExampleBot.ops "9" (some "3") ExampleBot.privateAndGroup).toOption.map
      (fun r => (r.1, r.2.calls)) =
      some (.EC_OK, [BotCall.Join
        { mid := 2, gid := some "3", users := ["2"], started := false } "9"]) ∧
    (join_public ExampleBot.ops "1" (some "3") ExampleBot.privateAndGroup).toOption.map
      (fun r => (r.1, r.2.calls)) =
      some (.EC_MATCH_USER_ALREADY_IN_MATCH, [BotCall.Join
        { mid := 2, gid := some "3", users := ["2"], started := false } "1"]) :=
  ⟨(join_dispatch ExampleBot.ops "1" none 0 ExampleBot.empty).1 rfl,
   (join_dispatch ExampleBot.ops "1" (some "1") 0 ExampleBot.empty).2.1 "1" rfl rfl,
   (join_dispatch ExampleBot.ops "1" (some "1") 1 ExampleBot.empty).2.2.1 "1" rfl,
   (join_dispatch ExampleBot.ops "1" none 1 ExampleBot.empty).2.2.2.1 rfl rfl,
   (join_dispatch ExampleBot.ops "9" none 2 ExampleBot.privateAndGroup).2.2.2.2.1
     _ "3" rfl rfl rfl,
   by
     rw [(join_dispatch ExampleBot.ops "9" none 1 ExampleBot.privateAndGroup).2.2.2.2.2.1
       _ rfl rfl rfl]
     rfl,
   by
     rw [(join_dispatch ExampleBot.ops "9" (some "3") 0 ExampleBot.privateAndGroup).2.2.2.2.2.2
       "3" _ rfl rfl rfl]
     rfl,
   by
     rw [(join_dispatch ExampleBot.ops "1" (some "3") 0 ExampleBot.privateAndGroup).2.2.2.2.2.2
       "3" _ rfl rfl rfl]
     rfl⟩

/-- C25: `new_game` with an unknown game name returns `EC_REQUEST_UNKNOWN_GAME` and leaves
the bot and the trace of calls as they were (no `Terminate`, no `NewMatch`).  With a known
game in a group whose match is `running_match`, the first call is
`running_match->Terminate(false)`: when its code is not `EC_OK` the handler returns that
code with `Terminate` as its only call, so no match is created; when it is `EC_OK` every
result of the handler has a trace that continues with `Terminate` and then `NewMatch`, and
the handler does return whenever `NewMatch` fails or yields a match. -/
theorem new_game_guards {σ μ : Type} (B : BotOps σ μ) (uid : UserID) (gid : Option GroupID)
    (gamename : String) (is_single : Bool) (b : Bot σ μ) :
    (B.hasGame b.st gamename = false →
      new_game B uid gid gamename is_single b = .ok (.EC_REQUEST_UNKNOWN_GAME, b)) ∧
    (∀ g running_match, B.hasGame b.st gamename = true → gid = some g →
      B.GetMatchByGroup b.st g = some running_match →
      ((B.Terminate running_match false b.st).1 ≠ .EC_OK →
        new_game B uid gid gamename is_single b =
          .ok ((B.Terminate running_match false b.st).1,
            { st := (B.Terminate running_match false b.st).2,
              calls := b.calls ++ [BotCall.Terminate running_match false] })) ∧
      ((B.Terminate running_match false b.st).1 = .EC_OK →
        (∀ r, new_game B uid gid gamename is_single b = .ok r →
          ∃ rest, r.2.calls = b.calls ++
            BotCall.Terminate running_match false :: BotCall.NewMatch gamename uid gid :: rest) ∧
        ((B.NewMatch gamename uid gid (B.Terminate running_match false b.st).2).1.1 ≠ .EC_OK ∨
          (B.NewMatch gamename uid gid (B.Terminate running_match false b.st).2).1.2.isSome →
          ∃ r, new_game B uid gid gamename is_single b = .ok r))) := by
  refine ⟨fun h => ?_, fun g rm hgame hgid hm => ⟨fun ht => ?_, fun ht => ⟨?_, ?_⟩⟩⟩
  · simp [new_game, h]
  · subst hgid
    simp [new_game, hgame, hm, Bot.call, ht]
  · subst hgid
    intro r hr
    simp only [new_game, hgame, hm, Bot.call, ht, ne_eq, not_true_eq_false, if_false,
      Bool.not_eq_true, Bool.true_eq_false] at hr
    by_cases hn : (B.NewMatch gamename uid (some g) (B.Terminate rm false b.st).2).1.1 = .EC_OK
    · simp only [hn, not_true_eq_false, if_false] at hr
      cases hnm : (B.NewMatch gamename uid (some g) (B.Terminate rm false b.st).2).1.2 with
      | none => simp [hnm] at hr
      | some m =>
        simp only [hnm] at hr
        cases is_single with
        | false =>
          simp only [Bool.false_eq_true, if_false, Except.ok.injEq] at hr
          subst hr
          exact ⟨[], by simp⟩
        | true =>
          simp only [if_true] at hr
          split at hr
          · simp only [Except.ok.injEq] at hr
            subst hr
            exact ⟨[BotCall.SetBenchTo m uid none], by simp⟩
          · split at hr
            · simp only [Except.ok.injEq] at hr
              subst hr
              exact ⟨[BotCall.SetBenchTo m uid none, BotCall.GameStart m uid true], by simp⟩
            · simp only [Except.ok.injEq] at hr
              subst hr
              exact ⟨[BotCall.SetBenchTo m uid none, BotCall.GameStart m uid true], by simp⟩
    · simp only [hn, not_false_eq_true, if_true, Except.ok.injEq] at hr
      subst hr
      exact ⟨[], by simp⟩
  · subst hgid
    intro hn
    simp only [new_game, hgame, hm, Bot.call, ht, ne_eq, not_true_eq_false, if_false,
      Bool.not_eq_true, Bool.true_eq_false]
    by_cases hc : (B.NewMatch gamename uid (some g) (B.Terminate rm false b.st).2).1.1 = .EC_OK
    · simp only [hc, not_true_eq_false, if_false]
      cases hnm : (B.NewMatch gamename uid (some g) (B.Terminate rm false b.st).2).1.2 with
      | none => simp [hc, hnm] at hn
      | some m =>
        simp only []
        cases is_single with
        | false => exact ⟨_, rfl⟩
        | true =>
          simp only [if_true]
          split
          · exact ⟨_, rfl⟩
          · split
            · exact ⟨_, rfl⟩
            · exact ⟨_, rfl⟩
    · simp only [hc, not_false_eq_true, if_true]
      exact ⟨_, rfl⟩

/-- Witness for C25: an unknown game name; the test
`cannot_terminate_gaming_match_when_new_game` (user 2 asks for a new game in group 1, whose
match has begun); the test `terminate_not_begin_match_when_new_game` (user 9 asks for a new
game in group 1, whose match has not begun). -/
theorem new_game_guards_witness :
    new_game ExampleBot.ops "1" (some "1") "未知游戏" false ExampleBot.gaming =
      .ok (.EC_REQUEST_UNKNOWN_GAME, ExampleBot.gaming) ∧
    new_game ExampleBot.ops "2" (some "1") "测试游戏" false ExampleBot.gaming =
      .ok (.EC_MATCH_ALREADY_BEGIN,
        { st := ExampleBot.gaming.st,
          calls := [BotCall.Terminate
            { mid := 1, gid := some "1", users := ["1"], started := true } false] }) ∧
    (∃ r, new_game ExampleBot.ops "9" (some "1") "测试游戏" false ExampleBot.twoGroups = .ok r ∧
      ∃ rest, r.2.calls = [] ++
        BotCall.Terminate
          { mid := 1, gid := some "1", users := ["1", "2"], started := false } false ::
        BotCall.NewMatch "测试游戏" "9" (some "1") :: rest) :=
  ⟨(new_game_guards ExampleBot.ops "1" (some "1") "未知游戏" false ExampleBot.gaming).1
      (by decide),
   ((new_game_guards ExampleBot.ops "2" (some "1") "测试游戏" false ExampleBot.gaming).2
      "1" _ (by decide) rfl rfl).1 (by decide),
   (((new_game_guards ExampleBot.ops "9" (some "1") "测试游戏" false ExampleBot.twoGroups).2
      "1" _ (by decide) rfl rfl).2 rfl).2 (Or.inr rfl) |>.elim
    (fun r hr => ⟨r, hr,
      (((new_game_guards ExampleBot.ops "9" (some "1") "测试游戏" false ExampleBot.twoGroups).2
        "1" _ (by decide) rfl rfl).2 rfl).1 r hr⟩)⟩

/-- C26: `interrupt_game` returns `EC_MATCH_NOT_EXIST` when a match id is given and no match
has it, `EC_MATCH_GROUP_NOT_IN_MATCH` when no id is given and the group has no match, and
`EC_MATCH_NEED_REQUEST_PUBLIC` when neither an id nor a group is given, each time without
any call.  In the remaining cases (an id that a match has; no id and a group that has a
match) the match is terminated with `is_force = true`, as the only call, and `EC_OK` is
returned whatever `Terminate` returns.  No case dereferences a null match. -/
theorem interrupt_game_dispatch {σ μ : Type} (B : BotOps σ μ) (gid : Option GroupID)
    (mid : Option MatchID) (b : Bot σ μ) :
    (∀ i, mid = some i → B.GetMatchById b.st i = none →
      interrupt_game B gid mid b = .ok (.EC_MATCH_NOT_EXIST, b)) ∧
    (∀ g, mid = none → gid = some g → B.GetMatchByGroup b.st g = none →
      interrupt_game B gid mid b = .ok (.EC_MATCH_GROUP_NOT_IN_MATCH, b)) ∧
    (mid = none → gid = none →
      interrupt_game B gid mid b = .ok (.EC_MATCH_NEED_REQUEST_PUBLIC, b)) ∧
    (∀ i m, mid = some i → B.GetMatchById b.st i = some m →
      interrupt_game B gid mid b =
        .ok (.EC_OK, { st := (B.Terminate m true b.st).2,
                       calls := b.calls ++ [BotCall.Terminate m true] })) ∧
    (∀ g m, mid = none → gid = some g → B.GetMatchByGroup b.st g = some m →
      interrupt_game B gid mid b =
        .ok (.EC_OK, { st := (B.Terminate m true b.st).2,
                       calls := b.calls ++ [BotCall.Terminate m true] })) ∧
    (∃ r, interrupt_game B gid mid b = .ok r) := by
  refine ⟨?_, ?_, ?_, ?_, ?_, ?_⟩
  · intro i h hm
    subst h
    simp [interrupt_game, hm]
  · intro g h hg hm
    subst h
    subst hg
    simp [interrupt_game, hm]
  · intro h hg
    subst h
    subst hg
    simp [interrupt_game]
  · intro i m h hm
    subst h
    simp [interrupt_game, hm, Bot.call]
  · intro g m h hg hm
    subst h
    subst hg
    simp [interrupt_game, hm, Bot.call]
  · cases mid with
    | some i =>
      cases hm : B.GetMatchById b.st i with
      | none => exact ⟨(.EC_MATCH_NOT_EXIST, b), by simp [interrupt_game, hm]⟩
      | some m =>
        exact ⟨(.EC_OK, (b.call (.Terminate m true) (B.Terminate m true)).2),
          by simp [interrupt_game, hm]⟩
    | none =>
      cases gid with
      | none => exact ⟨(.EC_MATCH_NEED_REQUEST_PUBLIC, b), by simp [interrupt_game]⟩
      | some g =>
        cases hm : B.GetMatchByGroup b.st g with
        | none => exact ⟨(.EC_MATCH_GROUP_NOT_IN_MATCH, b), by simp [interrupt_game, hm]⟩
        | some m =>
          exact ⟨(.EC_OK, (b.call (.Terminate m true) (B.Terminate m true)).2),
            by simp [interrupt_game, hm]⟩

/-- Witness for C26: an id that no match has; the tests `interrupt_public_not_game` and
`interrupt_private_without_mid`; the id of a match that has begun; the test
`interrupt_public` (the match of group 1). -/
theorem interrupt_game_dispatch_witness :
    interrupt_game ExampleBot.ops (some "1") (some 7) ExampleBot.twoGroups =
      .ok (.EC_MATCH_NOT_EXIST, ExampleBot.twoGroups) ∧
    interrupt_game ExampleBot.ops (some "1") none ExampleBot.empty =
      .ok (.EC_MATCH_GROUP_NOT_IN_MATCH, ExampleBot.empty) ∧
    interrupt_game ExampleBot.ops none none ExampleBot.twoGroups =
      .ok (.EC_MATCH_NEED_REQUEST_PUBLIC, ExampleBot.twoGroups) ∧
    interrupt_game ExampleBot.ops none (some 1) ExampleBot.gaming =
      .ok (.EC_OK, { st := [], calls := [BotCall.Terminate
        { mid := 1, gid := some "1", users := ["1"], started := true } true] }) ∧
    interrupt_game ExampleBot.ops (some "1") none ExampleBot.twoGroups =
      .ok (.EC_OK,
        { st := [{ mid := 2, gid := some "2", users := ["3", "4"], started := false }],
          calls := [BotCall.Terminate
            { mid := 1, gid := some "1", users := ["1", "2"], started := false } true] }) :=
  ⟨(interrupt_game_dispatch ExampleBot.ops (some "1") (some 7) ExampleBot.twoGroups).1
      7 rfl rfl,
   (interrupt_game_dispatch ExampleBot.ops (some "1") none ExampleBot.empty).2.1
      "1" rfl rfl rfl,
   (interrupt_game_dispatch ExampleBot.ops none none ExampleBot.twoGroups).2.2.1 rfl rfl,
   (interrupt_game_dispatch ExampleBot.ops none (some 1) ExampleBot.gaming).2.2.2.1
      1 _ rfl rfl,
   (interrupt_game_dispatch ExampleBot.ops (some "1") none ExampleBot.twoGroups).2.2.2.2.1
      "1" _ rfl rfl rfl⟩

/-! ## Alchemist cards -/

/-- An entry of a list at an index below `n` is among its first `n` entries. -/
theorem get?_mem_take {α : Type} (l : List α) (i n : Nat) (x : α) (hi : i < n)
    (hx : l.get? i = some x) : x ∈ l.take n := by
  rw [List.mem_iff_getElem?]
  refine ⟨i, ?_⟩
  rw [List.getElem?_take_of_lt hi, ← List.get?_eq_getElem?]
  exact hx

/-- C30: with the option `副数` at 0 the point of a generated card is
`k_points[(k - 1) / 点数]`.  For `颜色 = 6`, `点数 = 1` the draw `k = 6` (within
`distrib(0, 6 * 1)`) gives the card `(PURPLE, SIX)`, and `SIX` is not among the first one
point values.  What holds for all `1 ≤ 颜色, 点数 ≤ 6` and every draw `1 ≤ k ≤ 颜色 * 点数`
is that a card is generated whose colour is among the first `颜色` colours and whose point
is among the first `颜色` (not `点数`) point values, hence among the first `点数` ones when
`颜色 ≤ 点数`; whenever `点数 < 颜色` the draw `k = 颜色 * 点数` leaves the first `点数` point
values.  The cards of the branch for a positive `副数` do have a colour among the first
`颜色` and a point among the first `点数`. -/
theorem alchemist_unlimited_card_point :
    unlimitedCard 6 1 6 = some (some (.PURPLE, .SIX)) ∧
    alchemist.Point.SIX ∉ k_points.take 1 ∧
    (∀ colors points k, 1 ≤ colors → colors ≤ 6 → 1 ≤ points → points ≤ 6 →
      1 ≤ k → k ≤ colors * points →
      ∃ c p, unlimitedCard colors points k = some (some (c, p)) ∧
        c ∈ k_colors.take colors ∧ p ∈ k_points.take colors ∧
        (colors ≤ points → p ∈ k_points.take points)) ∧
    (∀ colors points, 1 ≤ points → points < colors → colors ≤ 6 →
      ∃ c p, unlimitedCard colors points (colors * points) = some (some (c, p)) ∧
        p ∉ k_points.take points) ∧
    (∀ colors points copies card, card ∈ limitedCards colors points copies →
      card = none ∨ ∃ c p, card = some (c, p) ∧
        c ∈ k_colors.take colors ∧ p ∈ k_points.take points) := by
  refine ⟨by decide, by decide, ?_, ?_, ?_⟩
  · intro colors points k hc1 hc6 hp1 hp6 hk1 hk
    have hci : (k - 1) % colors < colors := Nat.mod_lt _ (by omega)
    have hpi : (k - 1) / points < colors := by
      rw [Nat.div_lt_iff_lt_mul (by omega)]
      omega
    have hclen : (k - 1) % colors < k_colors.length := by
      simp only [k_colors, List.length_cons, List.length_nil]
      omega
    have hplen : (k - 1) / points < k_points.length := by
      simp only [k_points, List.length_cons, List.length_nil]
      omega
    obtain ⟨c, hcget⟩ : ∃ c, k_colors.get? ((k - 1) % colors) = some c :=
      ⟨_, List.get?_eq_get hclen⟩
    obtain ⟨p, hpget⟩ : ∃ p, k_points.get? ((k - 1) / points) = some p :=
      ⟨_, List.get?_eq_get hplen⟩
    refine ⟨c, p, ?_, get?_mem_take _ _ _ _ hci hcget, get?_mem_take _ _ _ _ hpi hpget,
      fun hle => get?_mem_take _ _ _ _ (by omega) hpget⟩
    have hk0 : k ≠ 0 := by omega
    simp only [unlimitedCard, hk0, if_false, hcget, hpget]
  · intro colors points hp1 hlt hc6
    have hc : colors = 2 ∨ colors = 3 ∨ colors = 4 ∨ colors = 5 ∨ colors = 6 := by omega
    have hp : points = 1 ∨ points = 2 ∨ points = 3 ∨ points = 4 ∨ points = 5 := by omega
    rcases hc with h | h | h | h | h <;> rcases hp with h2 | h2 | h2 | h2 | h2 <;>
      subst h <;> subst h2 <;> first
        | omega
        | exact ⟨_, _, rfl, by decide⟩
  · intro colors points copies card hmem
    simp only [limitedCards, List.mem_append, List.mem_flatMap, List.mem_range,
      List.mem_filterMap, List.mem_replicate] at hmem
    rcases hmem with ⟨ci, hci, pi, hpi, _, _, hcard⟩ | ⟨_, hnone⟩
    · right
      cases hcg : k_colors.get? ci with
      | none =>
        rw [hcg] at hcard
        cases hcard
      | some c =>
        cases hpg : k_points.get? pi with
        | none =>
          rw [hcg, hpg] at hcard
          cases hcard
        | some p =>
          rw [hcg, hpg] at hcard
          simp only [Option.some.injEq] at hcard
          exact ⟨c, p, hcard.symm, get?_mem_take _ _ _ _ hci hcg,
            get?_mem_take _ _ _ _ hpi hpg⟩
    · exact Or.inl hnone

/-! ## Over flag and result code of the atomic stage -/

theorem AtomStage.Handle_over_iff {γ : Type} (h : AtomHooks γ) (s : AtomStage γ)
    (rc : StageErrCode) (hs : s.is_over_ = false) :
    (AtomStage.Handle_ h s rc).2.is_over_ = true ↔ (AtomStage.Handle_ h s rc).1 = .CHECKOUT := by
  by_cases hc1 : rc = .CHECKOUT
  · simp [AtomStage.Handle_, hc1, AtomStage.Over]
  · by_cases hc2 : s.env.masker.IsReady = true
    · cases hr : (h.OnAllPlayerReady s.env).masker.IsReady <;>
        simp [AtomStage.Handle_, hc1, hc2, hr, StageErrCode.Condition, AtomStage.Over, hs]
    · simp [AtomStage.Handle_, hc1, hc2, hs]

theorem AtomStage.Handle_pid_over_iff {γ : Type} (h : AtomHooks γ) (s : AtomStage γ)
    (pid : Nat) (is_user : Bool) (rc : StageErrCode) (hs : s.is_over_ = false) :
    (AtomStage.Handle_pid h s pid is_user rc).2.is_over_ = true ↔
      (AtomStage.Handle_pid h s pid is_user rc).1 = .CHECKOUT := by
  unfold AtomStage.Handle_pid
  split
  · exact AtomStage.Handle_over_iff h _ .OK hs
  · exact AtomStage.Handle_over_iff h s rc hs

theorem AtomStage.HandleRequest_over_iff {γ : Type} (h : AtomHooks γ) (s : AtomStage γ)
    (msg : String) (pid : Nat) (is_public : Bool) (hs : s.is_over_ = false) :
    (AtomStage.HandleRequest h s msg pid is_public).2.is_over_ = true ↔
      (AtomStage.HandleRequest h s msg pid is_public).1 = .CHECKOUT := by
  unfold AtomStage.HandleRequest
  cases hf : firstValid h.commands_ 0 msg pid is_public s.env with
  | none => simp [hs]
  | some r => exact AtomStage.Handle_pid_over_iff h _ pid true _ hs

theorem mem_codes_ne_ready {c : StageErrCode}
    (hc : c ∈ [StageErrCode.OK, .FAILED, .CHECKOUT, .CONTINUE]) : c ≠ .READY := by
  intro he
  rw [he] at hc
  simp at hc

/-- C31: for an atomic stage that is not over, after `HandleRequest` (with or without the
unpinning wrapper), `HandleLeave`, `HandleComputerAct` or `HandleTimeout` the stage is over
if and only if the returned code is `CHECKOUT`, and the returned code is never `READY`. -/
theorem atom_over_iff_checkout {γ : Type} (h : AtomHooks γ) (s : AtomStage γ) (msg : String)
    (pid : Nat) (is_public ready_as_user : Bool) (hs : s.is_over_ = false) :
    (((AtomStage.HandleRequestMsg h s msg pid is_public).2.is_over_ = true ↔
        (AtomStage.HandleRequestMsg h s msg pid is_public).1 = .CHECKOUT) ∧
      (AtomStage.HandleRequestMsg h s msg pid is_public).1 ≠ .READY) ∧
    (((AtomStage.HandleRequest h s msg pid is_public).2.is_over_ = true ↔
        (AtomStage.HandleRequest h s msg pid is_public).1 = .CHECKOUT) ∧
      (AtomStage.HandleRequest h s msg pid is_public).1 ≠ .READY) ∧
    (((AtomStage.HandleLeave h s pid).2.is_over_ = true ↔
        (AtomStage.HandleLeave h s pid).1 = .CHECKOUT) ∧
      (AtomStage.HandleLeave h s pid).1 ≠ .READY) ∧
    (((AtomStage.HandleComputerAct h s pid ready_as_user).2.is_over_ = true ↔
        (AtomStage.HandleComputerAct h s pid ready_as_user).1 = .CHECKOUT) ∧
      (AtomStage.HandleComputerAct h s pid ready_as_user).1 ≠ .READY) ∧
    (((AtomStage.HandleTimeout h s).2.is_over_ = true ↔
        (AtomStage.HandleTimeout h s).1 = .CHECKOUT) ∧
      (AtomStage.HandleTimeout h s).1 ≠ .READY) := by
  refine ⟨⟨?_, ?_⟩, ⟨?_, ?_⟩, ⟨?_, ?_⟩, ⟨?_, ?_⟩, ⟨?_, ?_⟩⟩
  · exact AtomStage.HandleRequest_over_iff h _ msg pid is_public hs
  · intro he
    have h1 := AtomStage.HandleRequest_code h
      { s with env := { s.env with masker := (s.env.masker.Unpin pid).2 } } msg pid is_public
    have h3 : (AtomStage.HandleRequestMsg h s msg pid is_public).1 ∈
        [StageErrCode.OK, .FAILED, .CHECKOUT, .CONTINUE, .NOT_FOUND] := h1
    rw [he] at h3
    simp at h3
  · exact AtomStage.HandleRequest_over_iff h s msg pid is_public hs
  · intro he
    have h2 := AtomStage.HandleRequest_code h s msg pid is_public
    rw [he] at h2
    simp at h2
  · exact AtomStage.Handle_pid_over_iff h _ pid true _ hs
  · unfold AtomStage.HandleLeave
    cases hl : (h.OnPlayerLeave pid { s.env with masker := (s.env.masker.Pin pid).2 }).1
    · exact mem_codes_ne_ready (by
        simpa [hl, CheckoutErrCode.toStageErrCode, AtomStage.Handle_pid] using
          (show _ ∈ [StageErrCode.OK, .FAILED, .CHECKOUT, .CONTINUE] from by
            rcases AtomStage.Handle_code h
              { s with
                env := (h.OnPlayerLeave pid { s.env with masker := (s.env.masker.Pin pid).2 }).2,
                calls := s.calls ++ [Call.OnPlayerLeave pid] } .CONTINUE with h1 | h1 | h1 <;>
              simp [h1]))
    · exact mem_codes_ne_ready (by
        simpa [hl, CheckoutErrCode.toStageErrCode, AtomStage.Handle_pid] using
          (show _ ∈ [StageErrCode.OK, .FAILED, .CHECKOUT, .CONTINUE] from by
            rcases AtomStage.Handle_code h
              { s with
                env := (h.OnPlayerLeave pid { s.env with masker := (s.env.masker.Pin pid).2 }).2,
                calls := s.calls ++ [Call.OnPlayerLeave pid] } .CHECKOUT with h1 | h1 | h1 <;>
              simp [h1]))
  · exact AtomStage.Handle_pid_over_iff h _ pid ready_as_user _ hs
  · exact mem_codes_ne_ready (AtomStage.Handle_pid_code h _ pid ready_as_user _)
  · unfold AtomStage.HandleTimeout
    cases hc : (h.OnTimeout s.env).1 <;>
      simp [hc, CheckoutErrCode.toStageErrCode, AtomStage.Over, hs]
  · unfold AtomStage.HandleTimeout
    cases hc : (h.OnTimeout s.env).1 <;> simp [hc, CheckoutErrCode.toStageErrCode]

/-- Witness for C31 on the test stage: the request `准备` of the last unready slot returns
`CHECKOUT` and the stage is over. -/
theorem atom_over_iff_checkout_witness :
    (AtomStage.requests TestSubStage.hooks (AtomStage.fresh 2 ⟨0, 0⟩)
      [⟨"准备", 0, true⟩]).2.is_over_ = false ∧
    (AtomStage.HandleRequestMsg TestSubStage.hooks
      (AtomStage.requests TestSubStage.hooks (AtomStage.fresh 2 ⟨0, 0⟩)
        [⟨"准备", 0, true⟩]).2 "准备" 1 true).1 = .CHECKOUT ∧
    (AtomStage.HandleRequestMsg TestSubStage.hooks
      (AtomStage.requests TestSubStage.hooks (AtomStage.fresh 2 ⟨0, 0⟩)
        [⟨"准备", 0, true⟩]).2 "准备" 1 true).2.is_over_ = true :=
  ⟨by decide, by decide,
    ((atom_over_iff_checkout TestSubStage.hooks
      (AtomStage.requests TestSubStage.hooks (AtomStage.fresh 2 ⟨0, 0⟩)
        [⟨"准备", 0, true⟩]).2 "准备" 1 true false (by decide)).1.1).2 (by decide)⟩

/-! ## The counter of the mask -/

/-- C32: in every mask state reached from construction (with a size that fits `size_t`) by
in-range `Set`, `Unset`, `Pin`, `Unpin` and `Clear` calls, `unset_count_` is the number of
`UNSET` slots; so it is at most the size of the mask, it is positive whenever a slot is
`UNSET` (the decrement of `Record_` for an `UNSET` slot is never taken from 0), and it is
below the size whenever a slot is not `UNSET` (the increments of `Unpin`, `Clear` and
`Record_` for such a slot stay within the size). -/
theorem masker_counter_invariant (size : Nat) (ops : List MaskOp)
    (hsize : size < SIZE_MOD) (hops : ∀ op ∈ ops, op.inRange size = true) :
    ((Masker.new size).run ops).unset_count_ =
        ((Masker.new size).run ops).recorder_.count .UNSET ∧
      ((Masker.new size).run ops).recorder_.length = size ∧
      ((Masker.new size).run ops).unset_count_ ≤ size ∧
      (∀ i, i < size → ((Masker.new size).run ops).Get i = .UNSET →
        0 < ((Masker.new size).run ops).unset_count_) ∧
      (∀ i, i < size → ((Masker.new size).run ops).Get i ≠ .UNSET →
        ((Masker.new size).run ops).unset_count_ + 1 ≤ size) := by
  have hinv : ((Masker.new size).run ops).Inv :=
    Masker.Reachable.inv ⟨size, ops, hsize, hops, rfl⟩
  have hlen : ((Masker.new size).run ops).recorder_.length = size := by
    rw [Masker.run_length]
    simp [Masker.new]
  obtain ⟨hc, _⟩ := hinv
  refine ⟨hc, hlen, ?_, ?_, ?_⟩
  · have hle := count_unset_le ((Masker.new size).run ops).recorder_
    omega
  · intro i hi hu
    rw [hc]
    have hi2 : i < ((Masker.new size).run ops).recorder_.length := by omega
    rw [Masker.Get_eq _ i hi2] at hu
    exact count_unset_pos _ i hi2 hu
  · intro i hi hu
    rw [hc]
    have hi2 : i < ((Masker.new size).run ops).recorder_.length := by omega
    rw [Masker.Get_eq _ i hi2] at hu
    have := count_unset_set_lt _ i hi2 hu
    omega

/-- Witness for C32: a mask of three slots after `Set`, `Pin`, `Unset`, `Unpin`, `Clear`. -/
theorem masker_counter_invariant_witness :
    (3 < SIZE_MOD ∧
      ∀ op ∈ [MaskOp.Set 0 true, MaskOp.Pin 1, MaskOp.Unset 0, MaskOp.Set 2 false,
        MaskOp.Unpin 1, MaskOp.Clear, MaskOp.Pin 2], op.inRange 3 = true) ∧
    ((Masker.new 3).run [MaskOp.Set 0 true, MaskOp.Pin 1, MaskOp.Unset 0, MaskOp.Set 2 false,
        MaskOp.Unpin 1, MaskOp.Clear, MaskOp.Pin 2]).unset_count_ = 2 ∧
    ((Masker.new 3).run [MaskOp.Set 0 true, MaskOp.Pin 1, MaskOp.Unset 0, MaskOp.Set 2 false,
        MaskOp.Unpin 1, MaskOp.Clear, MaskOp.Pin 2]).unset_count_ ≤ 3 :=
  ⟨⟨by decide, by decide⟩, by decide,
    (masker_counter_invariant 3 [MaskOp.Set 0 true, MaskOp.Pin 1, MaskOp.Unset 0,
      MaskOp.Set 2 false, MaskOp.Unpin 1, MaskOp.Clear, MaskOp.Pin 2]
      (by decide) (by decide)).2.2.1⟩

/-! ## Parsing cards -/

/-- C36: for every card `p` of the 40-card deck (10 numbers, 4 suits), parsing its text
form gives the card back: `Parse(p.ToString())` returns `p`. -/
theorem poker_parse_to_string (p : Poker) :
    p ∈ allPokers ∧ Parse p.ToString = .ok (some p) := by
  obtain ⟨n, s⟩ := p
  cases n <;> cases s <;> exact ⟨by decide, rfl⟩

theorem matchCardPattern_number (s m1 m2 : String)
    (h : matchCardPattern s = some (m1, m2)) :
    m2 ∈ ["X", "x", "1", "2", "3", "4", "5", "6", "7", "8", "9"] := by
  unfold matchCardPattern at h
  split at h
  · cases h
  · rename_i c rest _
    split at h
    · rename_i hc
      simp only [Option.some.injEq, Prod.mk.injEq] at h
      obtain ⟨_, h2⟩ := h
      subst h2
      have hc1 := hc.1
      simp only [cardNumberChars, List.mem_cons, List.mem_singleton, List.not_mem_nil,
        or_false] at hc1
      rcases hc1 with h | h | h | h | h | h | h | h | h | h | h <;> subst h <;> decide
    · cases h

theorem ParseNumber_of_mem (m2 : String)
    (h : m2 ∈ ["X", "x", "1", "2", "3", "4", "5", "6", "7", "8", "9"]) :
    (ParseNumber m2).isSome = true := by
  simp only [List.mem_cons, List.mem_singleton, List.not_mem_nil, or_false] at h
  rcases h with h | h | h | h | h | h | h | h | h | h | h <;> subst h <;> decide

/-- C40: in `Parse`, whenever the input matches the pattern, the lookup of the number
succeeds, so the number that is dereferenced is never empty and `Parse` always returns;
it returns no card exactly when the pattern does not match or the prefix is not a known
suit. -/
theorem poker_parse_number_present (s : String) :
    (∀ m1 m2, matchCardPattern s = some (m1, m2) → (ParseNumber m2).isSome = true) ∧
    (∃ r, Parse s = .ok r) ∧
    (Parse s = .ok none ↔
      matchCardPattern s = none ∨
        ∃ m1 m2, matchCardPattern s = some (m1, m2) ∧ ParseSuit m1 = none) := by
  have hnum : ∀ m1 m2, matchCardPattern s = some (m1, m2) → (ParseNumber m2).isSome = true :=
    fun m1 m2 h => ParseNumber_of_mem m2 (matchCardPattern_number s m1 m2 h)
  refine ⟨hnum, ?_, ?_⟩
  · cases hm : matchCardPattern s with
    | none => exact ⟨none, by simp [Parse, hm]⟩
    | some mr =>
      obtain ⟨m1, m2⟩ := mr
      have hn := hnum m1 m2 hm
      obtain ⟨n, hn⟩ := Option.isSome_iff_exists.mp hn
      cases hs : ParseSuit m1 with
      | none => exact ⟨none, by simp [Parse, hm, hs]⟩
      | some su => exact ⟨some ⟨n, su⟩, by simp [Parse, hm, hs, hn]⟩
  · cases hm : matchCardPattern s with
    | none => simp [Parse, hm]
    | some mr =>
      obtain ⟨m1, m2⟩ := mr
      have hn := hnum m1 m2 hm
      obtain ⟨n, hn⟩ := Option.isSome_iff_exists.mp hn
      cases hs : ParseSuit m1 with
      | none => simp [Parse, hm, hs]
      | some su => simp [Parse, hm, hs, hn]

/-! ## Comparing decks -/

theorem equal_cmp_lexicographical (as bs : List Poker) (hne : as ≠ [])
    (h : equal Deck.cmp as bs = true) : lexicographical_compare Deck.cmp as bs = true := by
  cases as with
  | nil => exact absurd rfl hne
  | cons a as =>
    cases bs with
    | nil => simp [equal] at h
    | cons b bs =>
      simp only [equal, Bool.and_eq_true] at h
      simp [lexicographical_compare, h.1]

/-- C33: on two straights with the same numbers, position by position, and different suits
`CompareIgnoreSuit` returns 1 in both directions, not 0, and a deck compared with itself
gives 1.  For decks of five pokers the result is never 0: `std::equal` is given the
predicate `cmp` (`<` on the numbers), which fails on equal numbers and, where it holds for
all positions, has made `std::lexicographical_compare` answer first. -/
theorem deck_compare_ignore_suit_equal :
    Deck.CompareIgnoreSuit
        ⟨.STRAIGHT, [⟨._0, .GREEN⟩, ⟨._9, .GREEN⟩, ⟨._8, .RED⟩, ⟨._7, .BLUE⟩, ⟨._6, .PURPLE⟩]⟩
        ⟨.STRAIGHT, [⟨._0, .RED⟩, ⟨._9, .BLUE⟩, ⟨._8, .GREEN⟩, ⟨._7, .GREEN⟩, ⟨._6, .RED⟩]⟩ = 1 ∧
    Deck.CompareIgnoreSuit
        ⟨.STRAIGHT, [⟨._0, .RED⟩, ⟨._9, .BLUE⟩, ⟨._8, .GREEN⟩, ⟨._7, .GREEN⟩, ⟨._6, .RED⟩]⟩
        ⟨.STRAIGHT, [⟨._0, .GREEN⟩, ⟨._9, .GREEN⟩, ⟨._8, .RED⟩, ⟨._7, .BLUE⟩, ⟨._6, .PURPLE⟩]⟩
      = 1 ∧
    DeckHelper.compare
        (some ⟨.STRAIGHT, [⟨._0, .GREEN⟩, ⟨._9, .GREEN⟩, ⟨._8, .RED⟩, ⟨._7, .BLUE⟩, ⟨._6, .PURPLE⟩]⟩)
        (some ⟨.STRAIGHT, [⟨._0, .GREEN⟩, ⟨._9, .GREEN⟩, ⟨._8, .RED⟩, ⟨._7, .BLUE⟩, ⟨._6, .PURPLE⟩]⟩)
      = 1 ∧
    (∀ a b : Deck, a.pokers_.length = 5 → b.pokers_.length = 5 → a.CompareIgnoreSuit b ≠ 0) ∧
    (∀ a : Deck, a.pokers_.length = 5 → a.CompareIgnoreSuit a = 1) := by
  have hne5 : ∀ l : List Poker, l.length = 5 → l ≠ [] := by
    intro l hl he
    rw [he] at hl
    cases hl
  have hgen : ∀ a b : Deck, a.pokers_.length = 5 → a.CompareIgnoreSuit b ≠ 0 := by
    intro a b ha
    unfold Deck.CompareIgnoreSuit
    split
    · decide
    · split
      · decide
      · split
        · decide
        · rename_i hlex
          split
          · rename_i heq
            exact absurd (equal_cmp_lexicographical _ _ (hne5 _ ha) heq) hlex
          · decide
  have hirr : ∀ l : List Poker, lexicographical_compare Deck.cmp l l = false := by
    intro l
    induction l with
    | nil => rfl
    | cons x xs ih => simp [lexicographical_compare, Deck.cmp, ih]
  refine ⟨by decide, by decide, by decide, fun a b ha _ => hgen a b ha, ?_⟩
  intro a ha
  have h0 := hgen a a ha
  unfold Deck.CompareIgnoreSuit at h0 ⊢
  simp only [lt_self_iff_false, if_false, gt_iff_lt, hirr, Bool.false_eq_true] at h0 ⊢
  split
  · rename_i heq
    simp [heq] at h0
  · rfl

/-! ## Bets of the lucky-poker game -/

theorem sum_map_set_int {α : Type} (f : α → Int) (l : List α) (i : Nat) (x y : α)
    (h : l.get? i = some y) : ((l.set i x).map f).sum = (l.map f).sum - f y + f x := by
  induction l generalizing i with
  | nil => simp at h
  | cons a as ih =>
    cases i with
    | zero =>
      simp only [List.get?_cons_zero, Option.some.injEq] at h
      subst h
      simp only [List.set_cons_zero, List.map_cons, List.sum_cons]
      omega
    | succ j =>
      simp only [List.get?_cons_succ] at h
      simp only [List.set_cons_succ, List.map_cons, List.sum_cons, ih j h]
      omega

theorem toInt32_of_fits (x : Int) (h1 : -(2 ^ 31) ≤ x) (h2 : x < 2 ^ 31) : toInt32 x = x := by
  unfold toInt32
  omega

theorem append_toString_ne_empty (n : Int) :
    "下注筹码数不得超过上一轮下注数量 " ++ toString n ≠ "" := by
  intro h
  have h2 := congrArg String.length h
  rw [String.length_append] at h2
  have h3 : ("下注筹码数不得超过上一轮下注数量 ").length = 17 := by decide
  rw [h3] at h2
  simp at h2

theorem PlayerRoundInfo.Reset_spec (self : PlayerRoundInfo) (hands_ : List PlayerHand)
    (hand_id : Nat) (coins scores : Int) (discard_idx : Nat) (hand : PlayerHand)
    (r : String × PlayerRoundInfo × List PlayerHand)
    (hhand : hands_.get? hand_id = some hand)
    (hcoins : -(2 ^ 31) ≤ coins ∧ coins < 2 ^ 31)
    (hscores : -(2 ^ 31) ≤ scores ∧ scores < 2 ^ 31)
    (hr : self.Reset_ hands_ hand_id coins scores discard_idx = some r) :
    (r.1 = "" →
      r.2.1.remain_coins_ + mutableTotal r.2.2 = self.remain_coins_ + mutableTotal hands_ ∧
      0 ≤ r.2.1.score_ + r.2.1.score_change_ + r.2.1.remain_coins_ ∧
      r.2.1.score_ = self.score_ ∧ r.2.1.score_change_ = self.score_change_ ∧
      r.2.1.pid_ = self.pid_ ∧ r.2.2.length = hands_.length) ∧
    (r.1 ≠ "" → r.2 = (self, hands_)) ∧
    (r.1 ≠ "" ↔
      hand.pid_ ≠ self.pid_ ∨ hand.discard_idx_ = PlayerHand.DISCARD_ALL_IMMUTBLE ∨
      self.score_ + self.score_change_ + self.remain_coins_ +
        (hand.mutable_coins_ + hand.mutable_score_ - coins - scores) < 0 ∨
      (hand.immutable_coins_ < coins ∧ discard_idx < k_hand_poker_num)) := by
  unfold PlayerRoundInfo.Reset_ at hr
  simp only [hhand] at hr
  by_cases h1 : hand.pid_ ≠ self.pid_
  · simp only [h1, ne_eq, not_false_eq_true, if_true, Option.some.injEq] at hr
    subst hr
    simp [h1]
  · simp only [h1, if_false] at hr
    by_cases h2 : hand.discard_idx_ = PlayerHand.DISCARD_ALL_IMMUTBLE
    · simp only [h2, if_true, Option.some.injEq] at hr
      subst hr
      simp [h2]
    · simp only [h2, if_false] at hr
      by_cases h3 : self.score_ + self.score_change_ + self.remain_coins_ +
          (hand.mutable_coins_ + hand.mutable_score_ - coins - scores) < 0
      · simp only [h3, if_true, Option.some.injEq] at hr
        subst hr
        simp [h3]
      · simp only [h3, if_false] at hr
        by_cases h4 : hand.immutable_coins_ < coins ∧ discard_idx < k_hand_poker_num
        · simp only [h4, and_self, if_true, Option.some.injEq] at hr
          subst hr
          have hne := append_toString_ne_empty hand.immutable_coins_
          simp [hne, h4]
        · simp only [h4, if_false, Option.some.injEq] at hr
          subst hr
          have hsum := sum_map_set_int (fun h => h.mutable_coins_ + h.mutable_score_) hands_
            hand_id
            { hand with
              mutable_coins_ := toInt32 coins
              mutable_score_ := toInt32 scores
              discard_idx_ := discard_idx } hand hhand
          simp only [toInt32_of_fits coins hcoins.1 hcoins.2,
            toInt32_of_fits scores hscores.1 hscores.2] at hsum
          refine ⟨fun _ => ⟨?_, ?_, rfl, rfl, rfl, by simp⟩, fun hne => absurd rfl hne, ?_⟩
          · simp only [mutableTotal, toInt32_of_fits coins hcoins.1 hcoins.2,
              toInt32_of_fits scores hscores.1 hscores.2, hsum]
            omega
          · show 0 ≤ self.score_ + self.score_change_ + (self.remain_coins_ +
              (hand.mutable_coins_ + hand.mutable_score_ - coins - scores))
            omega
          · simp only [ne_eq, not_true_eq_false, false_iff]
            push_neg at h1
            intro hc
            rcases hc with hc | hc | hc | hc
            · exact hc h1
            · exact h2 hc
            · exact h3 hc
            · exact h4 hc

/-- C37: for a hand inside `hands_` and amounts that fit `int32_t` (the members they are
stored in), `Bet` and `Fold` return, and a successful one (empty message) leaves
`remain_coins_` plus the sum of `mutable_coins_ + mutable_score_` over the hands unchanged,
leaves `score_ + score_change_ + remain_coins_ ≥ 0` and does not touch `score_` and
`score_change_`; a rejected one changes neither the player nor any hand, and the
rejections are exactly: foreign hand, immutably folded hand, insufficient score, bet above
the first-round bet while a poker is chosen or none is yet. -/
theorem bet_fold_conserves (self : PlayerRoundInfo) (hands_ : List PlayerHand)
    (hand_id : Nat) (coins scores : Int) (discard_idx : Nat) (is_mutable : Bool)
    (hand : PlayerHand)
    (hhand : hands_.get? hand_id = some hand)
    (hcoins : -(2 ^ 31) ≤ coins ∧ coins < 2 ^ 31)
    (hscores : -(2 ^ 31) ≤ scores ∧ scores < 2 ^ 31) :
    (∃ r, self.Bet hands_ hand_id coins discard_idx = some r ∧
      (r.1 = "" →
        r.2.1.remain_coins_ + mutableTotal r.2.2 = self.remain_coins_ + mutableTotal hands_ ∧
        0 ≤ r.2.1.score_ + r.2.1.score_change_ + r.2.1.remain_coins_ ∧
        r.2.1.score_ = self.score_ ∧ r.2.1.score_change_ = self.score_change_) ∧
      (r.1 ≠ "" → r.2 = (self, hands_)) ∧
      (r.1 ≠ "" ↔
        hand.pid_ ≠ self.pid_ ∨ hand.discard_idx_ = PlayerHand.DISCARD_ALL_IMMUTBLE ∨
        self.score_ + self.score_change_ + self.remain_coins_ +
          (hand.mutable_coins_ + hand.mutable_score_ - coins - 0) < 0 ∨
        (hand.immutable_coins_ < coins ∧ discard_idx < k_hand_poker_num))) ∧
    (∃ r, self.Fold hands_ hand_id coins scores is_mutable = some r ∧
      (r.1 = "" →
        r.2.1.remain_coins_ + mutableTotal r.2.2 = self.remain_coins_ + mutableTotal hands_ ∧
        0 ≤ r.2.1.score_ + r.2.1.score_change_ + r.2.1.remain_coins_ ∧
        r.2.1.score_ = self.score_ ∧ r.2.1.score_change_ = self.score_change_) ∧
      (r.1 ≠ "" → r.2 = (self, hands_)) ∧
      (r.1 ≠ "" ↔
        hand.pid_ ≠ self.pid_ ∨ hand.discard_idx_ = PlayerHand.DISCARD_ALL_IMMUTBLE ∨
        self.score_ + self.score_change_ + self.remain_coins_ +
          (hand.mutable_coins_ + hand.mutable_score_ - coins - scores) < 0)) := by
  have hret : ∀ c s d, ∃ r, self.Reset_ hands_ hand_id c s d = some r := by
    intro c s d
    unfold PlayerRoundInfo.Reset_
    simp only [hhand]
    split
    · exact ⟨_, rfl⟩
    · split
      · exact ⟨_, rfl⟩
      · split
        · exact ⟨_, rfl⟩
        · split
          · exact ⟨_, rfl⟩
          · exact ⟨_, rfl⟩
  constructor
  · obtain ⟨r, hr⟩ := hret coins 0 discard_idx
    have hs := PlayerRoundInfo.Reset_spec self hands_ hand_id coins 0 discard_idx hand r hhand
      hcoins (by constructor <;> norm_num) hr
    exact ⟨r, hr, fun h => ⟨(hs.1 h).1, (hs.1 h).2.1, (hs.1 h).2.2.1, (hs.1 h).2.2.2.1⟩,
      hs.2.1, hs.2.2⟩
  · obtain ⟨r, hr⟩ := hret coins scores
      (if is_mutable then PlayerHand.DISCARD_ALL else PlayerHand.DISCARD_ALL_IMMUTBLE)
    have hs := PlayerRoundInfo.Reset_spec self hands_ hand_id coins scores _ hand r hhand
      hcoins hscores hr
    refine ⟨r, hr, fun h => ⟨(hs.1 h).1, (hs.1 h).2.1, (hs.1 h).2.2.1, (hs.1 h).2.2.2.1⟩,
      hs.2.1, ?_⟩
    rw [hs.2.2]
    have hd : ¬ (if is_mutable then PlayerHand.DISCARD_ALL
        else PlayerHand.DISCARD_ALL_IMMUTBLE) < k_hand_poker_num := by
      cases is_mutable <;> decide
    simp only [hd, and_false, or_false]

/-- Witness for C37: player 0 of three, with 30 coins to place, bets 10 coins on the hand
`A`; 20 coins remain and the hand holds 10. -/
theorem bet_fold_conserves_witness :
    (RoundStage.dealHands 3 3 allPokers).get? 0 =
      some (PlayerHand.new 0 0 [⟨._1, .PURPLE⟩, ⟨._1, .BLUE⟩, ⟨._1, .RED⟩]) ∧
    (∃ r, PlayerRoundInfo.Bet ⟨0, 0, 0, 30⟩ (RoundStage.dealHands 3 3 allPokers) 0 10
        PlayerHand.DISCARD_NOT_CHOOSE = some r ∧ r.1 = "" ∧ r.2.1.remain_coins_ = 20 ∧
      r.2.1.remain_coins_ + mutableTotal r.2.2 =
        30 + mutableTotal (RoundStage.dealHands 3 3 allPokers)) :=
  by
  have h := (bet_fold_conserves ⟨0, 0, 0, 30⟩ (RoundStage.dealHands 3 3 allPokers) 0 10 0
    PlayerHand.DISCARD_NOT_CHOOSE true
    (PlayerHand.new 0 0 [⟨._1, .PURPLE⟩, ⟨._1, .BLUE⟩, ⟨._1, .RED⟩]) rfl
    (by constructor <;> norm_num) (by constructor <;> norm_num)).1
  have hv : PlayerRoundInfo.Bet ⟨0, 0, 0, 30⟩ (RoundStage.dealHands 3 3 allPokers) 0 10
      PlayerHand.DISCARD_NOT_CHOOSE = some ("", ⟨0, 0, 0, 20⟩,
        (RoundStage.dealHands 3 3 allPokers).set 0
          { PlayerHand.new 0 0 [⟨._1, .PURPLE⟩, ⟨._1, .BLUE⟩, ⟨._1, .RED⟩] with
            mutable_coins_ := 10
            mutable_score_ := 0
            discard_idx_ := PlayerHand.DISCARD_NOT_CHOOSE }) := rfl
  obtain ⟨r, hr, hok, _, _⟩ := h
  rw [hv] at hr
  cases hr
  exact ⟨rfl, _, hv, rfl, rfl, (hok rfl).1⟩

theorem RoundStage.dealHands_length (player_num player_hand_num : Nat)
    (shuffled_pokers : List Poker) :
    (RoundStage.dealHands player_num player_hand_num shuffled_pokers).length =
      player_num * player_hand_num := by
  unfold RoundStage.dealHands
  induction player_num with
  | zero => simp
  | succ n ih =>
    rw [List.range_succ, List.flatMap_append, List.length_append, ih]
    simp [Nat.succ_mul]

/-- C34: `ParseHandIdIfValid_` accepts every letter, so the private message `Z 10` of a
player who is not ready gives the hand index 25, while at most 9 hands are dealt (8 for two
or four players, 9 for three); `Bet_` then indexes `hands_` outside its range (no result in
the model).  The same holds for every player number that `PlayerHandNum` accepts. -/
theorem lucky_poker_hand_id_out_of_range :
    BetStage.ParseHandIdIfValid_ (Masker.new 3) 0 false "Z" = some 25 ∧
    (RoundStage.dealHands 3 3 allPokers).length = 9 ∧
    BetStage.Bet_ (Masker.new 3) (RoundStage.newInfos 3 (fun _ => 0) 30)
      (RoundStage.dealHands 3 3 allPokers) 0 false "Z" 10 = none ∧
    (BetStage.Bet_ (Masker.new 3) (RoundStage.newInfos 3 (fun _ => 0) 30)
      (RoundStage.dealHands 3 3 allPokers) 0 false "A" 10).isSome = true ∧
    (∀ (masker : Masker) (pid : Nat), masker.Get pid ≠ .SET →
      BetStage.ParseHandIdIfValid_ masker pid false "Z" = some 25) ∧
    (∀ (player_num n : Nat) (shuffled_pokers : List Poker) (self : PlayerRoundInfo)
      (coins : Int) (discard_idx : Nat), PlayerHandNum player_num = some n →
      (RoundStage.dealHands player_num n shuffled_pokers).length ≤ 9 ∧
      self.Bet (RoundStage.dealHands player_num n shuffled_pokers) 25 coins discard_idx
        = none) := by
  refine ⟨by decide, by decide, rfl, rfl, ?_, ?_⟩
  · intro masker pid h
    simp only [BetStage.ParseHandIdIfValid_, Bool.false_eq_true, if_false, h]
    decide
  · intro player_num n shuffled_pokers self coins discard_idx hn
    have hlen := RoundStage.dealHands_length player_num n shuffled_pokers
    have hle : player_num * n ≤ 9 := by
      unfold PlayerHandNum at hn
      split at hn
      · cases hn
        subst_vars
        decide
      · split at hn
        · cases hn
          subst_vars
          decide
        · split at hn
          · cases hn
            subst_vars
            decide
          · cases hn
    refine ⟨by omega, ?_⟩
    have hnone : (RoundStage.dealHands player_num n shuffled_pokers).get? 25 = none := by
      rw [List.get?_eq_none]
      omega
    unfold PlayerRoundInfo.Bet PlayerRoundInfo.Reset_
    rw [hnone]

/-! ## Settlement of unity chess -/

theorem countP_split3 (l : List (Nat × Nat)) (f : Nat × Nat → Nat) :
    l.countP (fun p => !(f p == 1)) =
      l.countP (fun p => f p == 2) + l.countP (fun p => !(f p == 1) && !(f p == 2)) := by
  induction l with
  | nil => rfl
  | cons a as ih =>
    simp only [List.countP_cons, ih]
    by_cases h1 : f a = 1
    · simp [h1]
    · by_cases h2 : f a = 2
      · simp [h2]
        omega
      · simp [h1, h2]
        omega

/-- C38: in the game `quietGame` on the board of side 6 every move is accepted and the
board is full after 36 rounds without any coloured cell; the settlement gives
`player_scores_ = [0, 36]` while `GetUI` displays `n1 = 0` and `n2 = 0`.  In general the
settlement counts for `player_scores_[1]` every cell that is not coloured 1, that is `n2`
plus the number of cells that are neither coloured 1 nor 2, and `player_scores_[0]` is
`n1`. -/
theorem unity_chess_settlement :
    (UnityMainStage.play (UnityMainStage.begin 6 0) UnityMainStage.quietGame).1 = false ∧
    (UnityMainStage.play (UnityMainStage.begin 6 0) UnityMainStage.quietGame).2.round_ = 37 ∧
    (UnityMainStage.play (UnityMainStage.begin 6 0) UnityMainStage.quietGame).2.stop = false ∧
    (UnityMainStage.play (UnityMainStage.begin 6 0)
      UnityMainStage.quietGame).2.board.cells.all
        (fun p => (UnityMainStage.play (UnityMainStage.begin 6 0)
          UnityMainStage.quietGame).2.board.chess p.1 p.2 != 0) = true ∧
    (UnityMainStage.play (UnityMainStage.begin 6 0)
      UnityMainStage.quietGame).2.player_scores_ = [0, 36] ∧
    (UnityMainStage.play (UnityMainStage.begin 6 0)
      UnityMainStage.quietGame).2.board.GetUI_counts = (0, 0) ∧
    (∀ st : UnityMainStage, st.stop = false →
      st.round_ + 1 > st.board.sizeX * st.board.sizeY →
      st.NextSubStage.2.player_scores_ =
        [(st.board.GetUI_counts.1 : Int),
          ((st.board.GetUI_counts.2 +
            st.board.cells.countP
              (fun p => !(st.board.color p.1 p.2 == 1) && !(st.board.color p.1 p.2 == 2)) : Nat)
            : Int)]) := by
  refine ⟨by decide, by decide, by decide, by decide, by decide, by decide, ?_⟩
  intro st hstop hfull
  simp only [UnityMainStage.NextSubStage, hstop, Bool.false_eq_true, if_false, hfull, if_true,
    Board.GetUI_counts]
  rw [countP_split3 st.board.cells (fun p => st.board.color p.1 p.2)]

/-! ## Hands of pokers -/

theorem allPokers_nodup : allPokers.Nodup := by decide

theorem mem_allPokers (p : Poker) : p ∈ allPokers := by
  obtain ⟨n, s⟩ := p
  cases n <;> cases s <;> decide

theorem mem_suit_members_reverse (s : PokerSuit) : s ∈ PokerSuit.Members.reverse := by
  cases s <;> decide

theorem mem_number_members (n : PokerNumber) : n ∈ PokerNumber.Members := by
  cases n <;> decide

theorem length_le_cardCount (pk : PokerNumber → PokerSuit → Bool) (l : List Poker)
    (hn : l.Nodup) (h : ∀ p ∈ l, pk p.number_ p.suit_ = true) : l.length ≤ cardCount pk := by
  have hsub : l ⊆ allPokers.filter (fun p => pk p.number_ p.suit_) := by
    intro p hp
    exact List.mem_filter.mpr ⟨mem_allPokers p, h p hp⟩
  exact (List.subperm_of_subset hn hsub).length_le

theorem cardCount_le_length (pk : PokerNumber → PokerSuit → Bool) (l : List Poker)
    (h : ∀ p : Poker, pk p.number_ p.suit_ = true → p ∈ l) : cardCount pk ≤ l.length := by
  have hsub : allPokers.filter (fun p => pk p.number_ p.suit_) ⊆ l := by
    intro p hp
    exact h p (List.mem_filter.mp hp).2
  exact (List.subperm_of_subset (allPokers_nodup.filter _) hsub).length_le

theorem numberCount_pos_iff (pk : PokerNumber → PokerSuit → Bool) (n : PokerNumber) :
    0 < Hand.numberCount pk n ↔ ∃ s, pk n s = true := by
  unfold Hand.numberCount
  rw [List.length_pos_iff_exists_mem]
  constructor
  · rintro ⟨s, hs⟩
    exact ⟨s, (List.mem_filter.mp hs).2⟩
  · rintro ⟨s, hs⟩
    refine ⟨s, List.mem_filter.mpr ⟨?_, hs⟩⟩
    cases s <;> decide

theorem Hand.fill_pair_to_deck_spec (pk : PokerNumber → PokerSuit → Bool) (n : PokerNumber)
    (ss : List PokerSuit) (pokers : List Poker) (hss : ss.Nodup)
    (hnew : ∀ p ∈ pokers, p.number_ = n → p.suit_ ∉ ss) (hnd : pokers.Nodup) :
    (∀ p ∈ Hand.fill_pair_to_deck pk n ss pokers,
        p ∈ pokers ∨ (p.number_ = n ∧ pk n p.suit_ = true)) ∧
      (∀ p ∈ pokers, p ∈ Hand.fill_pair_to_deck pk n ss pokers) ∧
      (Hand.fill_pair_to_deck pk n ss pokers).Nodup ∧
      ((Hand.fill_pair_to_deck pk n ss pokers).length < 5 →
        ∀ s ∈ ss, pk n s = true → Poker.mk n s ∈ Hand.fill_pair_to_deck pk n ss pokers) ∧
      pokers.length ≤ (Hand.fill_pair_to_deck pk n ss pokers).length ∧
      ((∃ s ∈ ss, pk n s = true) →
        pokers.length < (Hand.fill_pair_to_deck pk n ss pokers).length) := by
  induction ss generalizing pokers with
  | nil =>
    simp only [Hand.fill_pair_to_deck]
    refine ⟨fun p hp => Or.inl hp, fun p hp => hp, hnd, ?_, le_refl _, ?_⟩
    · intro _ s hs
      cases hs
    · rintro ⟨s, hs, _⟩
      cases hs
  | cons s rest ih =>
    have hsr : s ∉ rest := (List.nodup_cons.mp hss).1
    have hrest : rest.Nodup := (List.nodup_cons.mp hss).2
    by_cases hk : pk n s = true
    · have hnot : Poker.mk n s ∉ pokers := by
        intro hm
        exact hnew _ hm rfl (List.mem_cons_self _ _)
      have hnd1 : (pokers ++ [Poker.mk n s]).Nodup := by
        rw [List.nodup_append]
        refine ⟨hnd, List.nodup_singleton _, ?_⟩
        intro a ha hb
        rw [List.mem_singleton] at hb
        subst hb
        exact hnot ha
      by_cases h5 : (pokers ++ [Poker.mk n s]).length = 5
      · simp only [Hand.fill_pair_to_deck, hk, if_true, h5]
        refine ⟨?_, ?_, hnd1, ?_, ?_, ?_⟩
        · intro p hp
          rcases List.mem_append.mp hp with h | h
          · exact Or.inl h
          · rw [List.mem_singleton] at h
            subst h
            exact Or.inr ⟨rfl, hk⟩
        · intro p hp
          exact List.mem_append_left _ hp
        · intro hlt
          omega
        · have h5b := h5
          simp only [List.length_append, List.length_singleton] at h5b
          omega
        · intro _
          have h5b := h5
          simp only [List.length_append, List.length_singleton] at h5b
          omega
      · simp only [Hand.fill_pair_to_deck, hk, if_true, h5, if_false]
        have hnew1 : ∀ p ∈ pokers ++ [Poker.mk n s], p.number_ = n → p.suit_ ∉ rest := by
          intro p hp hpn
          rcases List.mem_append.mp hp with h | h
          · exact fun hc => hnew p h hpn (List.mem_cons_of_mem _ hc)
          · rw [List.mem_singleton] at h
            subst h
            exact hsr
        obtain ⟨i1, i2, i3, i4, i5, _⟩ := ih (pokers ++ [Poker.mk n s]) hrest hnew1 hnd1
        refine ⟨?_, ?_, i3, ?_, ?_, ?_⟩
        · intro p hp
          rcases i1 p hp with h | h
          · rcases List.mem_append.mp h with h | h
            · exact Or.inl h
            · rw [List.mem_singleton] at h
              subst h
              exact Or.inr ⟨rfl, hk⟩
          · exact Or.inr h
        · intro p hp
          exact i2 p (List.mem_append_left _ hp)
        · intro hlt t ht hkt
          rcases List.mem_cons.mp ht with h | h
          · subst h
            exact i2 _ (List.mem_append_right _ (List.mem_singleton_self _))
          · exact i4 hlt t h hkt
        · simp only [List.length_append, List.length_singleton] at i5
          omega
        · intro _
          simp only [List.length_append, List.length_singleton] at i5
          omega
    · simp only [Hand.fill_pair_to_deck, hk, Bool.false_eq_true, if_false]
      have hnew1 : ∀ p ∈ pokers, p.number_ = n → p.suit_ ∉ rest :=
        fun p hp hpn hc => hnew p hp hpn (List.mem_cons_of_mem _ hc)
      obtain ⟨i1, i2, i3, i4, i5, i6⟩ := ih pokers hrest hnew1 hnd
      refine ⟨i1, i2, i3, ?_, i5, ?_⟩
      · intro hlt t ht hkt
        rcases List.mem_cons.mp ht with h | h
        · subst h
          exact absurd hkt hk
        · exact i4 hlt t h hkt
      · rintro ⟨t, ht, hkt⟩
        rcases List.mem_cons.mp ht with h | h
        · subst h
          exact absurd hkt hk
        · exact i6 ⟨t, h, hkt⟩

theorem Hand.fill_best_pair_false (pk : PokerNumber → PokerSuit → Bool) (st : PairFill)
    (h : (Hand.fill_best_pair_to_deck pk st).1 = false) :
    (Hand.fill_best_pair_to_deck pk st).2 = st ∧
      (st.pokers.length < 5 →
        ∀ n, 0 < Hand.numberCount pk n → n ∈ st.already_used_numbers) := by
  unfold Hand.fill_best_pair_to_deck at h ⊢
  simp only at h ⊢
  split at h
  · cases h
  · rename_i hfind
    simp only [hfind, true_and]
    intro hlt n hn
    have hall := List.find?_eq_none.mp hfind n
    have hm : 0 < (if st.pokers.length ≤ 5 then min 4 (5 - st.pokers.length) else 4) := by
      split <;> omega
    have hmem : n ∈ (List.range
        (if st.pokers.length ≤ 5 then min 4 (5 - st.pokers.length) else 4)).reverse.flatMap
        (fun i => (Hand.same_number_poker_counts pk i).reverse) := by
      rw [List.mem_flatMap]
      refine ⟨0, ?_, ?_⟩
      · rw [List.mem_reverse, List.mem_range]
        exact hm
      · rw [List.mem_reverse]
        exact List.mem_filter.mpr ⟨mem_number_members n, by simpa using hn⟩
    have := hall hmem
    simpa using this

theorem Hand.fill_best_pair_true (pk : PokerNumber → PokerSuit → Bool) (st : PairFill)
    (h : (Hand.fill_best_pair_to_deck pk st).1 = true) :
    ∃ n, n ∉ st.already_used_numbers ∧ 0 < Hand.numberCount pk n ∧
      (Hand.fill_best_pair_to_deck pk st).2 =
        { already_used_numbers := n :: st.already_used_numbers
          pokers := Hand.fill_pair_to_deck pk n PokerSuit.Members.reverse st.pokers } := by
  unfold Hand.fill_best_pair_to_deck at h ⊢
  simp only at h ⊢
  split at h
  · rename_i n hfind
    refine ⟨n, ?_, ?_, by simp only [hfind]⟩
    · have := List.find?_some hfind
      simpa using this
    · have hmem := List.mem_of_find?_eq_some hfind
      rw [List.mem_flatMap] at hmem
      obtain ⟨i, _, hi⟩ := hmem
      rw [List.mem_reverse] at hi
      have := (List.mem_filter.mp hi).2
      simp only [decide_eq_true_eq] at this
      omega
  · cases h

theorem Hand.fill_best_pair_inv (pk : PokerNumber → PokerSuit → Bool) (st : PairFill)
    (hnd : st.pokers.Nodup)
    (hmem : ∀ p ∈ st.pokers, pk p.number_ p.suit_ = true ∧ p.number_ ∈ st.already_used_numbers)
    (hall : st.pokers.length < 5 → ∀ p : Poker, pk p.number_ p.suit_ = true →
      p.number_ ∈ st.already_used_numbers → p ∈ st.pokers)
    (h : (Hand.fill_best_pair_to_deck pk st).1 = true) :
    (Hand.fill_best_pair_to_deck pk st).2.pokers.Nodup ∧
      (∀ p ∈ (Hand.fill_best_pair_to_deck pk st).2.pokers, pk p.number_ p.suit_ = true ∧
        p.number_ ∈ (Hand.fill_best_pair_to_deck pk st).2.already_used_numbers) ∧
      ((Hand.fill_best_pair_to_deck pk st).2.pokers.length < 5 →
        ∀ p : Poker, pk p.number_ p.suit_ = true →
          p.number_ ∈ (Hand.fill_best_pair_to_deck pk st).2.already_used_numbers →
          p ∈ (Hand.fill_best_pair_to_deck pk st).2.pokers) ∧
      st.pokers.length < (Hand.fill_best_pair_to_deck pk st).2.pokers.length := by
  obtain ⟨n, hn, hcount, heq⟩ := Hand.fill_best_pair_true pk st h
  rw [heq]
  simp only
  have hnew : ∀ p ∈ st.pokers, p.number_ = n → p.suit_ ∉ PokerSuit.Members.reverse := by
    intro p hp hpn
    exact absurd (hpn ▸ (hmem p hp).2) hn
  obtain ⟨f1, f2, f3, f4, f5, f6⟩ := Hand.fill_pair_to_deck_spec pk n PokerSuit.Members.reverse
    st.pokers (by decide) hnew hnd
  refine ⟨f3, ?_, ?_, ?_⟩
  · intro p hp
    rcases f1 p hp with h1 | h1
    · exact ⟨(hmem p h1).1, List.mem_cons_of_mem _ (hmem p h1).2⟩
    · refine ⟨?_, ?_⟩
      · rw [h1.1]
        exact h1.2
      · rw [h1.1]
        exact List.mem_cons_self _ _
  · intro hlt p hp hpu
    rcases List.mem_cons.mp hpu with h1 | h1
    · obtain ⟨pn, ps⟩ := p
      simp only at h1 hp
      subst h1
      exact f4 hlt ps (mem_suit_members_reverse _) hp
    · exact f2 p (hall (by omega) p hp h1)
  · apply f6
    obtain ⟨s, hs⟩ := (numberCount_pos_iff pk n).mp hcount
    exact ⟨s, mem_suit_members_reverse s, hs⟩

theorem Hand.pairLoop_spec (pk : PokerNumber → PokerSuit → Bool) (fuel : Nat) (st : PairFill)
    (hnd : st.pokers.Nodup)
    (hmem : ∀ p ∈ st.pokers, pk p.number_ p.suit_ = true ∧ p.number_ ∈ st.already_used_numbers)
    (hall : st.pokers.length < 5 → ∀ p : Poker, pk p.number_ p.suit_ = true →
      p.number_ ∈ st.already_used_numbers → p ∈ st.pokers)
    (hfuel : 5 ≤ st.pokers.length + fuel) (hpos : 1 ≤ fuel) :
    ∃ st1, Hand.pairLoop pk fuel st = some st1 ∧ st1.pokers.Nodup ∧
      (∀ p ∈ st1.pokers, pk p.number_ p.suit_ = true) ∧
      (st1.pokers.length < 5 → ∀ p : Poker, pk p.number_ p.suit_ = true → p ∈ st1.pokers) := by
  induction fuel generalizing st with
  | zero => omega
  | succ f ih =>
    rw [Hand.pairLoop]
    by_cases hc : (Hand.fill_best_pair_to_deck pk st).1 = true ∧
        (Hand.fill_best_pair_to_deck pk st).2.pokers.length < 5
    · simp only [hc, and_self, if_true]
      obtain ⟨i1, i2, i3, i4⟩ := Hand.fill_best_pair_inv pk st hnd hmem hall hc.1
      exact ih _ i1 i2 i3 (by omega) (by omega)
    · simp only [hc, if_false]
      refine ⟨_, rfl, ?_⟩
      cases hb : (Hand.fill_best_pair_to_deck pk st).1 with
      | true =>
        obtain ⟨i1, i2, i3, i4⟩ := Hand.fill_best_pair_inv pk st hnd hmem hall hb
        refine ⟨i1, fun p hp => (i2 p hp).1, ?_⟩
        intro hlt
        exact absurd ⟨hb, hlt⟩ hc
      | false =>
        obtain ⟨j1, j2⟩ := Hand.fill_best_pair_false pk st hb
        rw [j1]
        refine ⟨hnd, fun p hp => (hmem p hp).1, ?_⟩
        intro hlt p hp
        exact hall hlt p hp (j2 hlt p.number_ ((numberCount_pos_iff pk _).mpr ⟨p.suit_, hp⟩))

theorem Hand.BestPairPattern_spec (pk : PokerNumber → PokerSuit → Bool) (fuel : Nat)
    (hfuel : 5 ≤ fuel) :
    ∃ d, Hand.BestPairPattern_ fuel pk = some d ∧ (d.isSome = true ↔ 5 ≤ cardCount pk) := by
  obtain ⟨st1, h1, h2, h3, h4⟩ := Hand.pairLoop_spec pk fuel
    { already_used_numbers := [], pokers := [] } List.nodup_nil
    (by intro p hp; cases hp) (by intro _ p _ hu; cases hu) (by simpa using hfuel) (by omega)
  unfold Hand.BestPairPattern_
  rw [h1]
  simp only
  by_cases hlt : st1.pokers.length < 5
  · simp only [hlt, if_true]
    refine ⟨none, rfl, ?_⟩
    have := cardCount_le_length pk st1.pokers (h4 hlt)
    simp only [Option.isSome_none, Bool.false_eq_true, false_iff]
    omega
  · simp only [hlt, if_false]
    refine ⟨_, rfl, ?_⟩
    have := length_le_cardCount pk st1.pokers h2 h3
    simp only [Option.isSome_some, true_iff]
    omega

theorem Hand.collectLoop_spec (pk : PokerNumber → PokerSuit → Bool) (FS : Bool)
    (get_poker : PokerNumber → Option Poker)
    (hget : ∀ n p, get_poker n = some p → p.number_ = n ∧ pk p.number_ p.suit_ = true)
    (rest : List PokerNumber) (pokers : List Poker) (k : Nat)
    (hrest : rest.Nodup) (h0 : PokerNumber._0 ∉ rest) (hnd : pokers.Nodup)
    (hnum : ∀ p ∈ pokers, p.number_ ∉ rest)
    (hhas : ∀ p ∈ pokers, pk p.number_ p.suit_ = true)
    (hJ : FS = true → (∃ q ∈ pokers, q.number_ = PokerNumber._0) → pokers.length = k) :
    (∀ deck, Hand.collectLoop FS get_poker rest pokers = .inl deck →
        deck.Nodup ∧ deck.length = 5 ∧ ∀ p ∈ deck, pk p.number_ p.suit_ = true) ∧
      (∀ pokers1, Hand.collectLoop FS get_poker rest pokers = .inr pokers1 →
        pokers1.Nodup ∧ (∀ p ∈ pokers1, pk p.number_ p.suit_ = true) ∧
        (FS = true → (∃ q ∈ pokers1, q.number_ = PokerNumber._0) →
          pokers1.length = k + rest.length)) := by
  induction rest generalizing pokers k with
  | nil =>
    refine ⟨fun deck h => ?_, fun pokers1 h => ?_⟩
    · rw [Hand.collectLoop] at h
      cases h
    · rw [Hand.collectLoop] at h
      cases h
      exact ⟨hnd, hhas, fun hf hq => by simpa using hJ hf hq⟩
  | cons n rest ih =>
    have hnr : n ∉ rest := (List.nodup_cons.mp hrest).1
    have hrest1 : rest.Nodup := (List.nodup_cons.mp hrest).2
    have h01 : PokerNumber._0 ∉ rest := fun hc => h0 (List.mem_cons_of_mem _ hc)
    have hn0 : n ≠ PokerNumber._0 := fun hc => h0 (hc ▸ List.mem_cons_self _ _)
    cases hg : get_poker n with
    | some poker =>
      obtain ⟨hpn, hpk⟩ := hget n poker hg
      have hnot : poker ∉ pokers := by
        intro hm
        exact hnum poker hm (hpn ▸ List.mem_cons_self _ _)
      have hnd1 : (pokers ++ [poker]).Nodup := by
        rw [List.nodup_append]
        refine ⟨hnd, List.nodup_singleton _, ?_⟩
        intro a ha hb
        rw [List.mem_singleton] at hb
        subst hb
        exact hnot ha
      have hhas1 : ∀ p ∈ pokers ++ [poker], pk p.number_ p.suit_ = true := by
        intro p hp
        rcases List.mem_append.mp hp with h | h
        · exact hhas p h
        · rw [List.mem_singleton] at h
          subst h
          exact hpk
      by_cases h5 : (pokers ++ [poker]).length = 5
      · simp only [Hand.collectLoop, hg, h5, if_true]
        refine ⟨fun deck h => ?_, fun pokers1 h => by cases h⟩
        cases h
        exact ⟨hnd1, h5, hhas1⟩
      · simp only [Hand.collectLoop, hg, h5, if_false]
        have hnum1 : ∀ p ∈ pokers ++ [poker], p.number_ ∉ rest := by
          intro p hp
          rcases List.mem_append.mp hp with h | h
          · exact fun hc => hnum p h (List.mem_cons_of_mem _ hc)
          · rw [List.mem_singleton] at h
            subst h
            rw [hpn]
            exact hnr
        have hJ1 : FS = true → (∃ q ∈ pokers ++ [poker], q.number_ = PokerNumber._0) →
            (pokers ++ [poker]).length = k + 1 := by
          intro hf hq
          obtain ⟨q, hq1, hq2⟩ := hq
          rcases List.mem_append.mp hq1 with h | h
          · have := hJ hf ⟨q, h, hq2⟩
            simp [this]
          · rw [List.mem_singleton] at h
            subst h
            exact absurd (hpn.symm.trans hq2) hn0
        obtain ⟨i1, i2⟩ := ih (pokers ++ [poker]) (k + 1) hrest1 h01 hnd1 hnum1 hhas1 hJ1
        refine ⟨i1, fun pokers1 h => ?_⟩
        obtain ⟨j1, j2, j3⟩ := i2 pokers1 h
        refine ⟨j1, j2, fun hf hq => ?_⟩
        have := j3 hf hq
        simp only [List.length_cons]
        omega
    | none =>
      simp only [Hand.collectLoop, hg]
      have hnd1 : (if FS = true then [] else pokers).Nodup := by
        split
        · exact List.nodup_nil
        · exact hnd
      have hsub : ∀ p ∈ (if FS = true then [] else pokers), p ∈ pokers := by
        intro p hp
        split at hp
        · cases hp
        · exact hp
      have hJ1 : FS = true → (∃ q ∈ (if FS = true then [] else pokers),
          q.number_ = PokerNumber._0) → (if FS = true then [] else pokers).length = k + 1 := by
        intro hf hq
        obtain ⟨q, hq1, _⟩ := hq
        simp only [hf, if_true] at hq1
        cases hq1
      obtain ⟨i1, i2⟩ := ih (if FS = true then [] else pokers) (k + 1) hrest1 h01 hnd1
        (fun p hp hc => hnum p (hsub p hp) (List.mem_cons_of_mem _ hc))
        (fun p hp => hhas p (hsub p hp)) hJ1
      refine ⟨i1, fun pokers1 h => ?_⟩
      obtain ⟨j1, j2, j3⟩ := i2 pokers1 h
      refine ⟨j1, j2, fun hf hq => ?_⟩
      have := j3 hf hq
      simp only [List.length_cons]
      omega

theorem Hand.CollectNonPairDeck_spec (pk : PokerNumber → PokerSuit → Bool) (FS : Bool)
    (get_poker : PokerNumber → Option Poker)
    (hget : ∀ n p, get_poker n = some p → p.number_ = n ∧ pk p.number_ p.suit_ = true)
    (deck : List Poker) (h : Hand.CollectNonPairDeck_ FS get_poker = some deck) :
    5 ≤ cardCount pk := by
  have hgood : deck.Nodup ∧ deck.length = 5 ∧ ∀ p ∈ deck, pk p.number_ p.suit_ = true := by
    unfold Hand.CollectNonPairDeck_ at h
    obtain ⟨L, hL, hLnd, hL0, hLlen⟩ : ∃ L : List PokerNumber,
        PokerNumber.Members.reverse = PokerNumber._0 :: L ∧ L.Nodup ∧
        PokerNumber._0 ∉ L ∧ L.length = 9 :=
      ⟨[._9, ._8, ._7, ._6, ._5, ._4, ._3, ._2, ._1], rfl, by decide, by decide, rfl⟩
    rw [hL] at h
    have hstart : ∃ pokers0 : List Poker,
        Hand.collectLoop FS get_poker (PokerNumber._0 :: L) [] =
          Hand.collectLoop FS get_poker L pokers0 ∧
        pokers0.Nodup ∧ pokers0.length ≤ 1 ∧
        (∀ p ∈ pokers0, p.number_ = PokerNumber._0 ∧ pk p.number_ p.suit_ = true) := by
      cases hg : get_poker PokerNumber._0 with
      | some poker =>
        refine ⟨[poker], ?_, List.nodup_singleton _, le_refl _, ?_⟩
        · rw [Hand.collectLoop]
          simp only [hg, List.nil_append, List.length_singleton, OfNat.one_ne_ofNat, if_false]
        · intro p hp
          rw [List.mem_singleton] at hp
          subst hp
          exact hget _ _ hg
      | none =>
        refine ⟨[], ?_, List.nodup_nil, by simp, ?_⟩
        · rw [Hand.collectLoop]
          simp only [hg, ite_self]
        · intro p hp
          cases hp
    obtain ⟨pokers0, hs1, hs2, hs3, hs4⟩ := hstart
    rw [hs1] at h
    have hnum0 : ∀ p ∈ pokers0, p.number_ ∉ L := by
      intro p hp
      rw [(hs4 p hp).1]
      exact hL0
    have hJ0 : FS = true → (∃ q ∈ pokers0, q.number_ = PokerNumber._0) →
        pokers0.length = 1 := by
      intro _ hq
      obtain ⟨q, hq1, _⟩ := hq
      have h1 : pokers0 ≠ [] := List.ne_nil_of_mem hq1
      have h2 : 0 < pokers0.length := List.length_pos.mpr h1
      omega
    obtain ⟨i1, i2⟩ := Hand.collectLoop_spec pk FS get_poker hget L pokers0 1 hLnd hL0 hs2
      hnum0 (fun p hp => (hs4 p hp).2) hJ0
    cases hl : Hand.collectLoop FS get_poker L pokers0 with
    | inl d =>
      rw [hl] at h
      simp only [Option.some.injEq] at h
      subst h
      exact i1 d hl
    | inr pokers1 =>
      rw [hl] at h
      obtain ⟨j1, j2, j3⟩ := i2 pokers1 hl
      cases hg : get_poker PokerNumber._0 with
      | none =>
        rw [hg] at h
        cases h
      | some poker =>
        simp only [hg] at h
        split at h
        · rename_i hc
          simp only [Option.some.injEq] at h
          subst h
          obtain ⟨hpn, hpk⟩ := hget _ _ hg
          have hnot : poker ∉ pokers1 := by
            intro hm
            have := j3 hc.1 ⟨poker, hm, hpn⟩
            omega
          refine ⟨?_, by simp [hc.2], ?_⟩
          · rw [List.nodup_append]
            refine ⟨j1, List.nodup_singleton _, ?_⟩
            intro a ha hb
            rw [List.mem_singleton] at hb
            subst hb
            exact hnot ha
          · intro p hp
            rcases List.mem_append.mp hp with h | h
            · exact j2 p h
            · rw [List.mem_singleton] at h
              subst h
              exact hpk
        · cases h
  have := length_le_cardCount pk deck hgood.1 hgood.2.2
  omega

theorem Hand.BestFlushPattern_spec (pk : PokerNumber → PokerSuit → Bool) (FS : Bool)
    (suit : PokerSuit) (d : Deck) (h : Hand.BestFlushPattern_ pk FS suit = some d) :
    5 ≤ cardCount pk := by
  unfold Hand.BestFlushPattern_ at h
  rw [Option.map_eq_some'] at h
  obtain ⟨deck, hd, _⟩ := h
  refine Hand.CollectNonPairDeck_spec pk FS _ ?_ deck hd
  intro n p hp
  split at hp
  · rename_i hk
    simp only [Option.some.injEq] at hp
    subst hp
    exact ⟨rfl, hk⟩
  · cases hp

theorem Hand.BestNonFlushNonPairPattern_spec (pk : PokerNumber → PokerSuit → Bool)
    (d : Deck) (h : Hand.BestNonFlushNonPairPattern_ pk = some d) : 5 ≤ cardCount pk := by
  unfold Hand.BestNonFlushNonPairPattern_ at h
  rw [Option.map_eq_some'] at h
  obtain ⟨deck, hd, _⟩ := h
  refine Hand.CollectNonPairDeck_spec pk true _ ?_ deck hd
  intro n p hp
  rw [Option.map_eq_some'] at hp
  obtain ⟨s, hs, hps⟩ := hp
  subst hps
  exact ⟨rfl, by simpa using List.find?_some hs⟩

theorem Hand.update_deck_isSome (best deck : Option Deck) :
    (best.isSome = true → (Hand.update_deck best deck).isSome = true) ∧
      (deck.isSome = true → (Hand.update_deck best deck).isSome = true) ∧
      ((Hand.update_deck best deck).isSome = true → best.isSome = true ∨ deck.isSome = true) := by
  cases deck with
  | none => simp [Hand.update_deck]
  | some d =>
    cases best with
    | none => simp [Hand.update_deck]
    | some b =>
      simp only [Hand.update_deck]
      split <;> simp

theorem Hand.foldl_update_isSome (f : PokerSuit → Option Deck) (suits : List PokerSuit)
    (best : Option Deck) :
    (best.isSome = true →
        (suits.foldl (fun b suit => Hand.update_deck b (f suit)) best).isSome = true) ∧
      ((suits.foldl (fun b suit => Hand.update_deck b (f suit)) best).isSome = true →
        best.isSome = true ∨ ∃ suit, (f suit).isSome = true) := by
  induction suits generalizing best with
  | nil => exact ⟨fun h => h, fun h => Or.inl h⟩
  | cons s rest ih =>
    simp only [List.foldl_cons]
    obtain ⟨u1, _, u3⟩ := Hand.update_deck_isSome best (f s)
    refine ⟨fun h => (ih _).1 (u1 h), fun h => ?_⟩
    rcases (ih _).2 h with h1 | h1
    · rcases u3 h1 with h2 | h2
      · exact Or.inl h2
      · exact Or.inr ⟨s, h2⟩
    · exact Or.inr h1

theorem Hand.computeBestDeck_spec (pk : PokerNumber → PokerSuit → Bool) (fuel : Nat)
    (hfuel : 5 ≤ fuel) :
    ∃ d, Hand.computeBestDeck fuel pk = some d ∧ (d.isSome = true ↔ 5 ≤ cardCount pk) := by
  have hflush : ∀ FS suit, (Hand.BestFlushPattern_ pk FS suit).isSome = true →
      5 ≤ cardCount pk := by
    intro FS suit h
    obtain ⟨d, hd⟩ := Option.isSome_iff_exists.mp h
    exact Hand.BestFlushPattern_spec pk FS suit d hd
  have hstraight : (Hand.BestNonFlushNonPairPattern_ pk).isSome = true → 5 ≤ cardCount pk := by
    intro h
    obtain ⟨d, hd⟩ := Option.isSome_iff_exists.mp h
    exact Hand.BestNonFlushNonPairPattern_spec pk d hd
  obtain ⟨pair, hpair, hpiff⟩ := Hand.BestPairPattern_spec pk fuel hfuel
  unfold Hand.computeBestDeck
  simp only
  split
  · rename_i h1
    refine ⟨_, rfl, fun _ => ?_, fun _ => h1⟩
    rcases (Hand.foldl_update_isSome _ _ _).2 h1 with h | ⟨suit, h⟩
    · cases h
    · exact hflush true suit h
  · rename_i h1
    simp only [hpair]
    have hb2 : (Hand.update_deck
        (PokerSuit.Members.reverse.foldl
          (fun best suit => Hand.update_deck best (Hand.BestFlushPattern_ pk true suit)) none)
        pair).isSome = true ↔ 5 ≤ cardCount pk := by
      obtain ⟨_, u2, u3⟩ := Hand.update_deck_isSome
        (PokerSuit.Members.reverse.foldl
          (fun best suit => Hand.update_deck best (Hand.BestFlushPattern_ pk true suit)) none)
        pair
      constructor
      · intro h
        rcases u3 h with h2 | h2
        · exact absurd h2 h1
        · exact hpiff.mp h2
      · intro h
        exact u2 (hpiff.mpr h)
    split
    · exact ⟨_, rfl, hb2⟩
    · have hb3 : (PokerSuit.Members.reverse.foldl
          (fun best suit => Hand.update_deck best (Hand.BestFlushPattern_ pk false suit))
          (Hand.update_deck
            (PokerSuit.Members.reverse.foldl
              (fun best suit => Hand.update_deck best (Hand.BestFlushPattern_ pk true suit))
              none) pair)).isSome = true ↔ 5 ≤ cardCount pk := by
        constructor
        · intro h
          rcases (Hand.foldl_update_isSome _ _ _).2 h with h2 | ⟨suit, h2⟩
          · exact hb2.mp h2
          · exact hflush false suit h2
        · intro h
          exact (Hand.foldl_update_isSome _ _ _).1 (hb2.mpr h)
      split
      · exact ⟨_, rfl, hb3⟩
      · refine ⟨_, rfl, ?_⟩
        obtain ⟨u1, _, u3⟩ := Hand.update_deck_isSome
          (PokerSuit.Members.reverse.foldl
            (fun best suit => Hand.update_deck best (Hand.BestFlushPattern_ pk false suit))
            (Hand.update_deck
              (PokerSuit.Members.reverse.foldl
                (fun best suit => Hand.update_deck best (Hand.BestFlushPattern_ pk true suit))
                none) pair))
          (Hand.BestNonFlushNonPairPattern_ pk)
        constructor
        · intro h
          rcases u3 h with h2 | h2
          · exact hb3.mp h2
          · exact hstraight h2
        · intro h
          exact u1 (hb3.mpr h)

theorem cardCount_empty : cardCount (fun _ _ => false) = 0 := by
  simp [cardCount]

theorem Hand.apply_cache (fuel : Nat) (hfuel : 5 ≤ fuel) (h : Hand) (op : HandOp)
    (hinv : h.need_refresh_ = false → Hand.computeBestDeck fuel h.pokers_ = some h.best_deck_) :
    ∃ h1, Hand.apply fuel h op = some h1 ∧
      (h1.need_refresh_ = false → Hand.computeBestDeck fuel h1.pokers_ = some h1.best_deck_) := by
  cases op with
  | Add poker =>
    refine ⟨_, rfl, ?_⟩
    unfold Hand.Add
    by_cases hold : h.pokers_ poker.number_ poker.suit_ = false
    · simp [hold]
    · simp only [hold, if_false]
      have hfun : (fun n s => if n = poker.number_ ∧ s = poker.suit_ then true
          else h.pokers_ n s) = h.pokers_ := by
        funext n s
        split
        · rename_i hc
          rw [hc.1, hc.2]
          simpa using hold
        · rfl
      simp only [hfun]
      exact hinv
  | Remove poker =>
    refine ⟨_, rfl, ?_⟩
    unfold Hand.Remove
    by_cases hold : h.pokers_ poker.number_ poker.suit_ = true
    · simp [hold]
    · simp only [hold, if_false]
      have hfun : (fun n s => if n = poker.number_ ∧ s = poker.suit_ then false
          else h.pokers_ n s) = h.pokers_ := by
        funext n s
        split
        · rename_i hc
          rw [hc.1, hc.2]
          simpa using hold
        · rfl
      simp only [hfun]
      exact hinv
  | BestDeck =>
    unfold Hand.apply Hand.BestDeck
    by_cases hr : h.need_refresh_ = false
    · simp only [hr, if_true, Option.map_some']
      exact ⟨_, rfl, hinv⟩
    · obtain ⟨d, hd, _⟩ := Hand.computeBestDeck_spec h.pokers_ fuel hfuel
      simp only [hr, if_false, hd, Option.map_some']
      exact ⟨_, rfl, fun _ => hd⟩

theorem Hand.run_cache (fuel : Nat) (hfuel : 5 ≤ fuel) (ops : List HandOp) (h : Hand)
    (hinv : h.need_refresh_ = false → Hand.computeBestDeck fuel h.pokers_ = some h.best_deck_) :
    ∃ h1, Hand.run fuel h ops = some h1 ∧
      (h1.need_refresh_ = false → Hand.computeBestDeck fuel h1.pokers_ = some h1.best_deck_) := by
  induction ops generalizing h with
  | nil => exact ⟨h, rfl, hinv⟩
  | cons op ops ih =>
    obtain ⟨h1, ha, hi⟩ := Hand.apply_cache fuel hfuel h op hinv
    rw [Hand.run]
    simp only [ha]
    exact ih h1 hi

/-- C35: for every hand reached from the empty hand by `Add`, `Remove` and `BestDeck` calls
(with room for five iterations of the loop of `BestPairPattern_`, which is all it ever
needs), `BestDeck()` returns; it returns a deck if and only if the hand holds at least five
pokers; what it returns, from the cache or not, is the result recomputed from the pokers of
the hand; and it leaves the pokers as they are. -/
theorem hand_best_deck (fuel : Nat) (ops : List HandOp) (hfuel : 5 ≤ fuel) :
    ∃ h d h1, Hand.run fuel Hand.new ops = some h ∧ Hand.BestDeck fuel h = some (d, h1) ∧
      (d.isSome = true ↔ 5 ≤ cardCount h.pokers_) ∧
      Hand.computeBestDeck fuel h.pokers_ = some d ∧
      h1.pokers_ = h.pokers_ ∧ h1.best_deck_ = d := by
  have hnew : Hand.new.need_refresh_ = false →
      Hand.computeBestDeck fuel Hand.new.pokers_ = some Hand.new.best_deck_ := by
    intro _
    obtain ⟨d, hd, hiff⟩ := Hand.computeBestDeck_spec Hand.new.pokers_ fuel hfuel
    have hnone : d = none := by
      cases d with
      | none => rfl
      | some x =>
        have := hiff.mp rfl
        simp only [Hand.new, cardCount_empty] at this
        omega
    rw [hd, hnone]
    rfl
  obtain ⟨h, hrun, hinv⟩ := Hand.run_cache fuel hfuel ops Hand.new hnew
  obtain ⟨d, hd, hiff⟩ := Hand.computeBestDeck_spec h.pokers_ fuel hfuel
  by_cases hr : h.need_refresh_ = false
  · have hc := hinv hr
    rw [hd] at hc
    simp only [Option.some.injEq] at hc
    refine ⟨h, h.best_deck_, h, hrun, ?_, ?_, ?_, rfl, rfl⟩
    · simp [Hand.BestDeck, hr]
    · rw [← hc]
      exact hiff
    · rw [← hc]
      exact hd
  · refine ⟨h, d, { h with best_deck_ := d, need_refresh_ := false }, hrun, ?_, hiff, hd,
      rfl, rfl⟩
    simp [Hand.BestDeck, hr, hd]

/-- Witness for C35: the hand built by adding `□1 △2 □3 △4 ☆X` and `☆9`, asking for the best
deck, and removing `☆9`; the best deck is the straight `4 3 2 1 X`. -/
theorem hand_best_deck_witness :
    5 ≤ 5 ∧
    (Hand.run 5 Hand.new
        [.Add ⟨._1, .RED⟩, .Add ⟨._2, .BLUE⟩, .Add ⟨._3, .RED⟩, .Add ⟨._4, .BLUE⟩,
          .Add ⟨._0, .GREEN⟩, .Add ⟨._9, .GREEN⟩, .BestDeck, .Remove ⟨._9, .GREEN⟩]).bind
        (fun h => (Hand.BestDeck 5 h).map (fun r => r.1)) =
      some (some ⟨.STRAIGHT,
        [⟨._4, .BLUE⟩, ⟨._3, .RED⟩, ⟨._2, .BLUE⟩, ⟨._1, .RED⟩, ⟨._0, .GREEN⟩]⟩) ∧
    (∃ h d h1,
      Hand.run 5 Hand.new
        [.Add ⟨._1, .RED⟩, .Add ⟨._2, .BLUE⟩, .Add ⟨._3, .RED⟩, .Add ⟨._4, .BLUE⟩,
          .Add ⟨._0, .GREEN⟩, .Add ⟨._9, .GREEN⟩, .BestDeck, .Remove ⟨._9, .GREEN⟩] = some h ∧
      Hand.BestDeck 5 h = some (d, h1) ∧
      (d.isSome = true ↔ 5 ≤ cardCount h.pokers_) ∧
      Hand.computeBestDeck 5 h.pokers_ = some d ∧
      h1.pokers_ = h.pokers_ ∧ h1.best_deck_ = d) :=
  ⟨by decide, by decide,
    hand_best_deck 5
      [.Add ⟨._1, .RED⟩, .Add ⟨._2, .BLUE⟩, .Add ⟨._3, .RED⟩, .Add ⟨._4, .BLUE⟩,
        .Add ⟨._0, .GREEN⟩, .Add ⟨._9, .GREEN⟩, .BestDeck, .Remove ⟨._9, .GREEN⟩]
      (by decide)⟩

end LgtBot
